import Mathlib

/-!
# Paint device contexts of the MSW port (src/msw/dcclient.cpp)

A shallow embedding of the paint-DC cache of `src/msw/dcclient.cpp`:
the global map `gs_PaintDCInfos`, the records `wxPaintDCInfoOur`, the three
device-context layers `wxWindowDCImpl`, `wxClientDCImpl`, `wxPaintDCImpl`, and
the static functions `FindInCache`, `FindDCInCache` and `EndPaint`.

Pointers and handles are natural numbers and `0` is the null pointer / null
handle.  Global state is passed explicitly.  Every call that leaves the file
(a Win32 function or a method of a base class) is appended to a call log, so
that statements such as "exactly one BeginPaint" are statements about the log.
-/

namespace WxPaint

/-! ## Data model -/

/-- A `wxWindow*`; `0` is `nullptr`. -/
abbrev Window := Nat

/-- A native window handle. -/
abbrev HWND := Nat

/-- A native device-context handle (`HDC`, `WXHDC`); `0` is the null handle. -/
abbrev HDC := Nat

/-- An address of an object allocated by this file. -/
abbrev Addr := Nat

/-- What the file reads from its surroundings: accessors of the window object
and the two build options the file is conditional on. -/
structure Env where
  /-- The macro `GetHwndOf(win)`. -/
  GetHwndOf : Window → HWND
  /-- The method `wxWindow::GetClientAreaOrigin()`. -/
  GetClientAreaOrigin : Window → Int × Int
  /-- The method `wxWindow::GetClientSize()`. -/
  GetClientSize : Window → Int × Int
  /-- The method `wxWindow::GetSize()`. -/
  GetSize : Window → Int × Int
  /-- The build option `wxUSE_PALETTE`. -/
  wxUSE_PALETTE : Bool
  /-- Whether `__WXUNIVERSAL__` is defined. -/
  WXUNIVERSAL : Bool

/-- The calls that leave `dcclient.cpp`, as they are logged.  A call that
returns a handle carries the returned value.  The `PAINTSTRUCT` passed to
`BeginPaint` / `EndPaint` is identified by its address. -/
inductive Call where
  | BeginPaint (hwnd : HWND) (ps : Addr) (ret : HDC)
  | EndPaint (hwnd : HWND) (ps : Addr)
  | GetWindowDC (hwnd : HWND) (ret : HDC)
  | GetDC (hwnd : HWND) (ret : HDC)
  | ReleaseDC (hwnd : HWND) (hdc : HDC)
  | DeleteDC (hdc : HDC)
  | SetBkMode (hdc : HDC)
  | InitializePalette (hdc : HDC)
  | SetDeviceOrigin (hdc : HDC) (x y : Int)
  | DoSetClippingRegion (hdc : HDC) (x y w h : Int)
  | SelectOldObjects (hdc : HDC)
deriving DecidableEq

/-- The class `wxPaintDCInfo` with its only concrete subclass
`wxPaintDCInfoOur`: the cached `m_hdc`, the window `m_hwnd` and the member
`m_ps`, represented by its address (one per allocated record). -/
structure wxPaintDCInfo where
  m_hdc : HDC
  m_hwnd : HWND
  m_ps : Addr
deriving DecidableEq

/-- The method `wxPaintDCInfo::GetHDC`. -/
def wxPaintDCInfo.GetHDC (info : wxPaintDCInfo) : HDC := info.m_hdc

/-- An entry of `wxMSWImpl::paintStack` (declared in wx/msw/private/paint.h). -/
structure PaintData where
  window : Window
  createdPaintDC : Bool
deriving DecidableEq

/-- The type `PaintDCInfos`, a `std::unordered_map<wxWindow*, wxPaintDCInfo*>`,
as an association list. -/
abbrev PaintDCInfos := List (Window × wxPaintDCInfo)

/-- The global state the file works on. -/
structure State where
  /-- The global map `gs_PaintDCInfos`. -/
  gs_PaintDCInfos : PaintDCInfos
  /-- The stack `wxMSWImpl::paintStack`, its top first. -/
  paintStack : List PaintData
  /-- The log of calls leaving the file, oldest first. -/
  calls : List Call
  /-- The address the next `new` returns. -/
  heapNext : Addr
deriving DecidableEq

/-- The members of a device-context implementation object this file reads or
writes. -/
structure wxDCImpl where
  m_window : Window
  m_hDC : HDC
  m_bOwnsDC : Bool
  m_clipping : Bool
  m_deviceOrigin : Int × Int
deriving DecidableEq

/-- The `wxCHECK_RET` conditions of the file: the three of the `wxPaintDCImpl`
constructor, the "invalid window" one of the `wxWindowDCImpl` and
`wxClientDCImpl` constructors, and the "requires an existing device context"
one of the `wxPaintDCExImpl` constructor. -/
inductive CheckFailure where
  | nullCanvas
  | outsidePaintHandler
  | wrongWindow
  | invalidWindow
  | noDeviceContext
deriving DecidableEq

/-- What a constructor leaves behind: the global state, the object, and the
`wxCHECK_RET` that made it return early, if one did. -/
structure Constructed where
  state : State
  dc : wxDCImpl
  failed : Option CheckFailure
deriving DecidableEq

/-! ## The map `gs_PaintDCInfos` -/

/-- The method `find` of `std::unordered_map`; `none` is `end()`. -/
def mapFind : PaintDCInfos → Window → Option wxPaintDCInfo
  | [], _ => none
  | (k, v) :: rest, win => if k = win then some v else mapFind rest win

/-- The statement `m[win] = info`: the entry of `win` is overwritten when there
is one and inserted otherwise. -/
def mapAssign : PaintDCInfos → Window → wxPaintDCInfo → PaintDCInfos
  | [], win, info => [(win, info)]
  | (k, v) :: rest, win, info =>
    if k = win then (win, info) :: rest else (k, v) :: mapAssign rest win info

/-- The method `erase(key)` of `std::unordered_map`. -/
def mapErase (m : PaintDCInfos) (win : Window) : PaintDCInfos :=
  m.filter (fun e => decide (e.1 ≠ win))

/-- The number of entries stored under `win`. -/
def mapCount (m : PaintDCInfos) (win : Window) : Nat :=
  (m.filter (fun e => decide (e.1 = win))).length

/-- The keys of an `unordered_map` are pairwise distinct. -/
def UniqueKeys (m : PaintDCInfos) : Prop := (m.map Prod.fst).Nodup

/-! ## Logging -/

/-- Append a call to the log. -/
def State.log (s : State) (c : Call) : State := { s with calls := s.calls ++ [c] }

/-- Whether a logged call is a `::BeginPaint`. -/
def Call.isBeginPaint : Call → Bool
  | .BeginPaint _ _ _ => true
  | _ => false

/-- Whether a logged call is a `::EndPaint`. -/
def Call.isEndPaint : Call → Bool
  | .EndPaint _ _ => true
  | _ => false

/-- The number of `::BeginPaint` calls in a log. -/
def countBeginPaint (l : List Call) : Nat := (l.filter Call.isBeginPaint).length

/-- The number of `::EndPaint` calls in a log. -/
def countEndPaint (l : List Call) : Nat := (l.filter Call.isEndPaint).length

/-! ## Base class -/

/-- Modelled from the spec: the base-class constructor `wxMSWDCImpl(owner)`,
which is not in the sources.  It leaves the handle null, does not own a DC
("m_bOwnsDC was already set to false in the base class ctor"), and has no
window yet. -/
def wxMSWDCImpl_ctor : wxDCImpl :=
  { m_window := 0, m_hDC := 0, m_bOwnsDC := false, m_clipping := false,
    m_deviceOrigin := (0, 0) }

/-- Modelled from the spec: the base-class method `InitWindow(window)`, which
is not in the sources; it associates the object with the window. -/
def InitWindow (dc : wxDCImpl) (window : Window) : wxDCImpl :=
  { dc with m_window := window }

/-- Modelled from the spec: the base-class method `SetDeviceOrigin(x, y)`,
which is not in the sources; it shifts the origin of the context to `(x, y)`. -/
def SetDeviceOrigin (s : State) (dc : wxDCImpl) (x y : Int) : State × wxDCImpl :=
  (s.log (.SetDeviceOrigin dc.m_hDC x y), { dc with m_deviceOrigin := (x, y) })

/-! ## wxWindowDCImpl and wxClientDCImpl -/

/-- The method `wxWindowDCImpl::InitDC`. -/
def wxWindowDCImpl_InitDC (env : Env) (s : State) (dc : wxDCImpl) : State :=
  let s1 := s.log (.SetBkMode dc.m_hDC)
  if env.wxUSE_PALETTE then s1.log (.InitializePalette dc.m_hDC) else s1

/-- The method `wxClientDCImpl::InitDC`. -/
def wxClientDCImpl_InitDC (env : Env) (s : State) (dc : wxDCImpl) : State × wxDCImpl :=
  let s1 := wxWindowDCImpl_InitDC env s dc
  let ptOrigin := env.GetClientAreaOrigin dc.m_window
  let r := if ptOrigin.1 ≠ 0 ∨ ptOrigin.2 ≠ 0
    then SetDeviceOrigin s1 dc ptOrigin.1 ptOrigin.2
    else (s1, dc)
  if env.WXUNIVERSAL then
    let size := env.GetClientSize dc.m_window
    (r.1.log (.DoSetClippingRegion dc.m_hDC 0 0 size.1 size.2), r.2)
  else r

/-! ## wxPaintDCImpl -/

/-- The static method `wxPaintDCImpl::FindInCache`; `none` is `nullptr`. -/
def FindInCache (s : State) (win : Window) : Option wxPaintDCInfo :=
  mapFind s.gs_PaintDCInfos win

/-- The static method `wxPaintDCImpl::FindDCInCache`. -/
def FindDCInCache (s : State) (win : Window) : HDC :=
  match FindInCache s win with
  | some info => info.GetHDC
  | none => 0

/-- The expression `new wxPaintDCInfoOur(win)`: the record is allocated, its
constructor calls `::BeginPaint(GetHwndOf(win), &m_ps)`, which returns
`beginPaintRet`, and stores `GetHwndOf(win)`. -/
def wxPaintDCInfoOur_new (env : Env) (beginPaintRet : HDC) (win : Window) (s : State) :
    State × wxPaintDCInfo :=
  let ps := s.heapNext
  let s1 := { s with heapNext := s.heapNext + 1 }
  (s1.log (.BeginPaint (env.GetHwndOf win) ps beginPaintRet),
   { m_hdc := beginPaintRet, m_hwnd := env.GetHwndOf win, m_ps := ps })

/-- The statement `delete info`: the destructor of `wxPaintDCInfoOur` calls
`::EndPaint(m_hwnd, &m_ps)`. -/
def wxPaintDCInfo_delete (info : wxPaintDCInfo) (s : State) : State :=
  s.log (.EndPaint info.m_hwnd info.m_ps)

/-- The part of the `wxPaintDCImpl` constructor from "do we have a DC for this
window in the cache?" to the closing brace of the `if ( !m_hDC )` block. -/
def wxPaintDCImpl_acquire (env : Env) (beginPaintRet : HDC) (s : State) (dc : wxDCImpl) :
    State × wxDCImpl :=
  let hdc := FindDCInCache s dc.m_window
  if hdc = 0 then
    let r := wxPaintDCInfoOur_new env beginPaintRet dc.m_window s
    ({ r.1 with gs_PaintDCInfos := mapAssign r.1.gs_PaintDCInfos dc.m_window r.2 },
     { dc with m_hDC := r.2.GetHDC })
  else
    (s, { dc with m_hDC := hdc })

/-- The constructor `wxPaintDCImpl::wxPaintDCImpl(wxDC *owner, wxWindow *window)`.
`beginPaintRet` is what `::BeginPaint` returns if the constructor calls it. -/
def wxPaintDCImpl_ctor (env : Env) (beginPaintRet : HDC) (window : Window) (s : State) :
    Constructed :=
  let dc0 := wxMSWDCImpl_ctor
  if window = 0 then ⟨s, dc0, some .nullCanvas⟩
  else
    match s.paintStack with
    | [] => ⟨s, dc0, some .outsidePaintHandler⟩
    | top :: below =>
      if top.window ≠ window then ⟨s, dc0, some .wrongWindow⟩
      else
        let s1 := { s with paintStack := { top with createdPaintDC := true } :: below }
        let dc1 := InitWindow dc0 window
        let r := wxPaintDCImpl_acquire env beginPaintRet s1 dc1
        if r.2.m_hDC = 0 then ⟨r.1, r.2, none⟩
        else
          let r2 := wxClientDCImpl_InitDC env r.1 r.2
          ⟨r2.1, { r2.2 with m_clipping := true }, none⟩

/-- The static method `wxPaintDCImpl::EndPaint`. -/
def EndPaint (win : Window) (s : State) : State :=
  match FindInCache s win with
  | some info =>
    wxPaintDCInfo_delete info { s with gs_PaintDCInfos := mapErase s.gs_PaintDCInfos win }
  | none => s

/-- Several `wxPaintDCImpl` objects constructed one after the other for the
same window; the list gives what `::BeginPaint` would return to each. -/
def constructMany (env : Env) (window : Window) : List HDC → State → State × List wxDCImpl
  | [], s => (s, [])
  | ret :: rets, s =>
    let c := wxPaintDCImpl_ctor env ret window s
    let rest := constructMany env window rets c.state
    (rest.1, c.dc :: rest.2)

/-! ## The paint-notification boundary -/

/-- Modelled from the spec: entering a paint notification, "push W onto
PaintNotificationStack"; the caller is not in the sources.  A new entry has not
created a paint DC yet. -/
def paintStack_push (w : Window) (s : State) : State :=
  { s with paintStack := { window := w, createdPaintDC := false } :: s.paintStack }

/-- Modelled from the spec: leaving a paint notification, "pop
PaintNotificationStack"; the caller is not in the sources. -/
def paintStack_pop (s : State) : State :=
  { s with paintStack := s.paintStack.tail }

/-- A sample environment: window `w` has native handle `100 + w`, window `2`
has a client-area origin of `(0, 24)`. -/
def sampleEnv : Env :=
  { GetHwndOf := fun w => 100 + w,
    GetClientAreaOrigin := fun w => if w = 2 then (0, 24) else (0, 0),
    GetClientSize := fun _ => (640, 480),
    GetSize := fun _ => (648, 510),
    wxUSE_PALETTE := true,
    WXUNIVERSAL := false }

/-- The state before any paint notification. -/
def emptyState : State :=
  { gs_PaintDCInfos := [], paintStack := [], calls := [], heapNext := 1 }

/-! ## Constructors of the window and client layers -/

/-- The constructor `wxWindowDCImpl::wxWindowDCImpl(wxDC *owner, wxWindow *window)`.
`getWindowDCRet` is what `::GetWindowDC` returns. -/
def wxWindowDCImpl_ctor (env : Env) (getWindowDCRet : HDC) (window : Window) (s : State) :
    Constructed :=
  let dc0 := wxMSWDCImpl_ctor
  if window = 0 then ⟨s, dc0, some .invalidWindow⟩
  else
    let dc1 := InitWindow dc0 window
    let s1 := s.log (.GetWindowDC (env.GetHwndOf dc1.m_window) getWindowDCRet)
    let dc2 := { dc1 with m_hDC := getWindowDCRet }
    ⟨wxWindowDCImpl_InitDC env s1 dc2, dc2, none⟩

/-- The constructor `wxClientDCImpl::wxClientDCImpl(wxDC *owner, wxWindow *window)`.
`getDCRet` is what `::GetDC` returns. -/
def wxClientDCImpl_ctor (env : Env) (getDCRet : HDC) (window : Window) (s : State) :
    Constructed :=
  let dc0 := wxMSWDCImpl_ctor
  if window = 0 then ⟨s, dc0, some .invalidWindow⟩
  else
    let dc1 := InitWindow dc0 window
    let s1 := s.log (.GetDC (env.GetHwndOf window) getDCRet)
    let dc2 := { dc1 with m_hDC := getDCRet }
    let r := wxClientDCImpl_InitDC env s1 dc2
    ⟨r.1, r.2, none⟩

/-! ## Destructors -/

/-- Modelled from the spec: the base-class destructor `~wxMSWDCImpl`, which is
not in the sources.  A context releases its handle on destruction; by the
comments of the source a handle that is not owned "will be released (and not
deleted)", and a null `m_hDC` prevents "the base class dtor from ReleaseDC()ing
it again". -/
def wxMSWDCImpl_dtor (env : Env) (s : State) (dc : wxDCImpl) : State :=
  if dc.m_hDC = 0 then s
  else if dc.m_bOwnsDC then s.log (.DeleteDC dc.m_hDC)
  else s.log (.ReleaseDC (if dc.m_window = 0 then 0 else env.GetHwndOf dc.m_window) dc.m_hDC)

/-- The body of the destructor `wxPaintDCImpl::~wxPaintDCImpl`;
`SelectOldObjects` is a method of the base class. -/
def wxPaintDCImpl_dtor (s : State) (dc : wxDCImpl) : State × wxDCImpl :=
  if dc.m_hDC ≠ 0 then
    (s.log (.SelectOldObjects dc.m_hDC), { dc with m_hDC := 0 })
  else (s, dc)

/-- The destruction of a `wxPaintDCImpl` object: the body of its destructor,
then (the destructor of `wxClientDCImpl` being empty) the one of the base
class. -/
def wxPaintDCImpl_destroy (env : Env) (s : State) (dc : wxDCImpl) : State :=
  wxMSWDCImpl_dtor env (wxPaintDCImpl_dtor s dc).1 (wxPaintDCImpl_dtor s dc).2

/-- Whether a logged call gives a handle back to the system. -/
def Call.isRelease : Call → Bool
  | .EndPaint _ _ => true
  | .ReleaseDC _ _ => true
  | .DeleteDC _ => true
  | _ => false

/-- Whether a logged call is a `SetDeviceOrigin`. -/
def Call.isSetDeviceOrigin : Call → Bool
  | .SetDeviceOrigin _ _ _ => true
  | _ => false

/-- The calls logged between state `s` and a later state `s1`. -/
def issued (s s1 : State) : List Call := s1.calls.drop s.calls.length

/-! ## Runs of paint notifications -/

/-- The steps of a run that obeys the paint-notification boundary contract. -/
inductive Step where
  /-- A paint notification for `w` begins: `w` is pushed on the paint stack. -/
  | enter (w : Window)
  /-- The paint handler constructs a `wxPaintDCImpl` for `w`; `::BeginPaint`
  would return `beginPaintRet`. -/
  | construct (w : Window) (beginPaintRet : HDC)
  /-- The paint handler destroys a `wxPaintDCImpl` object. -/
  | destroy (dc : wxDCImpl)
  /-- The innermost paint notification ends: `EndPaint` for its window, then
  the paint stack is popped. -/
  | leave
deriving DecidableEq

/-- One step of a run.  A `leave` outside any paint notification does not occur
in a run that obeys the contract and changes nothing here. -/
def step (env : Env) (s : State) : Step → State
  | .enter w => paintStack_push w s
  | .construct w ret => (wxPaintDCImpl_ctor env ret w s).state
  | .destroy dc => wxPaintDCImpl_destroy env s dc
  | .leave =>
    match s.paintStack with
    | [] => s
    | top :: _ => paintStack_pop (EndPaint top.window s)

/-- A run: the steps one after the other. -/
def run (env : Env) (steps : List Step) (s : State) : State :=
  steps.foldl (step env) s

/-- Every window with a record in the map is recorded on the paint stack. -/
def RecordsOnStack (s : State) : Prop :=
  ∀ w, (FindInCache s w).isSome = true → ∃ e ∈ s.paintStack, e.window = w

/-- Every `EndPaint` of a log comes after a `BeginPaint` on the same native
window and paint structure. -/
def EndPaintFollowsBeginPaint (l : List Call) : Prop :=
  ∀ pre post hwnd ps, l = pre ++ Call.EndPaint hwnd ps :: post →
    ∃ ret, Call.BeginPaint hwnd ps ret ∈ pre

/-- Whether `::BeginPaint` returns a non-null handle at every `construct` step. -/
def Step.beginPaintSucceeds : Step → Bool
  | .construct _ ret => decide (ret ≠ 0)
  | _ => true

/-- Every record of the map holds a non-null handle. -/
def RecordsNonNull (s : State) : Prop :=
  ∀ e ∈ s.gs_PaintDCInfos, e.2.m_hdc ≠ 0

/-! ## wxPaintDCExImpl -/

/-- The constructor `wxPaintDCExImpl::wxPaintDCExImpl(wxDC *owner, wxWindow
*window, WXHDC dc)`; its base is `wxPaintDCImpl(owner)`, which only runs the
base-class constructors. -/
def wxPaintDCExImpl_ctor (window : Window) (dc : HDC) (s : State) : Constructed :=
  let dc0 := wxMSWDCImpl_ctor
  if dc = 0 then ⟨s, dc0, some .noDeviceContext⟩
  else ⟨s, { InitWindow dc0 window with m_hDC := dc }, none⟩

/-- The body of the destructor `wxPaintDCExImpl::~wxPaintDCExImpl`. -/
def wxPaintDCExImpl_dtor (s : State) (dc : wxDCImpl) : State × wxDCImpl :=
  (s, { dc with m_hDC := 0 })

/-- The destruction of a `wxPaintDCExImpl` object: the body of its destructor,
then the destruction of its `wxPaintDCImpl` base. -/
def wxPaintDCExImpl_destroy (env : Env) (s : State) (dc : wxDCImpl) : State :=
  wxPaintDCImpl_destroy env (wxPaintDCExImpl_dtor s dc).1 (wxPaintDCExImpl_dtor s dc).2

/-! ## Destruction of the window and client layers -/

/-- The body of the destructor `wxClientDCImpl::~wxClientDCImpl`, which is
empty. -/
def wxClientDCImpl_dtor (s : State) (dc : wxDCImpl) : State × wxDCImpl := (s, dc)

/-- The destruction of a `wxClientDCImpl` object: the empty body of its
destructor, then the destructor of the base class (`wxWindowDCImpl` declares
none). -/
def wxClientDCImpl_destroy (env : Env) (s : State) (dc : wxDCImpl) : State :=
  wxMSWDCImpl_dtor env (wxClientDCImpl_dtor s dc).1 (wxClientDCImpl_dtor s dc).2

/-- The destruction of a `wxWindowDCImpl` object: the class declares no
destructor, so only the one of the base class runs. -/
def wxWindowDCImpl_destroy (env : Env) (s : State) (dc : wxDCImpl) : State :=
  wxMSWDCImpl_dtor env s dc

/-- Whether a logged call acquires a handle. -/
def Call.isAcquire : Call → Bool
  | .BeginPaint _ _ _ => true
  | .GetWindowDC _ _ => true
  | .GetDC _ _ => true
  | _ => false

/-! ## Reported size -/

/-- The method `wxWindowDCImpl::DoGetSize(int *width, int *height)`; `out` is
what `*width` and `*height` hold before the call, the result what they hold
after it. -/
def wxWindowDCImpl_DoGetSize (env : Env) (dc : wxDCImpl) (out : Int × Int) : Int × Int :=
  if dc.m_window = 0 then out else env.GetSize dc.m_window

/-- The method `wxClientDCImpl::DoGetSize(int *width, int *height)`, which
`wxPaintDCImpl` inherits. -/
def wxClientDCImpl_DoGetSize (env : Env) (dc : wxDCImpl) (out : Int × Int) : Int × Int :=
  if dc.m_window = 0 then out else env.GetClientSize dc.m_window

/-! ## The comparator of the list-control test (tests/controls/listbasetest.cpp) -/

/-- The function `MyCompareFunction(item1, item2, sortData)` of the test. -/
def MyCompareFunction (item1 item2 : Int) (_sortData : Int) : Int :=
  if item1 < item2 then 1
  else if item1 > item2 then -1
  else 0

/-- The natural three-way comparison of two integers: negative, zero or
positive as the first is less than, equal to or greater than the second. -/
def naturalCompare (a b : Int) : Int :=
  if a < b then -1 else if a = b then 0 else 1

/-- Modelled from the spec: the method `wxListCtrl::SortItems(fn, data)`, which
is not in the sources and which the spec leaves undescribed; the model is the
convention the test `Sort` relies on: the item data end up ordered so that `fn`
is not positive between an item and any later one. -/
def SortItems (fn : Int → Int → Int → Int) (data : Int) (items : List Int) : List Int :=
  items.insertionSort (fun a b => fn a b data ≤ 0)

/-- The acquire/release balance of a state: the keys of the map are pairwise
distinct, every record holds a non-null handle, and there is one `BeginPaint`
more than `EndPaint` in the log for each record of the map. -/
def Balanced (s : State) : Prop :=
  UniqueKeys s.gs_PaintDCInfos ∧ RecordsNonNull s ∧
  countBeginPaint s.calls = countEndPaint s.calls + s.gs_PaintDCInfos.length

/-- Every record of the map stems from a logged `::BeginPaint` on the record's
window and paint structure that returned the record's handle. -/
def RecordsFromBeginPaint (s : State) : Prop :=
  ∀ w info, FindInCache s w = some info →
    Call.BeginPaint info.m_hwnd info.m_ps info.m_hdc ∈ s.calls

/-! ## Lemmas on the map -/

theorem mapFind_mapErase_self (m : PaintDCInfos) (win : Window) :
    mapFind (mapErase m win) win = none := by
  induction m with
  | nil => rfl
  | cons e rest ih =>
    obtain ⟨k, v⟩ := e
    by_cases h : k = win
    · simpa [mapErase, h] using ih
    · simpa [mapErase, mapFind, h] using ih

theorem mapFind_mapErase_ne (m : PaintDCInfos) (win w : Window) (h : w ≠ win) :
    mapFind (mapErase m win) w = mapFind m w := by
  induction m with
  | nil => rfl
  | cons e rest ih =>
    obtain ⟨k, v⟩ := e
    by_cases hk : k = win
    · have hkw : k ≠ w := by rw [hk]; exact fun e => h e.symm
      simpa [mapErase, mapFind, hk, hkw, Ne.symm h] using ih
    · by_cases hkw : k = w
      · subst hkw
        simp [mapErase, mapFind, hk]
      · simpa [mapErase, mapFind, hk, hkw] using ih

theorem key_ne_of_mapFind_none (m : PaintDCInfos) (win : Window)
    (h : mapFind m win = none) : ∀ e ∈ m, e.1 ≠ win := by
  induction m with
  | nil => intro e he; cases he
  | cons e rest ih =>
    obtain ⟨k, v⟩ := e
    by_cases hk : k = win
    · simp [mapFind, hk] at h
    · simp only [mapFind, hk, if_false] at h
      intro e he
      rcases List.mem_cons.1 he with rfl | he
      · exact hk
      · exact ih h e he

theorem mapErase_of_mapFind_none (m : PaintDCInfos) (win : Window)
    (h : mapFind m win = none) : mapErase m win = m := by
  unfold mapErase
  rw [List.filter_eq_self]
  intro e he
  simpa using key_ne_of_mapFind_none m win h e he

theorem mapFind_mapAssign_self (m : PaintDCInfos) (win : Window) (info : wxPaintDCInfo) :
    mapFind (mapAssign m win info) win = some info := by
  induction m with
  | nil => simp [mapAssign, mapFind]
  | cons e rest ih =>
    obtain ⟨k, v⟩ := e
    by_cases hk : k = win
    · simp [mapAssign, mapFind, hk]
    · simpa [mapAssign, mapFind, hk] using ih

theorem mapFind_mapAssign_ne (m : PaintDCInfos) (win w : Window) (info : wxPaintDCInfo)
    (h : w ≠ win) : mapFind (mapAssign m win info) w = mapFind m w := by
  induction m with
  | nil => simp [mapAssign, mapFind, Ne.symm h]
  | cons e rest ih =>
    obtain ⟨k, v⟩ := e
    by_cases hk : k = win
    · have hkw : k ≠ w := by rw [hk]; exact fun e => h e.symm
      simp [mapAssign, mapFind, hk, hkw, Ne.symm h]
    · by_cases hkw : k = w
      · subst hkw
        simp [mapAssign, mapFind, hk]
      · simpa [mapAssign, mapFind, hk, hkw] using ih

theorem mapCount_eq_zero_of_mapFind_none (m : PaintDCInfos) (win : Window)
    (h : mapFind m win = none) : mapCount m win = 0 := by
  induction m with
  | nil => rfl
  | cons e rest ih =>
    obtain ⟨k, v⟩ := e
    by_cases hk : k = win
    · simp [mapFind, hk] at h
    · simp only [mapFind, hk, if_false] at h
      have := ih h
      simp only [mapCount] at this ⊢
      simp [hk, this]

theorem mapCount_mapAssign_of_mapFind_none (m : PaintDCInfos) (win : Window)
    (info : wxPaintDCInfo) (h : mapFind m win = none) :
    mapCount (mapAssign m win info) win = 1 := by
  induction m with
  | nil => simp [mapAssign, mapCount]
  | cons e rest ih =>
    obtain ⟨k, v⟩ := e
    by_cases hk : k = win
    · simp [mapFind, hk] at h
    · simp only [mapFind, hk, if_false] at h
      have := ih h
      simp only [mapCount, mapAssign, hk, if_false] at this ⊢
      simp [hk, this]

theorem mapCount_mapErase_self (m : PaintDCInfos) (win : Window) :
    mapCount (mapErase m win) win = 0 :=
  mapCount_eq_zero_of_mapFind_none _ _ (mapFind_mapErase_self m win)

/-! ## Lemmas on the call log -/

theorem countBeginPaint_append (l₁ l₂ : List Call) :
    countBeginPaint (l₁ ++ l₂) = countBeginPaint l₁ + countBeginPaint l₂ := by
  simp [countBeginPaint]

theorem countEndPaint_append (l₁ l₂ : List Call) :
    countEndPaint (l₁ ++ l₂) = countEndPaint l₁ + countEndPaint l₂ := by
  simp [countEndPaint]

theorem countBeginPaint_eq_zero (l : List Call) (h : ∀ x ∈ l, x.isBeginPaint = false) :
    countBeginPaint l = 0 := by
  simp only [countBeginPaint, List.length_eq_zero, List.filter_eq_nil_iff]
  intro x hx
  simp [h x hx]

theorem countEndPaint_eq_zero (l : List Call) (h : ∀ x ∈ l, x.isEndPaint = false) :
    countEndPaint l = 0 := by
  simp only [countEndPaint, List.length_eq_zero, List.filter_eq_nil_iff]
  intro x hx
  simp [h x hx]

/-! ## Frame lemmas on `InitDC` -/

/-- The method `wxClientDCImpl::InitDC` touches neither the map, the paint
stack nor the handle, and logs neither a `BeginPaint` nor an `EndPaint`. -/
theorem wxClientDCImpl_InitDC_frame (env : Env) (s : State) (dc : wxDCImpl) :
    (wxClientDCImpl_InitDC env s dc).1.gs_PaintDCInfos = s.gs_PaintDCInfos ∧
    (wxClientDCImpl_InitDC env s dc).1.paintStack = s.paintStack ∧
    (wxClientDCImpl_InitDC env s dc).1.heapNext = s.heapNext ∧
    (wxClientDCImpl_InitDC env s dc).2.m_hDC = dc.m_hDC ∧
    (wxClientDCImpl_InitDC env s dc).2.m_window = dc.m_window ∧
    ∃ extra, (wxClientDCImpl_InitDC env s dc).1.calls = s.calls ++ extra ∧
      ∀ x ∈ extra, x.isBeginPaint = false ∧ x.isEndPaint = false := by
  unfold wxClientDCImpl_InitDC wxWindowDCImpl_InitDC SetDeviceOrigin State.log
  dsimp only
  refine ⟨?_, ?_, ?_, ?_, ?_, ?_⟩
  · split_ifs <;> rfl
  · split_ifs <;> rfl
  · split_ifs <;> rfl
  · split_ifs <;> rfl
  · split_ifs <;> rfl
  · split_ifs
    all_goals
      simp only [List.append_assoc]
      refine ⟨_, rfl, ?_⟩
      simp [Call.isBeginPaint, Call.isEndPaint]

/-! ## The constructor of `wxPaintDCImpl`, case by case -/

/-- The constructor once its three checks have passed. -/
theorem wxPaintDCImpl_ctor_pass (env : Env) (ret : HDC) (W : Window) (s : State)
    (top : PaintData) (below : List PaintData)
    (hW : W ≠ 0) (hs : s.paintStack = top :: below) (ht : top.window = W) :
    wxPaintDCImpl_ctor env ret W s =
      if (wxPaintDCImpl_acquire env ret
            { s with paintStack := { top with createdPaintDC := true } :: below }
            (InitWindow wxMSWDCImpl_ctor W)).2.m_hDC = 0
      then
        ⟨(wxPaintDCImpl_acquire env ret
            { s with paintStack := { top with createdPaintDC := true } :: below }
            (InitWindow wxMSWDCImpl_ctor W)).1,
         (wxPaintDCImpl_acquire env ret
            { s with paintStack := { top with createdPaintDC := true } :: below }
            (InitWindow wxMSWDCImpl_ctor W)).2, none⟩
      else
        ⟨(wxClientDCImpl_InitDC env
            (wxPaintDCImpl_acquire env ret
              { s with paintStack := { top with createdPaintDC := true } :: below }
              (InitWindow wxMSWDCImpl_ctor W)).1
            (wxPaintDCImpl_acquire env ret
              { s with paintStack := { top with createdPaintDC := true } :: below }
              (InitWindow wxMSWDCImpl_ctor W)).2).1,
         { (wxClientDCImpl_InitDC env
            (wxPaintDCImpl_acquire env ret
              { s with paintStack := { top with createdPaintDC := true } :: below }
              (InitWindow wxMSWDCImpl_ctor W)).1
            (wxPaintDCImpl_acquire env ret
              { s with paintStack := { top with createdPaintDC := true } :: below }
              (InitWindow wxMSWDCImpl_ctor W)).2).2 with m_clipping := true }, none⟩ := by
  obtain ⟨m, st, cl, hp⟩ := s
  simp only at hs
  subst hs
  simp only [wxPaintDCImpl_ctor, hW, ht, if_false, ne_eq, not_true_eq_false]

/-- The constructor when the paint stack is empty. -/
theorem wxPaintDCImpl_ctor_empty (env : Env) (ret : HDC) (W : Window) (s : State)
    (hs : s.paintStack = []) :
    wxPaintDCImpl_ctor env ret W s =
      ⟨s, wxMSWDCImpl_ctor,
        some (if W = 0 then CheckFailure.nullCanvas else CheckFailure.outsidePaintHandler)⟩ := by
  obtain ⟨m, st, cl, hp⟩ := s
  simp only at hs
  subst hs
  by_cases hW : W = 0 <;> simp [wxPaintDCImpl_ctor, hW]

/-- The constructor when another window is on top of the paint stack. -/
theorem wxPaintDCImpl_ctor_wrong (env : Env) (ret : HDC) (W : Window) (s : State)
    (top : PaintData) (below : List PaintData)
    (hs : s.paintStack = top :: below) (ht : top.window ≠ W) :
    wxPaintDCImpl_ctor env ret W s =
      ⟨s, wxMSWDCImpl_ctor,
        some (if W = 0 then CheckFailure.nullCanvas else CheckFailure.wrongWindow)⟩ := by
  obtain ⟨m, st, cl, hp⟩ := s
  simp only at hs
  subst hs
  by_cases hW : W = 0 <;> simp [wxPaintDCImpl_ctor, hW, ht]

/-- The cache lookup of the constructor finds a usable handle. -/
theorem wxPaintDCImpl_acquire_reuse (env : Env) (ret : HDC) (s : State) (dc : wxDCImpl)
    (info : wxPaintDCInfo) (hrec : FindInCache s dc.m_window = some info)
    (hh : info.m_hdc ≠ 0) :
    wxPaintDCImpl_acquire env ret s dc = (s, { dc with m_hDC := info.m_hdc }) := by
  simp [wxPaintDCImpl_acquire, FindDCInCache, hrec, wxPaintDCInfo.GetHDC, hh]

/-- The cache lookup of the constructor yields the null handle. -/
theorem wxPaintDCImpl_acquire_new (env : Env) (ret : HDC) (s : State) (dc : wxDCImpl)
    (h0 : FindDCInCache s dc.m_window = 0) :
    wxPaintDCImpl_acquire env ret s dc =
      ({ gs_PaintDCInfos := mapAssign s.gs_PaintDCInfos dc.m_window
            { m_hdc := ret, m_hwnd := env.GetHwndOf dc.m_window, m_ps := s.heapNext },
         paintStack := s.paintStack,
         calls := s.calls ++ [Call.BeginPaint (env.GetHwndOf dc.m_window) s.heapNext ret],
         heapNext := s.heapNext + 1 },
       { dc with m_hDC := ret }) := by
  simp [wxPaintDCImpl_acquire, h0, wxPaintDCInfoOur_new, State.log, wxPaintDCInfo.GetHDC]

/-- The cache lookup of the constructor yields a non-null handle. -/
theorem wxPaintDCImpl_acquire_found (env : Env) (ret : HDC) (s : State) (dc : wxDCImpl)
    (h0 : FindDCInCache s dc.m_window ≠ 0) :
    wxPaintDCImpl_acquire env ret s dc =
      (s, { dc with m_hDC := FindDCInCache s dc.m_window }) := by
  simp [wxPaintDCImpl_acquire, h0]

/-- The constructor when one of its checks fails: nothing happens. -/
theorem wxPaintDCImpl_ctor_fail (env : Env) (ret : HDC) (W : Window) (s : State)
    (h : W = 0 ∨ s.paintStack = [] ∨
      ∃ top below, s.paintStack = top :: below ∧ top.window ≠ W) :
    (wxPaintDCImpl_ctor env ret W s).state = s ∧
    (wxPaintDCImpl_ctor env ret W s).dc = wxMSWDCImpl_ctor ∧
    (wxPaintDCImpl_ctor env ret W s).failed.isSome = true := by
  rcases h with h | h | ⟨top, below, hs, ht⟩
  · subst h
    simp [wxPaintDCImpl_ctor]
  · rw [wxPaintDCImpl_ctor_empty env ret W s h]
    exact ⟨rfl, rfl, rfl⟩
  · rw [wxPaintDCImpl_ctor_wrong env ret W s top below hs ht]
    exact ⟨rfl, rfl, rfl⟩

/-- What the constructor does once its checks have passed: it marks the top of
the paint stack, and either reuses the non-null handle found in the map, or
calls `BeginPaint` and stores a new record. -/
theorem wxPaintDCImpl_ctor_pass_effect (env : Env) (ret : HDC) (W : Window) (s : State)
    (top : PaintData) (below : List PaintData)
    (hW : W ≠ 0) (hs : s.paintStack = top :: below) (ht : top.window = W) :
    (wxPaintDCImpl_ctor env ret W s).failed = none ∧
    (wxPaintDCImpl_ctor env ret W s).state.paintStack =
      { top with createdPaintDC := true } :: below ∧
    (wxPaintDCImpl_ctor env ret W s).dc.m_window = W ∧
    ((FindDCInCache s W ≠ 0 ∧
      (wxPaintDCImpl_ctor env ret W s).state.gs_PaintDCInfos = s.gs_PaintDCInfos ∧
      (wxPaintDCImpl_ctor env ret W s).state.heapNext = s.heapNext ∧
      (wxPaintDCImpl_ctor env ret W s).dc.m_hDC = FindDCInCache s W ∧
      ∃ extra, (wxPaintDCImpl_ctor env ret W s).state.calls = s.calls ++ extra ∧
        ∀ x ∈ extra, x.isBeginPaint = false ∧ x.isEndPaint = false) ∨
     (FindDCInCache s W = 0 ∧
      (wxPaintDCImpl_ctor env ret W s).state.gs_PaintDCInfos =
        mapAssign s.gs_PaintDCInfos W
          { m_hdc := ret, m_hwnd := env.GetHwndOf W, m_ps := s.heapNext } ∧
      (wxPaintDCImpl_ctor env ret W s).state.heapNext = s.heapNext + 1 ∧
      (wxPaintDCImpl_ctor env ret W s).dc.m_hDC = ret ∧
      ∃ extra, (wxPaintDCImpl_ctor env ret W s).state.calls =
          s.calls ++ Call.BeginPaint (env.GetHwndOf W) s.heapNext ret :: extra ∧
        ∀ x ∈ extra, x.isBeginPaint = false ∧ x.isEndPaint = false)) := by
  rw [wxPaintDCImpl_ctor_pass env ret W s top below hW hs ht]
  by_cases h0 : FindDCInCache s W = 0
  · have hacq := wxPaintDCImpl_acquire_new env ret
      { s with paintStack := { top with createdPaintDC := true } :: below }
      (InitWindow wxMSWDCImpl_ctor W) h0
    rw [hacq]
    simp only [InitWindow]
    by_cases hret : ret = 0
    · simp only [hret, if_true]
      refine ⟨trivial, trivial, trivial, Or.inr ⟨h0, ?_, ?_, ?_, [], ?_, by simp⟩⟩ <;>
        trivial
    · simp only [hret, if_false]
      obtain ⟨h1, h2, h3, h4, h5, extra, h6, h7⟩ := wxClientDCImpl_InitDC_frame env
        { gs_PaintDCInfos := mapAssign s.gs_PaintDCInfos W
              { m_hdc := ret, m_hwnd := env.GetHwndOf W, m_ps := s.heapNext },
          paintStack := { top with createdPaintDC := true } :: below,
          calls := s.calls ++ [Call.BeginPaint (env.GetHwndOf W) s.heapNext ret],
          heapNext := s.heapNext + 1 }
        { m_window := W, m_hDC := ret, m_bOwnsDC := wxMSWDCImpl_ctor.m_bOwnsDC,
          m_clipping := wxMSWDCImpl_ctor.m_clipping,
          m_deviceOrigin := wxMSWDCImpl_ctor.m_deviceOrigin }
      simp only at h1 h2 h3 h4 h5 h6
      refine ⟨trivial, h2, h5, Or.inr ⟨h0, h1, h3, h4, extra, ?_, h7⟩⟩
      rw [h6]; simp
  · have hacq := wxPaintDCImpl_acquire_found env ret
      { s with paintStack := { top with createdPaintDC := true } :: below }
      (InitWindow wxMSWDCImpl_ctor W) h0
    rw [hacq]
    simp only [InitWindow]
    have h0' : ¬ FindDCInCache
        { s with paintStack := { top with createdPaintDC := true } :: below } W = 0 := h0
    simp only [h0', if_false]
    obtain ⟨h1, h2, h3, h4, h5, extra, h6, h7⟩ := wxClientDCImpl_InitDC_frame env
      { s with paintStack := { top with createdPaintDC := true } :: below }
      { m_window := W,
        m_hDC := FindDCInCache
          { s with paintStack := { top with createdPaintDC := true } :: below } W,
        m_bOwnsDC := wxMSWDCImpl_ctor.m_bOwnsDC,
        m_clipping := wxMSWDCImpl_ctor.m_clipping,
        m_deviceOrigin := wxMSWDCImpl_ctor.m_deviceOrigin }
    simp only at h1 h2 h3 h4 h5 h6
    exact ⟨trivial, h2, h5, Or.inl ⟨h0, h1, h3, h4, extra, h6, h7⟩⟩

/-- The constructor keeps every record of the map tied to a logged
`BeginPaint`. -/
theorem RecordsFromBeginPaint_ctor (env : Env) (ret : HDC) (W : Window) (s : State)
    (hinv : RecordsFromBeginPaint s) :
    RecordsFromBeginPaint (wxPaintDCImpl_ctor env ret W s).state := by
  by_cases hW : W = 0
  · rw [(wxPaintDCImpl_ctor_fail env ret W s (Or.inl hW)).1]; exact hinv
  cases hs : s.paintStack with
  | nil => rw [(wxPaintDCImpl_ctor_fail env ret W s (Or.inr (Or.inl hs))).1]; exact hinv
  | cons top below =>
    by_cases ht : top.window = W
    · obtain ⟨-, -, -, h⟩ := wxPaintDCImpl_ctor_pass_effect env ret W s top below hW hs ht
      rcases h with ⟨-, hm, -, -, extra, hc, -⟩ | ⟨-, hm, -, -, extra, hc, -⟩
      · intro w info hf
        unfold FindInCache at hf
        rw [hm] at hf
        rw [hc]
        exact List.mem_append_left _ (hinv w info hf)
      · intro w info hf
        unfold FindInCache at hf
        rw [hm] at hf
        rw [hc]
        by_cases hw : w = W
        · subst hw
          rw [mapFind_mapAssign_self] at hf
          cases hf
          simp
        · rw [mapFind_mapAssign_ne _ _ _ _ hw] at hf
          exact List.mem_append_left _ (hinv w info hf)
    · rw [(wxPaintDCImpl_ctor_fail env ret W s (Or.inr (Or.inr ⟨top, below, hs, ht⟩))).1]
      exact hinv

/-- The static method `EndPaint` keeps every remaining record of the map tied
to a logged `BeginPaint`. -/
theorem RecordsFromBeginPaint_EndPaint (W : Window) (s : State)
    (hinv : RecordsFromBeginPaint s) : RecordsFromBeginPaint (EndPaint W s) := by
  unfold EndPaint
  cases hf : FindInCache s W with
  | none => exact hinv
  | some info =>
    intro w i hw
    by_cases hwW : w = W
    · subst hwW
      have : FindInCache (wxPaintDCInfo_delete info
          { s with gs_PaintDCInfos := mapErase s.gs_PaintDCInfos w }) w = none :=
        mapFind_mapErase_self _ _
      rw [this] at hw
      cases hw
    · have : FindInCache (wxPaintDCInfo_delete info
          { s with gs_PaintDCInfos := mapErase s.gs_PaintDCInfos W }) w = FindInCache s w :=
        mapFind_mapErase_ne _ _ _ hwW
      rw [this] at hw
      exact List.mem_append_left _ (hinv w i hw)

/-- Before any paint notification the map has no record. -/
theorem RecordsFromBeginPaint_emptyState : RecordsFromBeginPaint emptyState := by
  intro w info h
  cases h

/-- Pushing a window on the paint stack does not touch the map or the log. -/
theorem RecordsFromBeginPaint_push (W : Window) (s : State)
    (hinv : RecordsFromBeginPaint s) : RecordsFromBeginPaint (paintStack_push W s) :=
  hinv

/-- Popping the paint stack does not touch the map or the log. -/
theorem RecordsFromBeginPaint_pop (s : State)
    (hinv : RecordsFromBeginPaint s) : RecordsFromBeginPaint (paintStack_pop s) :=
  hinv

/-! ## Reuse of a cached handle -/

/-- Claim C4.  When window `W` (a non-null `wxWindow*`) is on top of the paint
stack and its record in the map holds a non-null handle, the constructor passes its checks, the new context
has the handle of the record, the map is unchanged, and whatever is appended to
the call log contains no `BeginPaint` (so the number of `BeginPaint` calls is
unchanged). -/
theorem C4_reuse_cached_handle (env : Env) (ret : HDC) (W : Window) (s : State)
    (top : PaintData) (below : List PaintData) (info : wxPaintDCInfo)
    (hW : W ≠ 0) (hs : s.paintStack = top :: below) (ht : top.window = W)
    (hrec : FindInCache s W = some info) (hh : info.m_hdc ≠ 0) :
    (wxPaintDCImpl_ctor env ret W s).failed = none ∧
    (wxPaintDCImpl_ctor env ret W s).dc.m_hDC = info.m_hdc ∧
    (wxPaintDCImpl_ctor env ret W s).state.gs_PaintDCInfos = s.gs_PaintDCInfos ∧
    (∃ extra, (wxPaintDCImpl_ctor env ret W s).state.calls = s.calls ++ extra ∧
      ∀ x ∈ extra, x.isBeginPaint = false) ∧
    countBeginPaint (wxPaintDCImpl_ctor env ret W s).state.calls = countBeginPaint s.calls := by
  have hacq := wxPaintDCImpl_acquire_reuse env ret
    { s with paintStack := { top with createdPaintDC := true } :: below }
    (InitWindow wxMSWDCImpl_ctor W) info hrec hh
  rw [wxPaintDCImpl_ctor_pass env ret W s top below hW hs ht, hacq]
  simp only [hh, if_false]
  obtain ⟨h1, -, -, h4, -, extra, h6, h7⟩ := wxClientDCImpl_InitDC_frame env
    { s with paintStack := { top with createdPaintDC := true } :: below }
    { InitWindow wxMSWDCImpl_ctor W with m_hDC := info.m_hdc }
  refine ⟨trivial, h4, h1, ⟨extra, h6, fun x hx => (h7 x hx).1⟩, ?_⟩
  rw [h6, countBeginPaint_append, countBeginPaint_eq_zero extra (fun x hx => (h7 x hx).1)]
  rfl

/-- A concrete instance of C4: window `1` is repainting and its record holds the
handle `7`. -/
theorem C4_reuse_cached_handle_witness :
    (wxPaintDCImpl_ctor sampleEnv 9 1
        { gs_PaintDCInfos := [(1, ⟨7, 101, 1⟩)], paintStack := [⟨1, true⟩],
          calls := [Call.BeginPaint 101 1 7], heapNext := 2 }).dc.m_hDC = 7 ∧
    countBeginPaint (wxPaintDCImpl_ctor sampleEnv 9 1
        { gs_PaintDCInfos := [(1, ⟨7, 101, 1⟩)], paintStack := [⟨1, true⟩],
          calls := [Call.BeginPaint 101 1 7], heapNext := 2 }).state.calls = 1 :=
  have h := C4_reuse_cached_handle sampleEnv 9 1
    { gs_PaintDCInfos := [(1, ⟨7, 101, 1⟩)], paintStack := [⟨1, true⟩],
      calls := [Call.BeginPaint 101 1 7], heapNext := 2 }
    ⟨1, true⟩ [] ⟨7, 101, 1⟩ (by decide) rfl rfl (by decide) (by decide)
  ⟨h.2.1, h.2.2.2.2⟩

/-! ## First construction -/

/-- Claim C5.  When window `W` (a non-null `wxWindow*`) is on top of the paint
stack and has no entry in the map, the constructor passes its checks and appends to the call log one
`BeginPaint` on the native window of `W`, followed by calls none of which is a
`BeginPaint`; the map then holds exactly one record for `W`, with the handle
`BeginPaint` returned; the new context has that handle, and so has
`FindDCInCache(W)` afterwards. -/
theorem C5_first_construction_registers (env : Env) (ret : HDC) (W : Window) (s : State)
    (top : PaintData) (below : List PaintData)
    (hW : W ≠ 0) (hs : s.paintStack = top :: below) (ht : top.window = W)
    (hrec : FindInCache s W = none) :
    (wxPaintDCImpl_ctor env ret W s).failed = none ∧
    (∃ extra, (wxPaintDCImpl_ctor env ret W s).state.calls =
        s.calls ++ Call.BeginPaint (env.GetHwndOf W) s.heapNext ret :: extra ∧
      ∀ x ∈ extra, x.isBeginPaint = false) ∧
    countBeginPaint (wxPaintDCImpl_ctor env ret W s).state.calls =
      countBeginPaint s.calls + 1 ∧
    FindInCache (wxPaintDCImpl_ctor env ret W s).state W =
      some { m_hdc := ret, m_hwnd := env.GetHwndOf W, m_ps := s.heapNext } ∧
    mapCount (wxPaintDCImpl_ctor env ret W s).state.gs_PaintDCInfos W = 1 ∧
    (wxPaintDCImpl_ctor env ret W s).dc.m_hDC = ret ∧
    FindDCInCache (wxPaintDCImpl_ctor env ret W s).state W = ret := by
  have h0 : FindDCInCache { s with paintStack := { top with createdPaintDC := true } :: below }
      (InitWindow wxMSWDCImpl_ctor W).m_window = 0 := by
    show FindDCInCache _ W = 0
    unfold FindDCInCache
    rw [show FindInCache { s with paintStack := { top with createdPaintDC := true } :: below } W
      = FindInCache s W from rfl, hrec]
  have hacq := wxPaintDCImpl_acquire_new env ret
    { s with paintStack := { top with createdPaintDC := true } :: below }
    (InitWindow wxMSWDCImpl_ctor W) h0
  have hfind : mapFind (mapAssign s.gs_PaintDCInfos W
      { m_hdc := ret, m_hwnd := env.GetHwndOf W, m_ps := s.heapNext }) W = some _ :=
    mapFind_mapAssign_self _ _ _
  have hcount := mapCount_mapAssign_of_mapFind_none s.gs_PaintDCInfos W
      { m_hdc := ret, m_hwnd := env.GetHwndOf W, m_ps := s.heapNext } hrec
  rw [wxPaintDCImpl_ctor_pass env ret W s top below hW hs ht, hacq]
  simp only [InitWindow]
  by_cases hret : ret = 0
  · simp only [hret, if_true]
    subst hret
    refine ⟨trivial, ⟨[], rfl, by simp⟩, ?_, hfind, hcount, trivial, ?_⟩
    · simp [countBeginPaint_append, countBeginPaint, Call.isBeginPaint]
    · simp [FindDCInCache, FindInCache, hfind, wxPaintDCInfo.GetHDC]
  · simp only [hret, if_false]
    obtain ⟨h1, -, -, h4, -, extra, h6, h7⟩ := wxClientDCImpl_InitDC_frame env
      { gs_PaintDCInfos := mapAssign s.gs_PaintDCInfos W
            { m_hdc := ret, m_hwnd := env.GetHwndOf W, m_ps := s.heapNext },
        paintStack := { top with createdPaintDC := true } :: below,
        calls := s.calls ++ [Call.BeginPaint (env.GetHwndOf W) s.heapNext ret],
        heapNext := s.heapNext + 1 }
      { m_window := W, m_hDC := ret, m_bOwnsDC := wxMSWDCImpl_ctor.m_bOwnsDC,
        m_clipping := wxMSWDCImpl_ctor.m_clipping,
        m_deviceOrigin := wxMSWDCImpl_ctor.m_deviceOrigin }
    simp only at h1 h4 h6
    refine ⟨trivial, ⟨extra, ?_, fun x hx => (h7 x hx).1⟩, ?_, ?_, ?_, h4, ?_⟩
    · rw [h6]; simp
    · rw [h6, countBeginPaint_append, countBeginPaint_append,
        countBeginPaint_eq_zero extra (fun x hx => (h7 x hx).1)]
      simp [countBeginPaint, Call.isBeginPaint]
    · show mapFind _ W = _
      rw [h1]; exact hfind
    · rw [h1]; exact hcount
    · unfold FindDCInCache FindInCache
      rw [h1, hfind]; rfl

/-- A concrete instance of C5: the first paint DC of window `2` during its
paint notification, `BeginPaint` returning the handle `7`. -/
theorem C5_first_construction_registers_witness :
    FindInCache (wxPaintDCImpl_ctor sampleEnv 7 2 (paintStack_push 2 emptyState)).state 2 =
      some { m_hdc := 7, m_hwnd := 102, m_ps := 1 } ∧
    (wxPaintDCImpl_ctor sampleEnv 7 2 (paintStack_push 2 emptyState)).dc.m_hDC = 7 :=
  have h := C5_first_construction_registers sampleEnv 7 2 (paintStack_push 2 emptyState)
    ⟨2, false⟩ [] (by decide) rfl rfl rfl
  ⟨h.2.2.2.1, h.2.2.2.2.2.1⟩

/-! ## The static method `EndPaint` -/

/-- Claim C6.  When the map holds a record for window `W` (every record of the
map stemming from a logged `BeginPaint`), `EndPaint(W)` appends to the call log
exactly one call, an `EndPaint` on the native window and the paint structure of
the logged `BeginPaint` that produced the handle of the record, and afterwards
the map has no entry for `W`: `FindInCache(W)` is null and `FindDCInCache(W)` is
the null handle. -/
theorem C6_EndPaint_releases_and_erases (W : Window) (s : State) (info : wxPaintDCInfo)
    (hinv : RecordsFromBeginPaint s) (hrec : FindInCache s W = some info) :
    (EndPaint W s).calls = s.calls ++ [Call.EndPaint info.m_hwnd info.m_ps] ∧
    Call.BeginPaint info.m_hwnd info.m_ps info.m_hdc ∈ s.calls ∧
    countEndPaint (EndPaint W s).calls = countEndPaint s.calls + 1 ∧
    FindInCache (EndPaint W s) W = none ∧
    FindDCInCache (EndPaint W s) W = 0 ∧
    mapCount (EndPaint W s).gs_PaintDCInfos W = 0 ∧
    (EndPaint W s).paintStack = s.paintStack := by
  have hE : EndPaint W s = wxPaintDCInfo_delete info
      { s with gs_PaintDCInfos := mapErase s.gs_PaintDCInfos W } := by
    unfold EndPaint; rw [hrec]
  have hnone : FindInCache (EndPaint W s) W = none := by
    rw [hE]; exact mapFind_mapErase_self _ _
  refine ⟨by rw [hE]; rfl, hinv W info hrec, ?_, hnone, ?_, ?_, by rw [hE]; rfl⟩
  · rw [hE]
    show countEndPaint (s.calls ++ [Call.EndPaint info.m_hwnd info.m_ps]) = _
    rw [countEndPaint_append]; rfl
  · unfold FindDCInCache; rw [hnone]
  · rw [hE]; exact mapCount_mapErase_self _ _

/-- A concrete instance of C6: the paint DC of window `2` is created during its
paint notification, then `EndPaint(2)` runs. -/
theorem C6_EndPaint_releases_and_erases_witness :
    (EndPaint 2 (wxPaintDCImpl_ctor sampleEnv 7 2 (paintStack_push 2 emptyState)).state).calls =
      (wxPaintDCImpl_ctor sampleEnv 7 2 (paintStack_push 2 emptyState)).state.calls ++
        [Call.EndPaint 102 1] ∧
    Call.BeginPaint 102 1 7 ∈
      (wxPaintDCImpl_ctor sampleEnv 7 2 (paintStack_push 2 emptyState)).state.calls ∧
    FindInCache
      (EndPaint 2 (wxPaintDCImpl_ctor sampleEnv 7 2 (paintStack_push 2 emptyState)).state) 2 =
      none :=
  have h := C6_EndPaint_releases_and_erases 2
    (wxPaintDCImpl_ctor sampleEnv 7 2 (paintStack_push 2 emptyState)).state
    { m_hdc := 7, m_hwnd := 102, m_ps := 1 }
    (RecordsFromBeginPaint_ctor sampleEnv 7 2 _
      (RecordsFromBeginPaint_push 2 _ RecordsFromBeginPaint_emptyState))
    (by decide)
  ⟨h.1, h.2.1, h.2.2.2.1⟩

/-- Claim C7.  When the map has no record for window `W`, `EndPaint(W)` leaves
the whole state as it is: the map is unchanged and nothing is logged.  Hence a
paint notification without any paint DC (push `W`, `EndPaint(W)`, pop) that
starts with an empty map has an empty map after each of its three steps, and
ends in the state it started from. -/
theorem C7_EndPaint_without_record_noop (W : Window) (s : State)
    (hrec : FindInCache s W = none) :
    EndPaint W s = s ∧
    (s.gs_PaintDCInfos = [] →
      (paintStack_push W s).gs_PaintDCInfos = [] ∧
      (EndPaint W (paintStack_push W s)).gs_PaintDCInfos = [] ∧
      (paintStack_pop (EndPaint W (paintStack_push W s))).gs_PaintDCInfos = [] ∧
      (EndPaint W (paintStack_push W s)).calls = s.calls ∧
      paintStack_pop (EndPaint W (paintStack_push W s)) = s) := by
  have key : ∀ s' : State, FindInCache s' W = none → EndPaint W s' = s' := by
    intro s' h
    unfold EndPaint; rw [h]
  refine ⟨key s hrec, fun hempty => ?_⟩
  have hpush : EndPaint W (paintStack_push W s) = paintStack_push W s := key _ hrec
  rw [hpush]
  exact ⟨hempty, hempty, hempty, rfl, rfl⟩

/-- A concrete instance of C7: a paint notification of window `1` from the
initial state. -/
theorem C7_EndPaint_without_record_noop_witness :
    EndPaint 1 emptyState = emptyState ∧
    (EndPaint 1 (paintStack_push 1 emptyState)).gs_PaintDCInfos = [] ∧
    paintStack_pop (EndPaint 1 (paintStack_push 1 emptyState)) = emptyState :=
  have h := C7_EndPaint_without_record_noop 1 emptyState rfl
  ⟨h.1, (h.2 rfl).2.1, (h.2 rfl).2.2.2.2⟩

/-- Claim C8.  Running `EndPaint(W)` twice in a row gives the same state as
running it once, call log included, so the second run issues no `EndPaint` (and
no other call); after the first run the map has no record for `W`. -/
theorem C8_EndPaint_idempotent (W : Window) (s : State) :
    EndPaint W (EndPaint W s) = EndPaint W s ∧
    (EndPaint W (EndPaint W s)).calls = (EndPaint W s).calls ∧
    countEndPaint (EndPaint W (EndPaint W s)).calls = countEndPaint (EndPaint W s).calls ∧
    FindInCache (EndPaint W s) W = none := by
  have hnone : FindInCache (EndPaint W s) W = none := by
    cases hf : FindInCache s W with
    | none =>
      have : EndPaint W s = s := by unfold EndPaint; rw [hf]
      rw [this]; exact hf
    | some info =>
      have : EndPaint W s = wxPaintDCInfo_delete info
          { s with gs_PaintDCInfos := mapErase s.gs_PaintDCInfos W } := by
        unfold EndPaint; rw [hf]
      rw [this]; exact mapFind_mapErase_self _ _
  have h2 : EndPaint W (EndPaint W s) = EndPaint W s := by
    generalize EndPaint W s = s1 at hnone ⊢
    unfold EndPaint; rw [hnone]
  exact ⟨h2, by rw [h2], by rw [h2], hnone⟩

/-! ## The checks of the constructor -/

/-- Claim C9.  With an empty paint stack the constructor fails a check (the
"outside wxEVT_PAINT handler" one for a non-null window), the context keeps the
null handle, and the whole state (map, paint stack, call log) is unchanged, so
no `BeginPaint` is issued. -/
theorem C9_no_active_paint_notification (env : Env) (ret : HDC) (W : Window) (s : State)
    (hs : s.paintStack = []) :
    (wxPaintDCImpl_ctor env ret W s).failed =
      some (if W = 0 then CheckFailure.nullCanvas else CheckFailure.outsidePaintHandler) ∧
    (wxPaintDCImpl_ctor env ret W s).dc.m_hDC = 0 ∧
    (wxPaintDCImpl_ctor env ret W s).state = s ∧
    (wxPaintDCImpl_ctor env ret W s).state.gs_PaintDCInfos = s.gs_PaintDCInfos ∧
    (wxPaintDCImpl_ctor env ret W s).state.paintStack = s.paintStack ∧
    countBeginPaint (wxPaintDCImpl_ctor env ret W s).state.calls = countBeginPaint s.calls := by
  rw [wxPaintDCImpl_ctor_empty env ret W s hs]
  exact ⟨rfl, rfl, rfl, rfl, rfl, rfl⟩

/-- A concrete instance of C9: a paint DC for window `1` outside any paint
notification, with a record of window `3` in the map. -/
theorem C9_no_active_paint_notification_witness :
    (wxPaintDCImpl_ctor sampleEnv 7 1
      { gs_PaintDCInfos := [(3, ⟨5, 103, 1⟩)], paintStack := [],
        calls := [Call.BeginPaint 103 1 5], heapNext := 2 }).failed =
      some CheckFailure.outsidePaintHandler ∧
    (wxPaintDCImpl_ctor sampleEnv 7 1
      { gs_PaintDCInfos := [(3, ⟨5, 103, 1⟩)], paintStack := [],
        calls := [Call.BeginPaint 103 1 5], heapNext := 2 }).dc.m_hDC = 0 :=
  have h := C9_no_active_paint_notification sampleEnv 7 1
    { gs_PaintDCInfos := [(3, ⟨5, 103, 1⟩)], paintStack := [],
      calls := [Call.BeginPaint 103 1 5], heapNext := 2 } rfl
  ⟨h.1, h.2.1⟩

/-- Claim C10.  After pushing `A` and then a different, non-null window `B` on
the paint stack, the constructor for `B` passes its checks and its handle is the one the
map then holds for `B`; the constructor for `A` fails a check (the "window being
repainted" one for a non-null `A`), keeps the null handle and leaves the whole
state unchanged: map, call log and every paint-stack entry with its
`createdPaintDC` flag.  The same holds for `A` once the paint DC of `B` exists. -/
theorem C10_strict_nesting (env : Env) (retA retB : HDC) (A B : Window) (s : State)
    (hAB : A ≠ B) (hB : B ≠ 0) :
    (wxPaintDCImpl_ctor env retB B (paintStack_push B (paintStack_push A s))).failed = none ∧
    (FindInCache
      (wxPaintDCImpl_ctor env retB B (paintStack_push B (paintStack_push A s))).state
      B).isSome = true ∧
    (wxPaintDCImpl_ctor env retB B (paintStack_push B (paintStack_push A s))).dc.m_hDC =
      FindDCInCache
        (wxPaintDCImpl_ctor env retB B (paintStack_push B (paintStack_push A s))).state B ∧
    (wxPaintDCImpl_ctor env retA A (paintStack_push B (paintStack_push A s))).failed =
      some (if A = 0 then CheckFailure.nullCanvas else CheckFailure.wrongWindow) ∧
    (wxPaintDCImpl_ctor env retA A (paintStack_push B (paintStack_push A s))).dc.m_hDC = 0 ∧
    (wxPaintDCImpl_ctor env retA A (paintStack_push B (paintStack_push A s))).state =
      paintStack_push B (paintStack_push A s) ∧
    countBeginPaint
      (wxPaintDCImpl_ctor env retA A (paintStack_push B (paintStack_push A s))).state.calls =
      countBeginPaint s.calls ∧
    (wxPaintDCImpl_ctor env retA A
      (wxPaintDCImpl_ctor env retB B (paintStack_push B (paintStack_push A s))).state).failed =
      some (if A = 0 then CheckFailure.nullCanvas else CheckFailure.wrongWindow) ∧
    (wxPaintDCImpl_ctor env retA A
      (wxPaintDCImpl_ctor env retB B (paintStack_push B (paintStack_push A s))).state).state =
      (wxPaintDCImpl_ctor env retB B (paintStack_push B (paintStack_push A s))).state := by
  have hBA : (⟨B, false⟩ : PaintData).window ≠ A := fun h => hAB h.symm
  have hpass := wxPaintDCImpl_ctor_pass_effect env retB B
    (paintStack_push B (paintStack_push A s)) ⟨B, false⟩ (paintStack_push A s).paintStack
    hB rfl rfl
  obtain ⟨hf, hst, -, hcase⟩ := hpass
  have hwrong := wxPaintDCImpl_ctor_wrong env retA A
    (paintStack_push B (paintStack_push A s)) ⟨B, false⟩ (paintStack_push A s).paintStack
    rfl hBA
  have hwrong2 := wxPaintDCImpl_ctor_wrong env retA A
    (wxPaintDCImpl_ctor env retB B (paintStack_push B (paintStack_push A s))).state
    ⟨B, true⟩ (paintStack_push A s).paintStack hst hBA
  refine ⟨hf, ?_, ?_, ?_, ?_, ?_, ?_, ?_, ?_⟩
  · rcases hcase with ⟨h0, hm, -, -, -⟩ | ⟨-, hm, -, -, -⟩
    · unfold FindInCache
      rw [hm]
      unfold FindDCInCache FindInCache at h0
      cases hfind : mapFind (paintStack_push B (paintStack_push A s)).gs_PaintDCInfos B with
      | none => rw [hfind] at h0; exact absurd rfl h0
      | some i => rfl
    · unfold FindInCache
      rw [hm, mapFind_mapAssign_self]; rfl
  · rcases hcase with ⟨-, hm, -, hd, -⟩ | ⟨-, hm, -, hd, -⟩
    · rw [hd]; unfold FindDCInCache FindInCache; rw [hm]
    · rw [hd]; unfold FindDCInCache FindInCache; rw [hm, mapFind_mapAssign_self]; rfl
  · rw [hwrong]
  · rw [hwrong]; rfl
  · rw [hwrong]
  · rw [hwrong]; rfl
  · rw [hwrong2]
  · rw [hwrong2]

/-- A concrete instance of C10: windows `1` and `2` are pushed in this order. -/
theorem C10_strict_nesting_witness :
    (wxPaintDCImpl_ctor sampleEnv 7 2
      (paintStack_push 2 (paintStack_push 1 emptyState))).failed = none ∧
    (wxPaintDCImpl_ctor sampleEnv 9 1
      (paintStack_push 2 (paintStack_push 1 emptyState))).failed =
      some CheckFailure.wrongWindow ∧
    (wxPaintDCImpl_ctor sampleEnv 9 1
      (paintStack_push 2 (paintStack_push 1 emptyState))).state =
      paintStack_push 2 (paintStack_push 1 emptyState) :=
  have h := C10_strict_nesting sampleEnv 9 7 1 2 emptyState (by decide) (by decide)
  ⟨h.1, h.2.2.2.1, h.2.2.2.2.2.1⟩

/-! ## Several paint DCs for one window -/

/-- While the record of the repainting window `W` holds a non-null handle, any
number of further constructors for `W` reuse it: the map is unchanged, every
new context has the handle of the record, and no `BeginPaint` or `EndPaint` is
logged. -/
theorem constructMany_reuse (env : Env) (W : Window) (info : wxPaintDCInfo)
    (hW : W ≠ 0) (hh : info.m_hdc ≠ 0) (rets : List HDC) :
    ∀ (s : State) (top : PaintData) (below : List PaintData),
      s.paintStack = top :: below → top.window = W → FindInCache s W = some info →
      (constructMany env W rets s).1.gs_PaintDCInfos = s.gs_PaintDCInfos ∧
      (∀ dc ∈ (constructMany env W rets s).2, dc.m_hDC = info.m_hdc) ∧
      (constructMany env W rets s).2.length = rets.length ∧
      countBeginPaint (constructMany env W rets s).1.calls = countBeginPaint s.calls ∧
      countEndPaint (constructMany env W rets s).1.calls = countEndPaint s.calls := by
  induction rets with
  | nil =>
    intro s top below _ _ _
    exact ⟨rfl, fun dc hdc => absurd hdc (List.not_mem_nil dc), rfl, rfl, rfl⟩
  | cons ret rest ih =>
    intro s top below hs ht hrec
    have h0 : FindDCInCache s W ≠ 0 := by
      unfold FindDCInCache; rw [hrec]; exact hh
    obtain ⟨-, hst, -, hcase⟩ := wxPaintDCImpl_ctor_pass_effect env ret W s top below hW hs ht
    rcases hcase with ⟨-, hm, -, hd, extra, hc, hx⟩ | ⟨h0', -⟩
    · have hrec' : FindInCache (wxPaintDCImpl_ctor env ret W s).state W = some info := by
        unfold FindInCache; rw [hm]; exact hrec
      obtain ⟨i1, i2, i3, i4, i5⟩ := ih (wxPaintDCImpl_ctor env ret W s).state
        { top with createdPaintDC := true } below hst ht hrec'
      have hd' : (wxPaintDCImpl_ctor env ret W s).dc.m_hDC = info.m_hdc := by
        rw [hd]; unfold FindDCInCache; rw [hrec]; rfl
      refine ⟨i1.trans hm, ?_, ?_, ?_, ?_⟩
      · intro dc hdc
        rcases List.mem_cons.1 hdc with rfl | hdc
        · exact hd'
        · exact i2 dc hdc
      · show ((constructMany env W rest _).2.length + 1) = rest.length + 1
        rw [i3]
      · show countBeginPaint (constructMany env W rest _).1.calls = _
        rw [i4, hc, countBeginPaint_append,
          countBeginPaint_eq_zero extra (fun x hx' => (hx x hx').1)]
        rfl
      · show countEndPaint (constructMany env W rest _).1.calls = _
        rw [i5, hc, countEndPaint_append,
          countEndPaint_eq_zero extra (fun x hx' => (hx x hx').2)]
        rfl
    · exact absurd h0' h0

/-- The behaviour the comment on `gs_PaintDCInfos` describes, which holds when
the first `BeginPaint` returns a non-null handle: `N ≥ 1` constructors for the
repainting window `W`, which has no record at first, followed by `EndPaint(W)`,
log exactly one `BeginPaint` and exactly one `EndPaint`, all contexts have the
handle the one `BeginPaint` returned, and the map has no record for `W` at the
end. -/
theorem constructMany_one_BeginPaint_one_EndPaint (env : Env) (W : Window) (s : State)
    (top : PaintData) (below : List PaintData) (ret : HDC) (rets : List HDC)
    (hW : W ≠ 0) (hs : s.paintStack = top :: below) (ht : top.window = W)
    (hrec : FindInCache s W = none) (hret : ret ≠ 0) :
    countBeginPaint (EndPaint W (constructMany env W (ret :: rets) s).1).calls =
      countBeginPaint s.calls + 1 ∧
    countEndPaint (EndPaint W (constructMany env W (ret :: rets) s).1).calls =
      countEndPaint s.calls + 1 ∧
    (∀ dc ∈ (constructMany env W (ret :: rets) s).2, dc.m_hDC = ret) ∧
    FindInCache (EndPaint W (constructMany env W (ret :: rets) s).1) W = none := by
  have h0 : FindDCInCache s W = 0 := by unfold FindDCInCache; rw [hrec]
  obtain ⟨-, hst, -, hcase⟩ := wxPaintDCImpl_ctor_pass_effect env ret W s top below hW hs ht
  rcases hcase with ⟨h0', -⟩ | ⟨-, hm, -, hd, extra, hc, hx⟩
  · exact absurd h0 h0'
  · have hrec' : FindInCache (wxPaintDCImpl_ctor env ret W s).state W =
        some { m_hdc := ret, m_hwnd := env.GetHwndOf W, m_ps := s.heapNext } := by
      unfold FindInCache; rw [hm]; exact mapFind_mapAssign_self _ _ _
    obtain ⟨i1, i2, -, i4, i5⟩ := constructMany_reuse env W
      { m_hdc := ret, m_hwnd := env.GetHwndOf W, m_ps := s.heapNext } hW hret rets
      (wxPaintDCImpl_ctor env ret W s).state { top with createdPaintDC := true } below
      hst ht hrec'
    have hfin : FindInCache (constructMany env W (ret :: rets) s).1 W =
        some { m_hdc := ret, m_hwnd := env.GetHwndOf W, m_ps := s.heapNext } := by
      show mapFind (constructMany env W rets _).1.gs_PaintDCInfos W = _
      rw [i1]; exact hrec'
    have hE : EndPaint W (constructMany env W (ret :: rets) s).1 =
        wxPaintDCInfo_delete { m_hdc := ret, m_hwnd := env.GetHwndOf W, m_ps := s.heapNext }
          { (constructMany env W (ret :: rets) s).1 with
            gs_PaintDCInfos :=
              mapErase (constructMany env W (ret :: rets) s).1.gs_PaintDCInfos W } := by
      unfold EndPaint; rw [hfin]
    have hcb : countBeginPaint (constructMany env W (ret :: rets) s).1.calls =
        countBeginPaint s.calls + 1 := by
      show countBeginPaint (constructMany env W rets _).1.calls = _
      rw [i4, hc, countBeginPaint_append]
      have : countBeginPaint (Call.BeginPaint (env.GetHwndOf W) s.heapNext ret :: extra) =
          1 + countBeginPaint extra := by
        rw [show Call.BeginPaint (env.GetHwndOf W) s.heapNext ret :: extra =
          [Call.BeginPaint (env.GetHwndOf W) s.heapNext ret] ++ extra from rfl,
          countBeginPaint_append]
        rfl
      rw [this, countBeginPaint_eq_zero extra (fun x hx' => (hx x hx').1)]
    have hce : countEndPaint (constructMany env W (ret :: rets) s).1.calls =
        countEndPaint s.calls := by
      show countEndPaint (constructMany env W rets _).1.calls = _
      rw [i5, hc, countEndPaint_append]
      have : countEndPaint (Call.BeginPaint (env.GetHwndOf W) s.heapNext ret :: extra) =
          0 + countEndPaint extra := by
        rw [show Call.BeginPaint (env.GetHwndOf W) s.heapNext ret :: extra =
          [Call.BeginPaint (env.GetHwndOf W) s.heapNext ret] ++ extra from rfl,
          countEndPaint_append]
        rfl
      rw [this, countEndPaint_eq_zero extra (fun x hx' => (hx x hx').2)]
      rfl
    refine ⟨?_, ?_, ?_, ?_⟩
    · rw [hE]
      show countBeginPaint ((constructMany env W (ret :: rets) s).1.calls ++ [_]) = _
      rw [countBeginPaint_append, hcb]; rfl
    · rw [hE]
      show countEndPaint ((constructMany env W (ret :: rets) s).1.calls ++ [_]) = _
      rw [countEndPaint_append, hce]; rfl
    · intro dc hdc
      rcases List.mem_cons.1 hdc with rfl | hdc
      · exact hd
      · exact i2 dc hdc
    · rw [hE]; exact mapFind_mapErase_self _ _

/-- A record with a non-null handle is never replaced by a constructor,
whatever the window and the state of the paint stack. -/
theorem wxPaintDCImpl_ctor_keeps_nonnull_record (env : Env) (ret : HDC) (W : Window)
    (s : State) (info : wxPaintDCInfo)
    (hrec : FindInCache s W = some info) (hh : info.m_hdc ≠ 0) :
    (wxPaintDCImpl_ctor env ret W s).state.gs_PaintDCInfos = s.gs_PaintDCInfos := by
  by_cases hW : W = 0
  · rw [(wxPaintDCImpl_ctor_fail env ret W s (Or.inl hW)).1]
  cases hs : s.paintStack with
  | nil => rw [(wxPaintDCImpl_ctor_fail env ret W s (Or.inr (Or.inl hs))).1]
  | cons top below =>
    by_cases ht : top.window = W
    · obtain ⟨-, -, -, h⟩ := wxPaintDCImpl_ctor_pass_effect env ret W s top below hW hs ht
      rcases h with ⟨-, hm, -⟩ | ⟨h0, -⟩
      · exact hm
      · unfold FindDCInCache at h0
        rw [hrec] at h0
        exact absurd h0 hh
    · rw [(wxPaintDCImpl_ctor_fail env ret W s (Or.inr (Or.inr ⟨top, below, hs, ht⟩))).1]

/-! ## A record with a null handle

When `BeginPaint` returns the null handle, the record is stored all the same,
but `FindDCInCache` cannot tell it from a missing one: the next constructor
calls `BeginPaint` again and overwrites the record, whose `EndPaint` is then
never issued. -/

/-- Claim C1 at a failing input: two paint DCs for window `1` during its paint
notification, `BeginPaint` returning the null handle both times, followed by
`EndPaint(1)`, log two `BeginPaint` calls and one `EndPaint` call; the
paint structure of the first `BeginPaint` is never passed to `EndPaint`. -/
theorem C1_null_handle_BeginPaint_twice :
    (EndPaint 1 (constructMany sampleEnv 1 [0, 0] (paintStack_push 1 emptyState)).1).calls =
      [Call.BeginPaint 101 1 0, Call.BeginPaint 101 2 0, Call.EndPaint 101 2] ∧
    countBeginPaint
      (EndPaint 1 (constructMany sampleEnv 1 [0, 0] (paintStack_push 1 emptyState)).1).calls
      = 2 ∧
    countEndPaint
      (EndPaint 1 (constructMany sampleEnv 1 [0, 0] (paintStack_push 1 emptyState)).1).calls
      = 1 := by
  decide

/-- Claim C2 at a failing input: two paint DCs for window `1` during its paint
notification, `BeginPaint` returning the null handle and then the handle `5`:
the map holds one record for window `1`, but the first context has the null
handle and the second the handle `5`. -/
theorem C2_null_handle_not_shared :
    (constructMany sampleEnv 1 [0, 5] (paintStack_push 1 emptyState)).2.map
      (fun dc => dc.m_hDC) = [0, 5] ∧
    mapCount (constructMany sampleEnv 1 [0, 5] (paintStack_push 1 emptyState)).1.gs_PaintDCInfos
      1 = 1 := by
  decide

/-- Claim C3 at a failing input: window `1` is repainting and has a record with
the null handle (left by a first paint DC whose `BeginPaint` failed); a second
constructor, whose `BeginPaint` returns `5`, replaces the record with another
one, and no `EndPaint` is logged for the record that was replaced. -/
theorem C3_null_record_overwritten :
    FindInCache (wxPaintDCImpl_ctor sampleEnv 0 1 (paintStack_push 1 emptyState)).state 1 =
      some { m_hdc := 0, m_hwnd := 101, m_ps := 1 } ∧
    FindInCache
      (wxPaintDCImpl_ctor sampleEnv 5 1
        (wxPaintDCImpl_ctor sampleEnv 0 1 (paintStack_push 1 emptyState)).state).state 1 =
      some { m_hdc := 5, m_hwnd := 101, m_ps := 2 } ∧
    (wxPaintDCImpl_ctor sampleEnv 5 1
        (wxPaintDCImpl_ctor sampleEnv 0 1 (paintStack_push 1 emptyState)).state).failed = none ∧
    countEndPaint
      (wxPaintDCImpl_ctor sampleEnv 5 1
        (wxPaintDCImpl_ctor sampleEnv 0 1 (paintStack_push 1 emptyState)).state).state.calls
      = 0 := by
  decide

/-! ## Further lemmas on the layers -/

theorem issued_of_append (s s1 : State) (extra : List Call)
    (h : s1.calls = s.calls ++ extra) : issued s s1 = extra := by
  simp [issued, h]

/-- The cache lookup of the constructor only writes the handle of the object. -/
theorem wxPaintDCImpl_acquire_fields (env : Env) (ret : HDC) (s : State) (dc : wxDCImpl) :
    (wxPaintDCImpl_acquire env ret s dc).2 =
      { dc with m_hDC := (wxPaintDCImpl_acquire env ret s dc).2.m_hDC } := by
  unfold wxPaintDCImpl_acquire
  dsimp only
  split_ifs <;> rfl

/-- The object after `wxClientDCImpl::InitDC`: only the device origin may have
changed, to the client-area origin of the window when that is non-zero. -/
theorem wxClientDCImpl_InitDC_dc (env : Env) (s : State) (dc : wxDCImpl) :
    (wxClientDCImpl_InitDC env s dc).2 =
      if (env.GetClientAreaOrigin dc.m_window).1 ≠ 0 ∨
          (env.GetClientAreaOrigin dc.m_window).2 ≠ 0
      then { dc with m_deviceOrigin := env.GetClientAreaOrigin dc.m_window }
      else dc := by
  unfold wxClientDCImpl_InitDC SetDeviceOrigin
  dsimp only
  split_ifs <;> rfl

/-- The calls of `wxClientDCImpl::InitDC`: they are appended to the log, and the
`SetDeviceOrigin` calls among them are the single one to the client-area origin
of the window when that is non-zero, and none otherwise. -/
theorem wxClientDCImpl_InitDC_origin (env : Env) (s : State) (dc : wxDCImpl) :
    ∃ extra, (wxClientDCImpl_InitDC env s dc).1.calls = s.calls ++ extra ∧
      extra.filter Call.isSetDeviceOrigin =
        if (env.GetClientAreaOrigin dc.m_window).1 ≠ 0 ∨
            (env.GetClientAreaOrigin dc.m_window).2 ≠ 0
        then [Call.SetDeviceOrigin dc.m_hDC (env.GetClientAreaOrigin dc.m_window).1
                (env.GetClientAreaOrigin dc.m_window).2]
        else [] := by
  unfold wxClientDCImpl_InitDC wxWindowDCImpl_InitDC SetDeviceOrigin State.log
  dsimp only
  split_ifs
  all_goals
    simp only [List.append_assoc]
    refine ⟨_, rfl, ?_⟩
    simp [Call.isSetDeviceOrigin]

/-- The object a `wxPaintDCImpl` constructor leaves once its checks have passed,
in terms of its handle: with a null handle the object is as the base class left
it, apart from its window; with a non-null handle it is flagged as clipped and
its device origin is the client-area origin of the window when that is
non-zero. -/
theorem wxPaintDCImpl_ctor_pass_dc (env : Env) (ret : HDC) (W : Window) (s : State)
    (top : PaintData) (below : List PaintData)
    (hW : W ≠ 0) (hs : s.paintStack = top :: below) (ht : top.window = W) :
    (wxPaintDCImpl_ctor env ret W s).dc =
      if (wxPaintDCImpl_ctor env ret W s).dc.m_hDC = 0 then
        { m_window := W, m_hDC := 0, m_bOwnsDC := false, m_clipping := false,
          m_deviceOrigin := (0, 0) }
      else
        { m_window := W, m_hDC := (wxPaintDCImpl_ctor env ret W s).dc.m_hDC,
          m_bOwnsDC := false, m_clipping := true,
          m_deviceOrigin :=
            if (env.GetClientAreaOrigin W).1 ≠ 0 ∨ (env.GetClientAreaOrigin W).2 ≠ 0
            then env.GetClientAreaOrigin W else (0, 0) } := by
  rw [wxPaintDCImpl_ctor_pass env ret W s top below hW hs ht]
  have hf := wxPaintDCImpl_acquire_fields env ret
    { s with paintStack := { top with createdPaintDC := true } :: below }
    (InitWindow wxMSWDCImpl_ctor W)
  generalize wxPaintDCImpl_acquire env ret
    { s with paintStack := { top with createdPaintDC := true } :: below }
    (InitWindow wxMSWDCImpl_ctor W) = r at hf ⊢
  obtain ⟨s1, dc1⟩ := r
  simp only at hf
  by_cases h0 : dc1.m_hDC = 0
  · simp only [h0, if_true]
    rw [hf, h0]; rfl
  · simp only [h0, if_false]
    rw [wxClientDCImpl_InitDC_dc]
    have hw : dc1.m_window = W := by rw [hf]; rfl
    rw [hw]
    split_ifs with ho
    · rw [hf]; rfl
    · rw [hf]; rfl

/-- The cache lookup of the constructor logs no `SetDeviceOrigin`. -/
theorem wxPaintDCImpl_acquire_calls (env : Env) (ret : HDC) (s : State) (dc : wxDCImpl) :
    ∃ extra, (wxPaintDCImpl_acquire env ret s dc).1.calls = s.calls ++ extra ∧
      extra.filter Call.isSetDeviceOrigin = [] := by
  unfold wxPaintDCImpl_acquire wxPaintDCInfoOur_new State.log
  dsimp only
  split_ifs
  · exact ⟨_, rfl, by simp [Call.isSetDeviceOrigin]⟩
  · exact ⟨[], by simp, rfl⟩

/-- The `SetDeviceOrigin` calls of a `wxPaintDCImpl` constructor whose checks
have passed: one, to the client-area origin of the window, when the handle is
non-null and that origin is non-zero, and none otherwise. -/
theorem wxPaintDCImpl_ctor_pass_origin_calls (env : Env) (ret : HDC) (W : Window)
    (s : State) (top : PaintData) (below : List PaintData)
    (hW : W ≠ 0) (hs : s.paintStack = top :: below) (ht : top.window = W) :
    ∃ extra, (wxPaintDCImpl_ctor env ret W s).state.calls = s.calls ++ extra ∧
      extra.filter Call.isSetDeviceOrigin =
        if (wxPaintDCImpl_ctor env ret W s).dc.m_hDC ≠ 0 ∧
            ((env.GetClientAreaOrigin W).1 ≠ 0 ∨ (env.GetClientAreaOrigin W).2 ≠ 0)
        then [Call.SetDeviceOrigin (wxPaintDCImpl_ctor env ret W s).dc.m_hDC
                (env.GetClientAreaOrigin W).1 (env.GetClientAreaOrigin W).2]
        else [] := by
  rw [wxPaintDCImpl_ctor_pass env ret W s top below hW hs ht]
  have hf := wxPaintDCImpl_acquire_fields env ret
    { s with paintStack := { top with createdPaintDC := true } :: below }
    (InitWindow wxMSWDCImpl_ctor W)
  obtain ⟨e1, hc1, hn1⟩ := wxPaintDCImpl_acquire_calls env ret
    { s with paintStack := { top with createdPaintDC := true } :: below }
    (InitWindow wxMSWDCImpl_ctor W)
  generalize wxPaintDCImpl_acquire env ret
    { s with paintStack := { top with createdPaintDC := true } :: below }
    (InitWindow wxMSWDCImpl_ctor W) = r at hf hc1 ⊢
  obtain ⟨s1, dc1⟩ := r
  simp only at hf hc1
  have hw : dc1.m_window = W := by rw [hf]; rfl
  by_cases h0 : dc1.m_hDC = 0
  · simp only [h0, if_true]
    refine ⟨e1, hc1, ?_⟩
    rw [hn1]; simp
  · simp only [h0, if_false]
    obtain ⟨e2, hc2, hn2⟩ := wxClientDCImpl_InitDC_origin env s1 dc1
    obtain ⟨-, -, -, h4, -⟩ := wxClientDCImpl_InitDC_frame env s1 dc1
    refine ⟨e1 ++ e2, ?_, ?_⟩
    · rw [hc2, hc1, List.append_assoc]
    · rw [List.filter_append, hn1, hn2, hw, h4]
      simp [h0]

/-! ## Destruction of a paint DC -/

/-- A constructor never removes a record from the map. -/
theorem wxPaintDCImpl_ctor_keeps_isSome (env : Env) (ret : HDC) (W w : Window) (s : State)
    (h : (FindInCache s w).isSome = true) :
    (FindInCache (wxPaintDCImpl_ctor env ret W s).state w).isSome = true := by
  by_cases hW : W = 0
  · rw [(wxPaintDCImpl_ctor_fail env ret W s (Or.inl hW)).1]; exact h
  cases hs : s.paintStack with
  | nil => rw [(wxPaintDCImpl_ctor_fail env ret W s (Or.inr (Or.inl hs))).1]; exact h
  | cons top below =>
    by_cases ht : top.window = W
    · obtain ⟨-, -, -, hc⟩ := wxPaintDCImpl_ctor_pass_effect env ret W s top below hW hs ht
      rcases hc with ⟨-, hm, -⟩ | ⟨-, hm, -⟩
      · unfold FindInCache; rw [hm]; exact h
      · unfold FindInCache; rw [hm]
        by_cases hw : w = W
        · subst hw; rw [mapFind_mapAssign_self]; rfl
        · rw [mapFind_mapAssign_ne _ _ _ _ hw]; exact h
    · rw [(wxPaintDCImpl_ctor_fail env ret W s (Or.inr (Or.inr ⟨top, below, hs, ht⟩))).1]
      exact h

/-- The body of `~wxPaintDCImpl` changes the log only, by calls that release
nothing, and leaves the handle null. -/
theorem wxPaintDCImpl_dtor_effect (s : State) (dc : wxDCImpl) :
    (wxPaintDCImpl_dtor s dc).1.gs_PaintDCInfos = s.gs_PaintDCInfos ∧
    (wxPaintDCImpl_dtor s dc).1.paintStack = s.paintStack ∧
    (wxPaintDCImpl_dtor s dc).1.heapNext = s.heapNext ∧
    (wxPaintDCImpl_dtor s dc).2.m_hDC = 0 ∧
    ∃ extra, (wxPaintDCImpl_dtor s dc).1.calls = s.calls ++ extra ∧
      ∀ x ∈ extra, x.isRelease = false ∧ x.isBeginPaint = false ∧ x.isEndPaint = false := by
  by_cases h : dc.m_hDC = 0
  · have hd : wxPaintDCImpl_dtor s dc = (s, dc) := by simp [wxPaintDCImpl_dtor, h]
    rw [hd]
    exact ⟨rfl, rfl, rfl, h, [], by simp, by simp⟩
  · have hd : wxPaintDCImpl_dtor s dc =
        (s.log (.SelectOldObjects dc.m_hDC), { dc with m_hDC := 0 }) := by
      simp [wxPaintDCImpl_dtor, h]
    rw [hd]
    exact ⟨rfl, rfl, rfl, rfl, [Call.SelectOldObjects dc.m_hDC], rfl,
      by simp [Call.isRelease, Call.isBeginPaint, Call.isEndPaint]⟩

/-- The destruction of a paint DC is the body of its destructor: the base-class
destructor finds a null handle and does nothing. -/
theorem wxPaintDCImpl_destroy_eq (env : Env) (s : State) (dc : wxDCImpl) :
    wxPaintDCImpl_destroy env s dc = (wxPaintDCImpl_dtor s dc).1 := by
  unfold wxPaintDCImpl_destroy wxMSWDCImpl_dtor
  rw [(wxPaintDCImpl_dtor_effect s dc).2.2.2.1]
  simp

/-- A constructor for `W` keeps every record of another window and every record
that holds a non-null handle.  (A record of `W` with the null handle is
replaced: see the section on records with a null handle.) -/
theorem wxPaintDCImpl_ctor_keeps_record (env : Env) (ret : HDC) (W w : Window) (s : State)
    (info : wxPaintDCInfo) (h : FindInCache s w = some info)
    (hk : info.m_hdc ≠ 0 ∨ w ≠ W) :
    FindInCache (wxPaintDCImpl_ctor env ret W s).state w = some info := by
  by_cases hW : W = 0
  · rw [(wxPaintDCImpl_ctor_fail env ret W s (Or.inl hW)).1]; exact h
  cases hs : s.paintStack with
  | nil => rw [(wxPaintDCImpl_ctor_fail env ret W s (Or.inr (Or.inl hs))).1]; exact h
  | cons top below =>
    by_cases ht : top.window = W
    · obtain ⟨-, -, -, hc⟩ := wxPaintDCImpl_ctor_pass_effect env ret W s top below hW hs ht
      rcases hc with ⟨-, hm, -⟩ | ⟨h0, hm, -⟩
      · unfold FindInCache; rw [hm]; exact h
      · unfold FindInCache; rw [hm]
        by_cases hw : w = W
        · subst hw
          unfold FindDCInCache at h0
          rw [h] at h0
          rcases hk with hk | hk
          · exact absurd h0 hk
          · exact absurd rfl hk
        · rw [mapFind_mapAssign_ne _ _ _ _ hw]; exact h
    · rw [(wxPaintDCImpl_ctor_fail env ret W s (Or.inr (Or.inr ⟨top, below, hs, ht⟩))).1]
      exact h

/-- The destruction of a paint DC never releases.  For every paint DC object and
every state, the destructor `~wxPaintDCImpl` leaves the map and the paint stack
unchanged, logs no call that gives a handle back (`EndPaint`, `ReleaseDC`,
`DeleteDC`), and leaves `m_hDC` null, so that the base-class destructor, which
runs next, releases nothing: the whole destruction is the body of
`~wxPaintDCImpl`, and no record is removed by it.  A constructor for `W`, for
its part, keeps every record of another window and every record that holds a
non-null handle. -/
theorem wxPaintDCImpl_destroy_never_releases (env : Env) (s : State) (dc : wxDCImpl) :
    (wxPaintDCImpl_dtor s dc).1.gs_PaintDCInfos = s.gs_PaintDCInfos ∧
    (wxPaintDCImpl_dtor s dc).1.paintStack = s.paintStack ∧
    (wxPaintDCImpl_dtor s dc).2.m_hDC = 0 ∧
    (∀ x ∈ issued s (wxPaintDCImpl_dtor s dc).1, x.isRelease = false) ∧
    countEndPaint (wxPaintDCImpl_dtor s dc).1.calls = countEndPaint s.calls ∧
    wxPaintDCImpl_destroy env s dc = (wxPaintDCImpl_dtor s dc).1 ∧
    (wxPaintDCImpl_destroy env s dc).gs_PaintDCInfos = s.gs_PaintDCInfos ∧
    (∀ x ∈ issued s (wxPaintDCImpl_destroy env s dc), x.isRelease = false) ∧
    (∀ w, FindInCache (wxPaintDCImpl_destroy env s dc) w = FindInCache s w) ∧
    (∀ ret W w info, FindInCache s w = some info → (info.m_hdc ≠ 0 ∨ w ≠ W) →
      FindInCache (wxPaintDCImpl_ctor env ret W s).state w = some info) := by
  obtain ⟨h1, h2, -, h4, extra, h5, h6⟩ := wxPaintDCImpl_dtor_effect s dc
  have hd := wxPaintDCImpl_destroy_eq env s dc
  have hi := issued_of_append s _ extra h5
  refine ⟨h1, h2, h4, ?_, ?_, hd, ?_, ?_, ?_, ?_⟩
  · rw [hi]; exact fun x hx => (h6 x hx).1
  · rw [h5, countEndPaint_append, countEndPaint_eq_zero extra (fun x hx => (h6 x hx).2.2)]
    rfl
  · rw [hd]; exact h1
  · rw [hd, hi]; exact fun x hx => (h6 x hx).1
  · intro w; rw [hd]; unfold FindInCache; rw [h1]
  · intro ret W w info h hk; exact wxPaintDCImpl_ctor_keeps_record env ret W w s info h hk

/-- Claim C11 at a failing input: window `1` is repainting; a first paint DC is
constructed, `BeginPaint` returning the null handle, which leaves the record
`(0, 101, 1)` in the map; that paint DC is destroyed, which leaves the record
where it is and logs nothing; then a second paint DC is constructed,
`BeginPaint` returning `5`.  After it the record `(0, 101, 1)` is no longer in
the map, which holds the record `(5, 101, 2)` for window `1` instead, although
`EndPaint(1)` has not run: no `EndPaint` was logged. -/
theorem C11_record_removed_by_constructor :
    (1, ({ m_hdc := 0, m_hwnd := 101, m_ps := 1 } : wxPaintDCInfo)) ∈
      (run sampleEnv [Step.enter 1, Step.construct 1 0] emptyState).gs_PaintDCInfos ∧
    (wxPaintDCImpl_ctor sampleEnv 0 1 (paintStack_push 1 emptyState)).dc =
      { m_window := 1, m_hDC := 0, m_bOwnsDC := false, m_clipping := false,
        m_deviceOrigin := (0, 0) } ∧
    run sampleEnv
      [Step.enter 1, Step.construct 1 0,
       Step.destroy { m_window := 1, m_hDC := 0, m_bOwnsDC := false, m_clipping := false,
                      m_deviceOrigin := (0, 0) }] emptyState =
      run sampleEnv [Step.enter 1, Step.construct 1 0] emptyState ∧
    (run sampleEnv
      [Step.enter 1, Step.construct 1 0,
       Step.destroy { m_window := 1, m_hDC := 0, m_bOwnsDC := false, m_clipping := false,
                      m_deviceOrigin := (0, 0) },
       Step.construct 1 5] emptyState).gs_PaintDCInfos =
      [(1, { m_hdc := 5, m_hwnd := 101, m_ps := 2 })] ∧
    (1, ({ m_hdc := 0, m_hwnd := 101, m_ps := 1 } : wxPaintDCInfo)) ∉
      (run sampleEnv
        [Step.enter 1, Step.construct 1 0,
         Step.destroy { m_window := 1, m_hDC := 0, m_bOwnsDC := false, m_clipping := false,
                        m_deviceOrigin := (0, 0) },
         Step.construct 1 5] emptyState).gs_PaintDCInfos ∧
    countEndPaint (run sampleEnv
      [Step.enter 1, Step.construct 1 0,
       Step.destroy { m_window := 1, m_hDC := 0, m_bOwnsDC := false, m_clipping := false,
                      m_deviceOrigin := (0, 0) },
       Step.construct 1 5] emptyState).calls = 0 := by
  decide

/-! ## Origin adjustment and clipping flag -/

/-- Claim C14.  For a window whose client-area origin is `(dx, dy)`,
`wxClientDCImpl::InitDC` appends its calls to the log; when `dx` or `dy` is
non-zero the device origin of the context becomes `(dx, dy)` and exactly one
`SetDeviceOrigin` call is issued, with these coordinates; when both are zero no
`SetDeviceOrigin` call is issued and the device origin is left as it was. -/
theorem C14_origin_adjustment (env : Env) (s : State) (dc : wxDCImpl) (dx dy : Int)
    (horigin : env.GetClientAreaOrigin dc.m_window = (dx, dy)) :
    (∃ extra, (wxClientDCImpl_InitDC env s dc).1.calls = s.calls ++ extra) ∧
    ((dx ≠ 0 ∨ dy ≠ 0) →
      (wxClientDCImpl_InitDC env s dc).2.m_deviceOrigin = (dx, dy) ∧
      (issued s (wxClientDCImpl_InitDC env s dc).1).filter Call.isSetDeviceOrigin =
        [Call.SetDeviceOrigin dc.m_hDC dx dy]) ∧
    ((dx = 0 ∧ dy = 0) →
      (wxClientDCImpl_InitDC env s dc).2.m_deviceOrigin = dc.m_deviceOrigin ∧
      (issued s (wxClientDCImpl_InitDC env s dc).1).filter Call.isSetDeviceOrigin = []) := by
  obtain ⟨extra, hc, hf⟩ := wxClientDCImpl_InitDC_origin env s dc
  have hd := wxClientDCImpl_InitDC_dc env s dc
  have hi := issued_of_append s _ extra hc
  rw [horigin] at hf hd
  simp only at hf hd
  refine ⟨⟨extra, hc⟩, ?_, ?_⟩
  · intro hnz
    rw [hi, hf, hd]
    simp only [ne_eq, hnz, if_true]
    exact ⟨trivial, trivial⟩
  · rintro ⟨hx, hy⟩
    have hz : ¬ (dx ≠ 0 ∨ dy ≠ 0) := by simp [hx, hy]
    rw [hi, hf, hd]
    simp only [hz, if_false]
    exact ⟨trivial, trivial⟩

/-- A concrete instance of C14: window `2` has the client-area origin `(0, 24)`. -/
theorem C14_origin_adjustment_witness :
    (wxClientDCImpl_InitDC sampleEnv emptyState
      { m_window := 2, m_hDC := 7, m_bOwnsDC := false, m_clipping := false,
        m_deviceOrigin := (0, 0) }).2.m_deviceOrigin = (0, 24) ∧
    (issued emptyState (wxClientDCImpl_InitDC sampleEnv emptyState
      { m_window := 2, m_hDC := 7, m_bOwnsDC := false, m_clipping := false,
        m_deviceOrigin := (0, 0) }).1).filter Call.isSetDeviceOrigin =
      [Call.SetDeviceOrigin 7 0 24] :=
  (C14_origin_adjustment sampleEnv emptyState
    { m_window := 2, m_hDC := 7, m_bOwnsDC := false, m_clipping := false,
      m_deviceOrigin := (0, 0) } 0 24 rfl).2.1 (Or.inr (by decide))

/-- What the `wxClientDCImpl` constructor does for a non-null window: one
`GetDC` on the native window, whose result is the handle, then `InitDC`. -/
theorem wxClientDCImpl_ctor_effect (env : Env) (ret : HDC) (W : Window) (s : State)
    (hW : W ≠ 0) :
    (wxClientDCImpl_ctor env ret W s).failed = none ∧
    (wxClientDCImpl_ctor env ret W s).state.gs_PaintDCInfos = s.gs_PaintDCInfos ∧
    (wxClientDCImpl_ctor env ret W s).state.paintStack = s.paintStack ∧
    (wxClientDCImpl_ctor env ret W s).dc.m_hDC = ret ∧
    (wxClientDCImpl_ctor env ret W s).dc.m_deviceOrigin =
      (if (env.GetClientAreaOrigin W).1 ≠ 0 ∨ (env.GetClientAreaOrigin W).2 ≠ 0
        then env.GetClientAreaOrigin W else (0, 0)) ∧
    ∃ extra, (wxClientDCImpl_ctor env ret W s).state.calls =
        s.calls ++ Call.GetDC (env.GetHwndOf W) ret :: extra ∧
      (∀ x ∈ extra, x.isBeginPaint = false ∧ x.isEndPaint = false) ∧
      extra.filter Call.isSetDeviceOrigin =
        if (env.GetClientAreaOrigin W).1 ≠ 0 ∨ (env.GetClientAreaOrigin W).2 ≠ 0
        then [Call.SetDeviceOrigin ret (env.GetClientAreaOrigin W).1
                (env.GetClientAreaOrigin W).2]
        else [] := by
  simp only [wxClientDCImpl_ctor, hW, if_false, InitWindow]
  obtain ⟨h1, h2, -, h4, -, extra, h6, h7⟩ := wxClientDCImpl_InitDC_frame env
    (s.log (.GetDC (env.GetHwndOf W) ret))
    { m_window := W, m_hDC := ret, m_bOwnsDC := wxMSWDCImpl_ctor.m_bOwnsDC,
      m_clipping := wxMSWDCImpl_ctor.m_clipping,
      m_deviceOrigin := wxMSWDCImpl_ctor.m_deviceOrigin }
  obtain ⟨extra2, h8, h9⟩ := wxClientDCImpl_InitDC_origin env
    (s.log (.GetDC (env.GetHwndOf W) ret))
    { m_window := W, m_hDC := ret, m_bOwnsDC := wxMSWDCImpl_ctor.m_bOwnsDC,
      m_clipping := wxMSWDCImpl_ctor.m_clipping,
      m_deviceOrigin := wxMSWDCImpl_ctor.m_deviceOrigin }
  have hee : extra = extra2 := List.append_cancel_left (h6.symm.trans h8)
  subst hee
  refine ⟨trivial, h1, h2, h4, ?_, extra, ?_, h7, h9⟩
  · rw [wxClientDCImpl_InitDC_dc]
    dsimp only
    split_ifs <;> rfl
  · rw [h6]; simp [State.log]

/-- What the `wxWindowDCImpl` constructor does for a non-null window: one
`GetWindowDC` on the native window, whose result is the handle, then
`wxWindowDCImpl::InitDC`. -/
theorem wxWindowDCImpl_ctor_effect (env : Env) (ret : HDC) (W : Window) (s : State)
    (hW : W ≠ 0) :
    (wxWindowDCImpl_ctor env ret W s).failed = none ∧
    (wxWindowDCImpl_ctor env ret W s).state.gs_PaintDCInfos = s.gs_PaintDCInfos ∧
    (wxWindowDCImpl_ctor env ret W s).state.paintStack = s.paintStack ∧
    (wxWindowDCImpl_ctor env ret W s).dc.m_hDC = ret ∧
    (wxWindowDCImpl_ctor env ret W s).state.calls =
      s.calls ++ Call.GetWindowDC (env.GetHwndOf W) ret :: Call.SetBkMode ret ::
        (if env.wxUSE_PALETTE then [Call.InitializePalette ret] else []) := by
  simp only [wxWindowDCImpl_ctor, hW, if_false, InitWindow, wxWindowDCImpl_InitDC, State.log]
  refine ⟨trivial, ?_, ?_, trivial, ?_⟩
  · split_ifs <;> rfl
  · split_ifs <;> rfl
  · split_ifs <;> simp

/-- Claim C15 at a counterexample: window `1` is repainting and has no record;
`BeginPaint` returns the null handle.  The constructor passes its checks, and
the context is not flagged as clipped. -/
theorem C15_null_handle_not_flagged :
    (wxPaintDCImpl_ctor sampleEnv 0 1 (paintStack_push 1 emptyState)).failed = none ∧
    (wxPaintDCImpl_ctor sampleEnv 0 1 (paintStack_push 1 emptyState)).dc.m_clipping = false := by
  decide

/-- Claim C15, amended.  A constructor that passes its checks (non-null window
`W` on top of the paint stack) yields a context flagged as clipped whenever the
handle of the context is non-null, be it reused from the map or returned by
`BeginPaint`; when the handle is null the constructor returns at
`if (!GetHDC()) return;` and the flag stays false. -/
theorem C15_clipped_when_handle (env : Env) (ret : HDC) (W : Window) (s : State)
    (top : PaintData) (below : List PaintData)
    (hW : W ≠ 0) (hs : s.paintStack = top :: below) (ht : top.window = W) :
    (wxPaintDCImpl_ctor env ret W s).failed = none ∧
    ((wxPaintDCImpl_ctor env ret W s).dc.m_hDC ≠ 0 →
      (wxPaintDCImpl_ctor env ret W s).dc.m_clipping = true) ∧
    ((wxPaintDCImpl_ctor env ret W s).dc.m_hDC = 0 →
      (wxPaintDCImpl_ctor env ret W s).dc.m_clipping = false) ∧
    (FindDCInCache s W ≠ 0 → (wxPaintDCImpl_ctor env ret W s).dc.m_clipping = true) ∧
    (FindDCInCache s W = 0 → ret ≠ 0 →
      (wxPaintDCImpl_ctor env ret W s).dc.m_clipping = true) := by
  have hdc := wxPaintDCImpl_ctor_pass_dc env ret W s top below hW hs ht
  obtain ⟨hf, -, -, hcase⟩ := wxPaintDCImpl_ctor_pass_effect env ret W s top below hW hs ht
  have hnz : (wxPaintDCImpl_ctor env ret W s).dc.m_hDC ≠ 0 →
      (wxPaintDCImpl_ctor env ret W s).dc.m_clipping = true := by
    intro h
    rw [hdc]; simp only [h, if_false]
  refine ⟨hf, hnz, ?_, ?_, ?_⟩
  · intro h
    rw [hdc]; simp only [h, if_true]
  · intro h
    rcases hcase with ⟨-, -, -, hd, -⟩ | ⟨h0, -⟩
    · exact hnz (by rw [hd]; exact h)
    · exact absurd h0 h
  · intro h hret
    rcases hcase with ⟨h0, -⟩ | ⟨-, -, -, hd, -⟩
    · exact absurd h h0
    · exact hnz (by rw [hd]; exact hret)

/-- A concrete instance of the amended C15: the first paint DC of window `2`,
`BeginPaint` returning the handle `7`. -/
theorem C15_clipped_when_handle_witness :
    (wxPaintDCImpl_ctor sampleEnv 7 2 (paintStack_push 2 emptyState)).dc.m_clipping = true :=
  (C15_clipped_when_handle sampleEnv 7 2 (paintStack_push 2 emptyState) ⟨2, false⟩ []
    (by decide) rfl rfl).2.1 (by decide)

/-- Claim C16 at a counterexample: window `2`, whose client-area origin is
`(0, 24)`, is repainting and `BeginPaint` returns the null handle.  The
constructor passes its checks but applies no origin adjustment: the device
origin stays `(0, 0)` and no `SetDeviceOrigin` is issued, whereas a
`wxClientDCImpl` for the same window, its handle null as well, has the device
origin `(0, 24)`. -/
theorem C16_null_handle_no_origin_adjustment :
    sampleEnv.GetClientAreaOrigin 2 = (0, 24) ∧
    (wxPaintDCImpl_ctor sampleEnv 0 2 (paintStack_push 2 emptyState)).failed = none ∧
    (wxPaintDCImpl_ctor sampleEnv 0 2 (paintStack_push 2 emptyState)).dc.m_deviceOrigin =
      (0, 0) ∧
    (issued (paintStack_push 2 emptyState)
      (wxPaintDCImpl_ctor sampleEnv 0 2 (paintStack_push 2 emptyState)).state).filter
      Call.isSetDeviceOrigin = [] ∧
    (wxClientDCImpl_ctor sampleEnv 0 2 (paintStack_push 2 emptyState)).dc.m_deviceOrigin =
      (0, 24) := by
  decide

/-- Claim C16, amended.  A constructor that passes its checks (non-null window
`W` on top of the paint stack) and whose handle is non-null, be it the first
for the window or a reusing one, applies the origin adjustment of a
`wxClientDCImpl` for the same window: the device origin is the one such a
context has, and the `SetDeviceOrigin` calls issued are those such a context
with the same handle issues, namely one call to `(dx, dy)` when the client-area
origin `(dx, dy)` of the window is non-zero and none otherwise. -/
theorem C16_same_origin_adjustment (env : Env) (ret : HDC) (W : Window) (s : State)
    (top : PaintData) (below : List PaintData)
    (hW : W ≠ 0) (hs : s.paintStack = top :: below) (ht : top.window = W)
    (hh : (wxPaintDCImpl_ctor env ret W s).dc.m_hDC ≠ 0) :
    (∀ r s0, (wxPaintDCImpl_ctor env ret W s).dc.m_deviceOrigin =
      (wxClientDCImpl_ctor env r W s0).dc.m_deviceOrigin) ∧
    (∀ s0, (issued s (wxPaintDCImpl_ctor env ret W s).state).filter Call.isSetDeviceOrigin =
      (issued s0 (wxClientDCImpl_ctor env (wxPaintDCImpl_ctor env ret W s).dc.m_hDC W
        s0).state).filter Call.isSetDeviceOrigin) ∧
    (issued s (wxPaintDCImpl_ctor env ret W s).state).filter Call.isSetDeviceOrigin =
      (if (env.GetClientAreaOrigin W).1 ≠ 0 ∨ (env.GetClientAreaOrigin W).2 ≠ 0
        then [Call.SetDeviceOrigin (wxPaintDCImpl_ctor env ret W s).dc.m_hDC
                (env.GetClientAreaOrigin W).1 (env.GetClientAreaOrigin W).2]
        else []) := by
  have hdc := wxPaintDCImpl_ctor_pass_dc env ret W s top below hW hs ht
  obtain ⟨extra, hc, hfil⟩ :=
    wxPaintDCImpl_ctor_pass_origin_calls env ret W s top below hW hs ht
  have hi := issued_of_append s _ extra hc
  have hmine : (issued s (wxPaintDCImpl_ctor env ret W s).state).filter
      Call.isSetDeviceOrigin =
      (if (env.GetClientAreaOrigin W).1 ≠ 0 ∨ (env.GetClientAreaOrigin W).2 ≠ 0
        then [Call.SetDeviceOrigin (wxPaintDCImpl_ctor env ret W s).dc.m_hDC
                (env.GetClientAreaOrigin W).1 (env.GetClientAreaOrigin W).2]
        else []) := by
    rw [hi, hfil]
    simp only [ne_eq, hh, not_false_eq_true, true_and]
  refine ⟨?_, ?_, hmine⟩
  · intro r s0
    rw [(wxClientDCImpl_ctor_effect env r W s0 hW).2.2.2.2.1, hdc]
    simp only [hh, if_false]
  · intro s0
    obtain ⟨-, -, -, -, -, e2, hc2, -, hf2⟩ := wxClientDCImpl_ctor_effect env
      (wxPaintDCImpl_ctor env ret W s).dc.m_hDC W s0 hW
    rw [hmine, issued_of_append s0 _ _ hc2]
    rw [show Call.GetDC (env.GetHwndOf W) (wxPaintDCImpl_ctor env ret W s).dc.m_hDC :: e2 =
      [Call.GetDC (env.GetHwndOf W) (wxPaintDCImpl_ctor env ret W s).dc.m_hDC] ++ e2 from rfl,
      List.filter_append, hf2]
    simp [Call.isSetDeviceOrigin]

/-- A concrete instance of the amended C16: the first paint DC of window `2`,
whose client-area origin is `(0, 24)`, `BeginPaint` returning the handle `7`. -/
theorem C16_same_origin_adjustment_witness :
    (issued (paintStack_push 2 emptyState)
      (wxPaintDCImpl_ctor sampleEnv 7 2 (paintStack_push 2 emptyState)).state).filter
      Call.isSetDeviceOrigin =
      (if (sampleEnv.GetClientAreaOrigin 2).1 ≠ 0 ∨ (sampleEnv.GetClientAreaOrigin 2).2 ≠ 0
        then [Call.SetDeviceOrigin
                (wxPaintDCImpl_ctor sampleEnv 7 2 (paintStack_push 2 emptyState)).dc.m_hDC
                (sampleEnv.GetClientAreaOrigin 2).1 (sampleEnv.GetClientAreaOrigin 2).2]
        else []) :=
  (C16_same_origin_adjustment sampleEnv 7 2 (paintStack_push 2 emptyState) ⟨2, false⟩ []
    (by decide) rfl rfl (by decide)).2.2

/-! ## More on the map -/

theorem mem_of_mapFind (m : PaintDCInfos) (w : Window) (info : wxPaintDCInfo)
    (h : mapFind m w = some info) : (w, info) ∈ m := by
  induction m with
  | nil => cases h
  | cons e rest ih =>
    obtain ⟨k, v⟩ := e
    by_cases hk : k = w
    · subst hk
      simp only [mapFind, if_true, Option.some.injEq] at h
      subst h
      exact List.mem_cons_self _ _
    · simp only [mapFind, hk, if_false] at h
      exact List.mem_cons_of_mem _ (ih h)

theorem mapFind_none_of_not_mem (m : PaintDCInfos) (w : Window)
    (h : ∀ info, (w, info) ∉ m) : mapFind m w = none := by
  cases hf : mapFind m w with
  | none => rfl
  | some info => exact absurd (mem_of_mapFind m w info hf) (h info)

theorem mapFind_of_mem (m : PaintDCInfos) (w : Window) (info : wxPaintDCInfo)
    (hU : UniqueKeys m) (h : (w, info) ∈ m) : mapFind m w = some info := by
  induction m with
  | nil => cases h
  | cons e rest ih =>
    obtain ⟨k, v⟩ := e
    unfold UniqueKeys at hU
    simp only [List.map_cons, List.nodup_cons] at hU
    rcases List.mem_cons.1 h with heq | hmem
    · cases heq
      simp [mapFind]
    · have hk : k ≠ w := by
        intro hkw
        subst hkw
        exact hU.1 (List.mem_map_of_mem Prod.fst hmem)
      simp only [mapFind, hk, if_false]
      exact ih hU.2 hmem

theorem mapAssign_keys_subset (m : PaintDCInfos) (w : Window) (info : wxPaintDCInfo) :
    ∀ k ∈ (mapAssign m w info).map Prod.fst, k = w ∨ k ∈ m.map Prod.fst := by
  induction m with
  | nil =>
    intro k hk
    simp only [mapAssign, List.map_cons, List.map_nil, List.mem_singleton] at hk
    exact Or.inl hk
  | cons e rest ih =>
    obtain ⟨k0, v0⟩ := e
    intro k hk
    by_cases h0 : k0 = w
    · simp only [mapAssign, h0, if_true, List.map_cons, List.mem_cons] at hk ⊢
      rcases hk with hk | hk
      · exact Or.inl hk
      · exact Or.inr (Or.inr hk)
    · simp only [mapAssign, h0, if_false, List.map_cons, List.mem_cons] at hk ⊢
      rcases hk with hk | hk
      · exact Or.inr (Or.inl hk)
      · rcases ih k hk with h | h
        · exact Or.inl h
        · exact Or.inr (Or.inr h)

theorem UniqueKeys_mapAssign (m : PaintDCInfos) (w : Window) (info : wxPaintDCInfo)
    (hU : UniqueKeys m) : UniqueKeys (mapAssign m w info) := by
  induction m with
  | nil => simp [mapAssign, UniqueKeys]
  | cons e rest ih =>
    obtain ⟨k0, v0⟩ := e
    unfold UniqueKeys at hU ⊢
    simp only [List.map_cons, List.nodup_cons] at hU
    by_cases h0 : k0 = w
    · simp only [mapAssign, h0, if_true, List.map_cons, List.nodup_cons]
      rw [h0] at hU
      exact hU
    · simp only [mapAssign, h0, if_false, List.map_cons, List.nodup_cons]
      refine ⟨?_, ih hU.2⟩
      intro hin
      rcases mapAssign_keys_subset rest w info k0 hin with h | h
      · exact h0 h
      · exact hU.1 h

theorem UniqueKeys_mapErase (m : PaintDCInfos) (w : Window)
    (hU : UniqueKeys m) : UniqueKeys (mapErase m w) := by
  unfold UniqueKeys mapErase at *
  exact List.Nodup.sublist (List.Sublist.map _ (List.filter_sublist _)) hU

theorem mapCount_le_one (m : PaintDCInfos) (w : Window) (hU : UniqueKeys m) :
    mapCount m w ≤ 1 := by
  induction m with
  | nil => simp [mapCount]
  | cons e rest ih =>
    obtain ⟨k, v⟩ := e
    unfold UniqueKeys at hU
    simp only [List.map_cons, List.nodup_cons] at hU
    by_cases hk : k = w
    · subst hk
      have hnone : mapFind rest k = none := by
        apply mapFind_none_of_not_mem
        intro info hmem
        exact hU.1 (List.mem_map_of_mem Prod.fst hmem)
      have h0 := mapCount_eq_zero_of_mapFind_none rest k hnone
      simp only [mapCount] at h0 ⊢
      simp [h0]
    · have := ih hU.2
      simp only [mapCount] at this ⊢
      simpa [hk] using this

theorem mapCount_mapAssign_ne (m : PaintDCInfos) (win w : Window) (info : wxPaintDCInfo)
    (h : w ≠ win) : mapCount (mapAssign m win info) w = mapCount m w := by
  induction m with
  | nil => simp [mapAssign, mapCount, Ne.symm h]
  | cons e rest ih =>
    obtain ⟨k, v⟩ := e
    simp only [mapCount] at ih ⊢
    by_cases hk : k = win
    · have hkw : k ≠ w := by rw [hk]; exact fun e => h e.symm
      simp [mapAssign, hk, hkw, Ne.symm h]
    · by_cases hkw : k = w
      · subst hkw
        simp [mapAssign, hk, ih]
      · simp [mapAssign, hk, hkw, ih]

theorem mapCount_mapErase_ne (m : PaintDCInfos) (win w : Window)
    (h : w ≠ win) : mapCount (mapErase m win) w = mapCount m w := by
  unfold mapCount mapErase
  rw [List.filter_filter]
  congr 1
  apply List.filter_congr
  intro x _
  by_cases hxw : x.1 = w
  · simp [hxw, h]
  · simp [hxw]

/-- The map after a constructor for `W`: unchanged, or assigned at `W`. -/
theorem wxPaintDCImpl_ctor_map (env : Env) (ret : HDC) (W : Window) (s : State) :
    (wxPaintDCImpl_ctor env ret W s).state.gs_PaintDCInfos = s.gs_PaintDCInfos ∨
    ∃ info, (wxPaintDCImpl_ctor env ret W s).state.gs_PaintDCInfos =
      mapAssign s.gs_PaintDCInfos W info := by
  by_cases hW : W = 0
  · rw [(wxPaintDCImpl_ctor_fail env ret W s (Or.inl hW)).1]; exact Or.inl rfl
  cases hs : s.paintStack with
  | nil =>
    rw [(wxPaintDCImpl_ctor_fail env ret W s (Or.inr (Or.inl hs))).1]; exact Or.inl rfl
  | cons top below =>
    by_cases ht : top.window = W
    · obtain ⟨-, -, -, hc⟩ := wxPaintDCImpl_ctor_pass_effect env ret W s top below hW hs ht
      rcases hc with ⟨-, hm, -⟩ | ⟨-, hm, -⟩
      · exact Or.inl hm
      · exact Or.inr ⟨_, hm⟩
    · rw [(wxPaintDCImpl_ctor_fail env ret W s (Or.inr (Or.inr ⟨top, below, hs, ht⟩))).1]
      exact Or.inl rfl

/-- The map after `EndPaint(W)`: the entry of `W` is erased. -/
theorem EndPaint_map (W : Window) (s : State) :
    (EndPaint W s).gs_PaintDCInfos = mapErase s.gs_PaintDCInfos W := by
  unfold EndPaint
  cases hf : FindInCache s W with
  | none => exact (mapErase_of_mapFind_none _ _ hf).symm
  | some info => rfl

/-- The paint stack is not touched by `EndPaint`. -/
theorem EndPaint_paintStack (W : Window) (s : State) :
    (EndPaint W s).paintStack = s.paintStack := by
  unfold EndPaint
  cases hf : FindInCache s W with
  | none => rfl
  | some info => rfl

/-! ## Lookup, failure of the acquisition, independence of windows -/

/-- Claim C17.  `FindDCInCache(W)` is the handle of the record of `W` when
`FindInCache(W)` finds one, and the null handle otherwise; in terms of the
entries of the map (whose keys are pairwise distinct): the handle of the entry
stored under `W`, and the null handle when no entry is stored under `W`.  The
lookup is a function of the map alone: it has no state to return, and states
with the same map give the same answer whatever their paint stack and call
log. -/
theorem C17_FindDCInCache_pure_lookup (s : State) (W : Window) :
    (∀ info, FindInCache s W = some info → FindDCInCache s W = info.m_hdc) ∧
    (FindInCache s W = none → FindDCInCache s W = 0) ∧
    (UniqueKeys s.gs_PaintDCInfos →
      ∀ info, (W, info) ∈ s.gs_PaintDCInfos → FindDCInCache s W = info.m_hdc) ∧
    ((∀ info, (W, info) ∉ s.gs_PaintDCInfos) → FindDCInCache s W = 0) ∧
    (∀ s2 : State, s2.gs_PaintDCInfos = s.gs_PaintDCInfos →
      FindDCInCache s2 W = FindDCInCache s W) := by
  refine ⟨?_, ?_, ?_, ?_, ?_⟩
  · intro info h
    unfold FindDCInCache; rw [h]; rfl
  · intro h
    unfold FindDCInCache; rw [h]
  · intro hU info hmem
    have h : FindInCache s W = some info := mapFind_of_mem _ _ _ hU hmem
    unfold FindDCInCache; rw [h]; rfl
  · intro hno
    have h : FindInCache s W = none := mapFind_none_of_not_mem _ _ hno
    unfold FindDCInCache; rw [h]
  · intro s2 h
    unfold FindDCInCache FindInCache; rw [h]

/-- Claim C18.  When the non-null window `W` is on top of the paint stack and
has no record, and `BeginPaint` returns the null handle, the constructor
returns with all its checks passed and the handle of the context is null. -/
theorem C18_acquisition_failure_null_handle (env : Env) (W : Window) (s : State)
    (top : PaintData) (below : List PaintData)
    (hW : W ≠ 0) (hs : s.paintStack = top :: below) (ht : top.window = W)
    (hrec : FindInCache s W = none) :
    (wxPaintDCImpl_ctor env 0 W s).failed = none ∧
    (wxPaintDCImpl_ctor env 0 W s).dc.m_hDC = 0 ∧
    (wxPaintDCImpl_ctor env 0 W s).dc.m_window = W := by
  have h0 : FindDCInCache s W = 0 := by unfold FindDCInCache; rw [hrec]
  obtain ⟨hf, -, hw, hcase⟩ := wxPaintDCImpl_ctor_pass_effect env 0 W s top below hW hs ht
  rcases hcase with ⟨h0', -⟩ | ⟨-, -, -, hd, -⟩
  · exact absurd h0 h0'
  · exact ⟨hf, hd, hw⟩

/-- A concrete instance of C18: the first paint DC of window `1`, `BeginPaint`
failing. -/
theorem C18_acquisition_failure_null_handle_witness :
    (wxPaintDCImpl_ctor sampleEnv 0 1 (paintStack_push 1 emptyState)).failed = none ∧
    (wxPaintDCImpl_ctor sampleEnv 0 1 (paintStack_push 1 emptyState)).dc.m_hDC = 0 :=
  have h := C18_acquisition_failure_null_handle sampleEnv 1 (paintStack_push 1 emptyState)
    ⟨1, false⟩ [] (by decide) rfl rfl rfl
  ⟨h.1, h.2.1⟩

/-- Claim C19.  For distinct windows `W` and `W2`, neither a constructor for `W`
nor `EndPaint(W)` changes what the map stores for `W2`: the lookup of `W2` and
the number of entries under `W2` are the same before and after.  Both
operations keep the keys of the map pairwise distinct, so that the map never
holds more than one record for a window. -/
theorem C19_windows_independent (env : Env) (ret : HDC) (W W2 : Window) (s : State)
    (hne : W ≠ W2) :
    FindInCache (wxPaintDCImpl_ctor env ret W s).state W2 = FindInCache s W2 ∧
    mapCount (wxPaintDCImpl_ctor env ret W s).state.gs_PaintDCInfos W2 =
      mapCount s.gs_PaintDCInfos W2 ∧
    FindInCache (EndPaint W s) W2 = FindInCache s W2 ∧
    mapCount (EndPaint W s).gs_PaintDCInfos W2 = mapCount s.gs_PaintDCInfos W2 ∧
    (UniqueKeys s.gs_PaintDCInfos →
      UniqueKeys (wxPaintDCImpl_ctor env ret W s).state.gs_PaintDCInfos ∧
      UniqueKeys (EndPaint W s).gs_PaintDCInfos ∧
      ∀ w, mapCount s.gs_PaintDCInfos w ≤ 1 ∧
        mapCount (wxPaintDCImpl_ctor env ret W s).state.gs_PaintDCInfos w ≤ 1 ∧
        mapCount (EndPaint W s).gs_PaintDCInfos w ≤ 1) := by
  have hne' : W2 ≠ W := fun h => hne h.symm
  have hE := EndPaint_map W s
  have hctorU : UniqueKeys s.gs_PaintDCInfos →
      UniqueKeys (wxPaintDCImpl_ctor env ret W s).state.gs_PaintDCInfos := by
    intro hU
    rcases wxPaintDCImpl_ctor_map env ret W s with hm | ⟨info, hm⟩
    · rw [hm]; exact hU
    · rw [hm]; exact UniqueKeys_mapAssign _ _ _ hU
  have hEU : UniqueKeys s.gs_PaintDCInfos → UniqueKeys (EndPaint W s).gs_PaintDCInfos := by
    intro hU
    rw [hE]; exact UniqueKeys_mapErase _ _ hU
  refine ⟨?_, ?_, ?_, ?_, ?_⟩
  · unfold FindInCache
    rcases wxPaintDCImpl_ctor_map env ret W s with hm | ⟨info, hm⟩
    · rw [hm]
    · rw [hm]; exact mapFind_mapAssign_ne _ _ _ _ hne'
  · rcases wxPaintDCImpl_ctor_map env ret W s with hm | ⟨info, hm⟩
    · rw [hm]
    · rw [hm]; exact mapCount_mapAssign_ne _ _ _ _ hne'
  · unfold FindInCache
    rw [hE]; exact mapFind_mapErase_ne _ _ _ hne'
  · rw [hE]; exact mapCount_mapErase_ne _ _ _ hne'
  · intro hU
    exact ⟨hctorU hU, hEU hU, fun w =>
      ⟨mapCount_le_one _ w hU, mapCount_le_one _ w (hctorU hU), mapCount_le_one _ w (hEU hU)⟩⟩

/-- A concrete instance of C19: window `1` has a record and window `2`, nested
inside, is repainting; a paint DC for `2` and `EndPaint(2)` leave the record of
window `1` alone. -/
theorem C19_windows_independent_witness :
    FindInCache (wxPaintDCImpl_ctor sampleEnv 9 2
      { gs_PaintDCInfos := [(1, ⟨7, 101, 1⟩)], paintStack := [⟨2, false⟩, ⟨1, true⟩],
        calls := [Call.BeginPaint 101 1 7], heapNext := 2 }).state 1 =
      some ⟨7, 101, 1⟩ ∧
    FindInCache (EndPaint 2
      { gs_PaintDCInfos := [(1, ⟨7, 101, 1⟩)], paintStack := [⟨2, false⟩, ⟨1, true⟩],
        calls := [Call.BeginPaint 101 1 7], heapNext := 2 }) 1 =
      some ⟨7, 101, 1⟩ :=
  have h := C19_windows_independent sampleEnv 9 2 1
    { gs_PaintDCInfos := [(1, ⟨7, 101, 1⟩)], paintStack := [⟨2, false⟩, ⟨1, true⟩],
      calls := [Call.BeginPaint 101 1 7], heapNext := 2 } (by decide)
  ⟨h.1, h.2.2.1⟩

/-! ## The window and client layers -/

/-- Claim C20.  For every state (map and paint stack arbitrary, the stack
possibly empty) and non-null window `W`, the constructors of `wxWindowDCImpl` and
`wxClientDCImpl` pass their check, leave the map and the paint stack unchanged
and issue no `BeginPaint`; the first call each issues is `GetWindowDC`,
respectively `GetDC`, on the native window of `W`, and the value it returns is
the handle of the context. -/
theorem C20_window_client_outside_map (env : Env) (ret : HDC) (W : Window) (s : State)
    (hW : W ≠ 0) :
    ((wxWindowDCImpl_ctor env ret W s).failed = none ∧
     (wxWindowDCImpl_ctor env ret W s).state.gs_PaintDCInfos = s.gs_PaintDCInfos ∧
     (wxWindowDCImpl_ctor env ret W s).state.paintStack = s.paintStack ∧
     (wxWindowDCImpl_ctor env ret W s).dc.m_hDC = ret ∧
     (∃ extra, (wxWindowDCImpl_ctor env ret W s).state.calls =
        s.calls ++ Call.GetWindowDC (env.GetHwndOf W) ret :: extra ∧
        ∀ x ∈ extra, x.isBeginPaint = false) ∧
     countBeginPaint (wxWindowDCImpl_ctor env ret W s).state.calls =
        countBeginPaint s.calls) ∧
    ((wxClientDCImpl_ctor env ret W s).failed = none ∧
     (wxClientDCImpl_ctor env ret W s).state.gs_PaintDCInfos = s.gs_PaintDCInfos ∧
     (wxClientDCImpl_ctor env ret W s).state.paintStack = s.paintStack ∧
     (wxClientDCImpl_ctor env ret W s).dc.m_hDC = ret ∧
     (∃ extra, (wxClientDCImpl_ctor env ret W s).state.calls =
        s.calls ++ Call.GetDC (env.GetHwndOf W) ret :: extra ∧
        ∀ x ∈ extra, x.isBeginPaint = false) ∧
     countBeginPaint (wxClientDCImpl_ctor env ret W s).state.calls =
        countBeginPaint s.calls) := by
  obtain ⟨w1, w2, w3, w4, w5⟩ := wxWindowDCImpl_ctor_effect env ret W s hW
  obtain ⟨c1, c2, c3, c4, -, extra, c5, c6, -⟩ := wxClientDCImpl_ctor_effect env ret W s hW
  have hwx : ∀ x ∈ Call.SetBkMode ret ::
      (if env.wxUSE_PALETTE then [Call.InitializePalette ret] else []),
      x.isBeginPaint = false := by
    split_ifs <;> simp [Call.isBeginPaint]
  refine ⟨⟨w1, w2, w3, w4, ⟨_, w5, hwx⟩, ?_⟩, ⟨c1, c2, c3, c4, ⟨extra, c5, fun x hx => (c6 x hx).1⟩, ?_⟩⟩
  · rw [w5, countBeginPaint_append]
    rw [show Call.GetWindowDC (env.GetHwndOf W) ret :: Call.SetBkMode ret ::
        (if env.wxUSE_PALETTE then [Call.InitializePalette ret] else []) =
      [Call.GetWindowDC (env.GetHwndOf W) ret] ++ (Call.SetBkMode ret ::
        (if env.wxUSE_PALETTE then [Call.InitializePalette ret] else [])) from rfl,
      countBeginPaint_append, countBeginPaint_eq_zero _ hwx]
    rfl
  · rw [c5, countBeginPaint_append]
    rw [show Call.GetDC (env.GetHwndOf W) ret :: extra =
      [Call.GetDC (env.GetHwndOf W) ret] ++ extra from rfl,
      countBeginPaint_append, countBeginPaint_eq_zero _ (fun x hx => (c6 x hx).1)]
    rfl

/-- A concrete instance of C20: contexts for window `2` outside any paint
notification. -/
theorem C20_window_client_outside_map_witness :
    (wxWindowDCImpl_ctor sampleEnv 8 2 emptyState).dc.m_hDC = 8 ∧
    (wxClientDCImpl_ctor sampleEnv 9 2 emptyState).dc.m_hDC = 9 ∧
    (wxClientDCImpl_ctor sampleEnv 9 2 emptyState).state.gs_PaintDCInfos = [] :=
  ⟨(C20_window_client_outside_map sampleEnv 8 2 emptyState (by decide)).1.2.2.2.1,
   (C20_window_client_outside_map sampleEnv 9 2 emptyState (by decide)).2.2.2.2.1,
   (C20_window_client_outside_map sampleEnv 9 2 emptyState (by decide)).2.2.1⟩

/-! ## Runs: lifetime of the records -/

theorem mapFind_isSome_of_mem (m : PaintDCInfos) (w : Window) (info : wxPaintDCInfo)
    (h : (w, info) ∈ m) : (mapFind m w).isSome = true := by
  cases hf : mapFind m w with
  | some i => rfl
  | none => exact absurd rfl (key_ne_of_mapFind_none m w hf (w, info) h)

/-- A constructor changes no window of the paint stack. -/
theorem wxPaintDCImpl_ctor_stack_windows (env : Env) (ret : HDC) (W : Window) (s : State) :
    (wxPaintDCImpl_ctor env ret W s).state.paintStack.map PaintData.window =
      s.paintStack.map PaintData.window := by
  by_cases hW : W = 0
  · rw [(wxPaintDCImpl_ctor_fail env ret W s (Or.inl hW)).1]
  cases hs : s.paintStack with
  | nil =>
    rw [(wxPaintDCImpl_ctor_fail env ret W s (Or.inr (Or.inl hs))).1, hs]
  | cons top below =>
    by_cases ht : top.window = W
    · rw [(wxPaintDCImpl_ctor_pass_effect env ret W s top below hW hs ht).2.1]
      rfl
    · rw [(wxPaintDCImpl_ctor_fail env ret W s (Or.inr (Or.inr ⟨top, below, hs, ht⟩))).1, hs]

/-- A constructor stores a record only under the window on top of the paint
stack. -/
theorem wxPaintDCImpl_ctor_new_record_on_top (env : Env) (ret : HDC) (W w : Window)
    (s : State) (hnew : (FindInCache (wxPaintDCImpl_ctor env ret W s).state w).isSome = true)
    (hold : (FindInCache s w).isSome = false) :
    ∃ top below, s.paintStack = top :: below ∧ top.window = w := by
  have hchg : (wxPaintDCImpl_ctor env ret W s).state.gs_PaintDCInfos ≠ s.gs_PaintDCInfos := by
    intro h
    unfold FindInCache at hnew hold
    rw [h, hold] at hnew
    cases hnew
  by_cases hW : W = 0
  · exact absurd (by rw [(wxPaintDCImpl_ctor_fail env ret W s (Or.inl hW)).1]) hchg
  cases hs : s.paintStack with
  | nil =>
    exact absurd (by rw [(wxPaintDCImpl_ctor_fail env ret W s (Or.inr (Or.inl hs))).1]) hchg
  | cons top below =>
    by_cases ht : top.window = W
    · refine ⟨top, below, rfl, ?_⟩
      rcases (wxPaintDCImpl_ctor_pass_effect env ret W s top below hW hs ht).2.2.2 with
        ⟨-, hm, -⟩ | ⟨-, hm, -⟩
      · exact absurd hm hchg
      · by_cases hw : w = W
        · rw [ht, hw]
        · unfold FindInCache at hnew hold
          rw [hm, mapFind_mapAssign_ne _ _ _ _ hw, hold] at hnew
          cases hnew
    · exact absurd
        (by rw [(wxPaintDCImpl_ctor_fail env ret W s
          (Or.inr (Or.inr ⟨top, below, hs, ht⟩))).1]) hchg

/-- Each step of a run keeps the windows with a record on the paint stack. -/
theorem RecordsOnStack_step (env : Env) (s : State) (st : Step)
    (hinv : RecordsOnStack s) : RecordsOnStack (step env s st) := by
  cases st with
  | enter w0 =>
    intro w hw
    obtain ⟨e, he, hew⟩ := hinv w hw
    exact ⟨e, List.mem_cons_of_mem _ he, hew⟩
  | construct W ret =>
    intro w hw
    show ∃ e ∈ (wxPaintDCImpl_ctor env ret W s).state.paintStack, e.window = w
    have hwin := wxPaintDCImpl_ctor_stack_windows env ret W s
    have hmem : w ∈ s.paintStack.map PaintData.window := by
      cases hold : (FindInCache s w).isSome with
      | true =>
        obtain ⟨e, he, hew⟩ := hinv w hold
        exact List.mem_map.2 ⟨e, he, hew⟩
      | false =>
        obtain ⟨top, below, hs, ht⟩ :=
          wxPaintDCImpl_ctor_new_record_on_top env ret W w s hw hold
        rw [hs]
        exact List.mem_map.2 ⟨top, List.mem_cons_self _ _, ht⟩
    rw [← hwin] at hmem
    obtain ⟨e, he, hew⟩ := List.mem_map.1 hmem
    exact ⟨e, he, hew⟩
  | destroy dc =>
    intro w hw
    have hd := wxPaintDCImpl_destroy_eq env s dc
    obtain ⟨h1, h2, -⟩ := wxPaintDCImpl_dtor_effect s dc
    show ∃ e ∈ (wxPaintDCImpl_destroy env s dc).paintStack, e.window = w
    have hw' : (FindInCache (wxPaintDCImpl_destroy env s dc) w).isSome = true := hw
    rw [hd] at hw' ⊢
    unfold FindInCache at hw'
    rw [h1] at hw'
    rw [h2]
    exact hinv w hw'
  | leave =>
    cases hs : s.paintStack with
    | nil =>
      have : step env s Step.leave = s := by simp [step, hs]
      rw [this]; exact hinv
    | cons top rest =>
      have hst : step env s Step.leave = paintStack_pop (EndPaint top.window s) := by
        simp [step, hs]
      rw [hst]
      intro w hw
      have hw' : (mapFind (EndPaint top.window s).gs_PaintDCInfos w).isSome = true := hw
      rw [EndPaint_map] at hw'
      have hne : w ≠ top.window := by
        intro h
        rw [h, mapFind_mapErase_self] at hw'
        cases hw'
      rw [mapFind_mapErase_ne _ _ _ hne] at hw'
      obtain ⟨e, he, hew⟩ := hinv w hw'
      rw [hs] at he
      rcases List.mem_cons.1 he with rfl | he
      · exact absurd hew.symm hne
      · refine ⟨e, ?_, hew⟩
        show e ∈ (EndPaint top.window s).paintStack.tail
        rw [EndPaint_paintStack, hs]
        exact he

/-- A whole run keeps the windows with a record on the paint stack. -/
theorem RecordsOnStack_run (env : Env) (steps : List Step) :
    ∀ s : State, RecordsOnStack s → RecordsOnStack (run env steps s) := by
  induction steps with
  | nil => intro s h; exact h
  | cons st rest ih =>
    intro s h
    exact ih (step env s st) (RecordsOnStack_step env s st h)

/-- With the windows of all records on the paint stack, an empty paint stack
means an empty map. -/
theorem map_empty_of_stack_empty (s : State) (hinv : RecordsOnStack s)
    (hs : s.paintStack = []) : s.gs_PaintDCInfos = [] := by
  cases hm : s.gs_PaintDCInfos with
  | nil => rfl
  | cons e rest =>
    obtain ⟨k, v⟩ := e
    have hsome : (FindInCache s k).isSome = true := by
      unfold FindInCache
      rw [hm]
      simp [mapFind]
    obtain ⟨e, he, -⟩ := hinv k hsome
    rw [hs] at he
    cases he

/-- Claim C12.  Start with an empty map (and an empty paint stack, or any other
one) and run any sequence of steps that obeys the boundary contract of paint notifications
(enter: push `W`; constructors and destructions of paint DCs for any window;
leave: `EndPaint` for the window on top, then pop; notifications may nest).  In
the state reached, every window with an entry in the map is the window of an
entry of the paint stack, and if the paint stack is empty, so is the map.  As
every prefix of a run is a run, this holds after each step. -/
theorem C12_registry_lifetime (env : Env) (steps : List Step) (s0 : State)
    (hmap : s0.gs_PaintDCInfos = []) :
    (∀ w info, (w, info) ∈ (run env steps s0).gs_PaintDCInfos →
      ∃ e ∈ (run env steps s0).paintStack, e.window = w) ∧
    ((run env steps s0).paintStack = [] → (run env steps s0).gs_PaintDCInfos = []) := by
  have h0 : RecordsOnStack s0 := by
    intro w hw
    unfold FindInCache at hw
    rw [hmap] at hw
    cases hw
  have hinv := RecordsOnStack_run env steps s0 h0
  exact ⟨fun w info hmem => hinv w (mapFind_isSome_of_mem _ w info hmem),
    map_empty_of_stack_empty _ hinv⟩

/-- A concrete instance of C12: window `1` is repainted and window `2` is
repainted inside that notification, each with two paint DCs; at the end the
paint stack and the map are empty. -/
theorem C12_registry_lifetime_witness :
    (run sampleEnv
      [Step.enter 1, Step.construct 1 7, Step.enter 2, Step.construct 2 8,
       Step.construct 2 9, Step.leave, Step.construct 1 5, Step.leave]
      emptyState).paintStack = [] ∧
    (run sampleEnv
      [Step.enter 1, Step.construct 1 7, Step.enter 2, Step.construct 2 8,
       Step.construct 2 9, Step.leave, Step.construct 1 5, Step.leave]
      emptyState).gs_PaintDCInfos = [] :=
  have hs : (run sampleEnv
      [Step.enter 1, Step.construct 1 7, Step.enter 2, Step.construct 2 8,
       Step.construct 2 9, Step.leave, Step.construct 1 5, Step.leave]
      emptyState).paintStack = [] := by decide
  ⟨hs, (C12_registry_lifetime sampleEnv _ emptyState rfl).2 hs⟩

/-- Claim C13 at a failing input: window `1` is repainted, the paint handler
constructs two paint DCs and `BeginPaint` returns the null handle both times,
then the notification ends.  The run ends with an empty paint stack and an
empty map, but two `BeginPaint` calls and one `EndPaint` call were issued. -/
theorem C13_null_handle_unbalanced :
    (run sampleEnv [Step.enter 1, Step.construct 1 0, Step.construct 1 0, Step.leave]
      emptyState).paintStack = [] ∧
    (run sampleEnv [Step.enter 1, Step.construct 1 0, Step.construct 1 0, Step.leave]
      emptyState).gs_PaintDCInfos = [] ∧
    (run sampleEnv [Step.enter 1, Step.construct 1 0, Step.construct 1 0, Step.leave]
      emptyState).calls =
      [Call.BeginPaint 101 1 0, Call.BeginPaint 101 2 0, Call.EndPaint 101 2] ∧
    countBeginPaint (run sampleEnv
      [Step.enter 1, Step.construct 1 0, Step.construct 1 0, Step.leave]
      emptyState).calls = 2 ∧
    countEndPaint (run sampleEnv
      [Step.enter 1, Step.construct 1 0, Step.construct 1 0, Step.leave]
      emptyState).calls = 1 := by
  decide

/-! ## Runs: balance of `BeginPaint` and `EndPaint`

The balance holds in the runs in which `BeginPaint` never returns the null
handle; that every `EndPaint` follows a `BeginPaint` on the same window and
paint structure holds in all runs. -/

theorem mapAssign_length_of_none (m : PaintDCInfos) (w : Window) (info : wxPaintDCInfo)
    (h : mapFind m w = none) : (mapAssign m w info).length = m.length + 1 := by
  induction m with
  | nil => rfl
  | cons e rest ih =>
    obtain ⟨k, v⟩ := e
    by_cases hk : k = w
    · simp [mapFind, hk] at h
    · simp only [mapFind, hk, if_false] at h
      simp [mapAssign, hk, ih h]

theorem mapAssign_mem (m : PaintDCInfos) (w : Window) (info : wxPaintDCInfo) :
    ∀ e ∈ mapAssign m w info, e = (w, info) ∨ e ∈ m := by
  induction m with
  | nil =>
    intro e he
    simp only [mapAssign, List.mem_singleton] at he
    exact Or.inl he
  | cons e0 rest ih =>
    obtain ⟨k, v⟩ := e0
    intro e he
    by_cases hk : k = w
    · simp only [mapAssign, hk, if_true, List.mem_cons] at he ⊢
      rcases he with he | he
      · exact Or.inl he
      · exact Or.inr (Or.inr he)
    · simp only [mapAssign, hk, if_false, List.mem_cons] at he ⊢
      rcases he with he | he
      · exact Or.inr (Or.inl he)
      · rcases ih e he with h | h
        · exact Or.inl h
        · exact Or.inr (Or.inr h)

theorem mapErase_length (m : PaintDCInfos) (w : Window) :
    (mapErase m w).length + mapCount m w = m.length := by
  induction m with
  | nil => rfl
  | cons e rest ih =>
    obtain ⟨k, v⟩ := e
    simp only [mapErase, mapCount] at ih ⊢
    by_cases hk : k = w
    · simp [hk] at ih ⊢
      omega
    · simp [hk] at ih ⊢
      omega

theorem mapCount_eq_one_of_mapFind (m : PaintDCInfos) (w : Window) (info : wxPaintDCInfo)
    (hU : UniqueKeys m) (h : mapFind m w = some info) : mapCount m w = 1 := by
  have hle := mapCount_le_one m w hU
  have hpos : mapCount m w ≠ 0 := by
    intro h0
    have hmem := mem_of_mapFind m w info h
    unfold mapCount at h0
    rw [List.length_eq_zero, List.filter_eq_nil_iff] at h0
    have := h0 (w, info) hmem
    simp at this
  omega

/-- A constructor appends to the log, and no `EndPaint`. -/
theorem wxPaintDCImpl_ctor_calls (env : Env) (ret : HDC) (W : Window) (s : State) :
    ∃ extra, (wxPaintDCImpl_ctor env ret W s).state.calls = s.calls ++ extra ∧
      ∀ x ∈ extra, x.isEndPaint = false := by
  by_cases hW : W = 0
  · rw [(wxPaintDCImpl_ctor_fail env ret W s (Or.inl hW)).1]; exact ⟨[], by simp, by simp⟩
  cases hs : s.paintStack with
  | nil =>
    rw [(wxPaintDCImpl_ctor_fail env ret W s (Or.inr (Or.inl hs))).1]
    exact ⟨[], by simp, by simp⟩
  | cons top below =>
    by_cases ht : top.window = W
    · rcases (wxPaintDCImpl_ctor_pass_effect env ret W s top below hW hs ht).2.2.2 with
        ⟨-, -, -, -, extra, hc, hx⟩ | ⟨-, -, -, -, extra, hc, hx⟩
      · exact ⟨extra, hc, fun x hx' => (hx x hx').2⟩
      · refine ⟨_, hc, ?_⟩
        intro x hx'
        rcases List.mem_cons.1 hx' with rfl | hx'
        · rfl
        · exact (hx x hx').2
    · rw [(wxPaintDCImpl_ctor_fail env ret W s (Or.inr (Or.inr ⟨top, below, hs, ht⟩))).1]
      exact ⟨[], by simp, by simp⟩

/-- A constructor whose `BeginPaint` would return a non-null handle keeps the
balance. -/
theorem Balanced_ctor (env : Env) (ret : HDC) (W : Window) (s : State)
    (hret : ret ≠ 0) (h : Balanced s) : Balanced (wxPaintDCImpl_ctor env ret W s).state := by
  obtain ⟨hU, hN, hB⟩ := h
  by_cases hW : W = 0
  · rw [(wxPaintDCImpl_ctor_fail env ret W s (Or.inl hW)).1]; exact ⟨hU, hN, hB⟩
  cases hs : s.paintStack with
  | nil =>
    rw [(wxPaintDCImpl_ctor_fail env ret W s (Or.inr (Or.inl hs))).1]; exact ⟨hU, hN, hB⟩
  | cons top below =>
    by_cases ht : top.window = W
    · rcases (wxPaintDCImpl_ctor_pass_effect env ret W s top below hW hs ht).2.2.2 with
        ⟨-, hm, -, -, extra, hc, hx⟩ | ⟨h0, hm, -, -, extra, hc, hx⟩
      · refine ⟨by rw [hm]; exact hU, ?_, ?_⟩
        · intro e he
          rw [hm] at he
          exact hN e he
        · rw [hm, hc, countBeginPaint_append, countEndPaint_append,
            countBeginPaint_eq_zero extra (fun x hx' => (hx x hx').1),
            countEndPaint_eq_zero extra (fun x hx' => (hx x hx').2)]
          exact hB
      · have hnone : mapFind s.gs_PaintDCInfos W = none := by
          cases hf : mapFind s.gs_PaintDCInfos W with
          | none => rfl
          | some info =>
            have hmem := mem_of_mapFind _ _ _ hf
            have hnn := hN (W, info) hmem
            unfold FindDCInCache FindInCache at h0
            rw [hf] at h0
            exact absurd h0 hnn
        refine ⟨by rw [hm]; exact UniqueKeys_mapAssign _ _ _ hU, ?_, ?_⟩
        · intro e he
          rw [hm] at he
          rcases mapAssign_mem _ _ _ e he with rfl | he
          · exact hret
          · exact hN e he
        · rw [hm, hc, mapAssign_length_of_none _ _ _ hnone, countBeginPaint_append,
            countEndPaint_append]
          rw [show Call.BeginPaint (env.GetHwndOf W) s.heapNext ret :: extra =
            [Call.BeginPaint (env.GetHwndOf W) s.heapNext ret] ++ extra from rfl,
            countBeginPaint_append, countEndPaint_append,
            countBeginPaint_eq_zero extra (fun x hx' => (hx x hx').1),
            countEndPaint_eq_zero extra (fun x hx' => (hx x hx').2)]
          have b1 : countBeginPaint [Call.BeginPaint (env.GetHwndOf W) s.heapNext ret] = 1 :=
            rfl
          have e1 : countEndPaint [Call.BeginPaint (env.GetHwndOf W) s.heapNext ret] = 0 :=
            rfl
          rw [b1, e1]
          omega
    · rw [(wxPaintDCImpl_ctor_fail env ret W s (Or.inr (Or.inr ⟨top, below, hs, ht⟩))).1]
      exact ⟨hU, hN, hB⟩

/-- The static method `EndPaint` keeps the balance. -/
theorem Balanced_EndPaint (W : Window) (s : State) (h : Balanced s) :
    Balanced (EndPaint W s) := by
  obtain ⟨hU, hN, hB⟩ := h
  cases hf : FindInCache s W with
  | none =>
    have : EndPaint W s = s := by unfold EndPaint; rw [hf]
    rw [this]; exact ⟨hU, hN, hB⟩
  | some info =>
    have hE : EndPaint W s = wxPaintDCInfo_delete info
        { s with gs_PaintDCInfos := mapErase s.gs_PaintDCInfos W } := by
      unfold EndPaint; rw [hf]
    have hlen := mapErase_length s.gs_PaintDCInfos W
    rw [mapCount_eq_one_of_mapFind _ _ info hU hf] at hlen
    rw [hE]
    refine ⟨UniqueKeys_mapErase _ _ hU, ?_, ?_⟩
    · intro e he
      exact hN e (List.mem_of_mem_filter he)
    · show countBeginPaint (s.calls ++ [Call.EndPaint info.m_hwnd info.m_ps]) =
        countEndPaint (s.calls ++ [Call.EndPaint info.m_hwnd info.m_ps]) +
          (mapErase s.gs_PaintDCInfos W).length
      rw [countBeginPaint_append, countEndPaint_append]
      have b1 : countBeginPaint [Call.EndPaint info.m_hwnd info.m_ps] = 0 := rfl
      have e1 : countEndPaint [Call.EndPaint info.m_hwnd info.m_ps] = 1 := rfl
      rw [b1, e1]
      omega

/-- Each step of a run in which `BeginPaint` succeeds keeps the balance. -/
theorem Balanced_step (env : Env) (s : State) (st : Step)
    (hok : st.beginPaintSucceeds = true) (h : Balanced s) : Balanced (step env s st) := by
  cases st with
  | enter w0 => exact h
  | construct W ret =>
    have hret : ret ≠ 0 := by simpa [Step.beginPaintSucceeds] using hok
    exact Balanced_ctor env ret W s hret h
  | destroy dc =>
    show Balanced (wxPaintDCImpl_destroy env s dc)
    rw [wxPaintDCImpl_destroy_eq]
    obtain ⟨h1, -, -, -, extra, h5, h6⟩ := wxPaintDCImpl_dtor_effect s dc
    obtain ⟨hU, hN, hB⟩ := h
    refine ⟨by rw [h1]; exact hU, ?_, ?_⟩
    · intro e he
      rw [h1] at he
      exact hN e he
    · rw [h1, h5, countBeginPaint_append, countEndPaint_append,
        countBeginPaint_eq_zero extra (fun x hx => (h6 x hx).2.1),
        countEndPaint_eq_zero extra (fun x hx => (h6 x hx).2.2)]
      exact hB
  | leave =>
    cases hs : s.paintStack with
    | nil =>
      have : step env s Step.leave = s := by simp [step, hs]
      rw [this]; exact h
    | cons top rest =>
      have hst : step env s Step.leave = paintStack_pop (EndPaint top.window s) := by
        simp [step, hs]
      rw [hst]
      exact Balanced_EndPaint top.window s h

/-- A run in which `BeginPaint` always succeeds keeps the balance. -/
theorem Balanced_run (env : Env) (steps : List Step)
    (hok : ∀ st ∈ steps, st.beginPaintSucceeds = true) :
    ∀ s : State, Balanced s → Balanced (run env steps s) := by
  induction steps with
  | nil => intro s h; exact h
  | cons st rest ih =>
    intro s h
    exact ih (fun x hx => hok x (List.mem_cons_of_mem _ hx)) (step env s st)
      (Balanced_step env s st (hok st (List.mem_cons_self _ _)) h)

/-- The balance the comment on `gs_PaintDCInfos` aims at, which holds when
`BeginPaint` never returns the null handle: a run that obeys the boundary
contract, starts with an empty map and as many `BeginPaint` as `EndPaint` calls
in the log, and ends with an empty paint stack has issued as many `BeginPaint`
as `EndPaint` calls. -/
theorem run_balanced_of_BeginPaint_succeeds (env : Env) (steps : List Step) (s0 : State)
    (hmap : s0.gs_PaintDCInfos = [])
    (hcalls : countBeginPaint s0.calls = countEndPaint s0.calls)
    (hok : ∀ st ∈ steps, st.beginPaintSucceeds = true)
    (hend : (run env steps s0).paintStack = []) :
    countBeginPaint (run env steps s0).calls = countEndPaint (run env steps s0).calls := by
  have hB0 : Balanced s0 := by
    refine ⟨?_, ?_, ?_⟩
    · rw [hmap]; exact List.nodup_nil
    · intro e he
      rw [hmap] at he
      cases he
    · rw [hmap, hcalls]; rfl
  have hR0 : RecordsOnStack s0 := by
    intro w hw
    unfold FindInCache at hw
    rw [hmap] at hw
    cases hw
  obtain ⟨-, -, hB⟩ := Balanced_run env steps hok s0 hB0
  have hempty := map_empty_of_stack_empty _ (RecordsOnStack_run env steps s0 hR0) hend
  rw [hempty] at hB
  exact hB

theorem EndPaintFollowsBeginPaint_append (l extra : List Call)
    (h : EndPaintFollowsBeginPaint l) (hx : ∀ x ∈ extra, x.isEndPaint = false) :
    EndPaintFollowsBeginPaint (l ++ extra) := by
  intro pre post hwnd ps heq
  rcases List.append_eq_append_iff.1 heq with ⟨a, hpre, hextra⟩ | ⟨c, hl, hc⟩
  · have hmem : Call.EndPaint hwnd ps ∈ extra := by
      rw [hextra]; simp
    have := hx _ hmem
    cases this
  · cases c with
    | nil =>
      have hmem : Call.EndPaint hwnd ps ∈ extra := by
        rw [List.nil_append] at hc
        rw [← hc]; simp
      have := hx _ hmem
      cases this
    | cons c0 crest =>
      rw [List.cons_append] at hc
      injection hc with hc0 hcr
      subst hc0
      exact h pre crest hwnd ps hl

theorem EndPaintFollowsBeginPaint_EndPaint (l : List Call) (hwnd : HWND) (ps : Addr)
    (ret : HDC) (h : EndPaintFollowsBeginPaint l) (hb : Call.BeginPaint hwnd ps ret ∈ l) :
    EndPaintFollowsBeginPaint (l ++ [Call.EndPaint hwnd ps]) := by
  intro pre post hwnd2 ps2 heq
  rcases List.append_eq_append_iff.1 heq with ⟨a, hpre, hextra⟩ | ⟨c, hl, hc⟩
  · cases a with
    | nil =>
      rw [List.nil_append] at hextra
      injection hextra with h1 h2
      injection h1 with h3 h4
      subst h3; subst h4
      rw [hpre, List.append_nil]
      exact ⟨ret, hb⟩
    | cons a0 arest =>
      rw [List.cons_append] at hextra
      injection hextra with h1 h2
      have : ([] : List Call) = arest ++ Call.EndPaint hwnd2 ps2 :: post := h2
      simp at this
  · cases c with
    | nil =>
      rw [List.nil_append] at hc
      injection hc with h1 h2
      injection h1 with h3 h4
      subst h3; subst h4
      rw [List.append_nil] at hl
      rw [← hl]
      exact ⟨ret, hb⟩
    | cons c0 crest =>
      rw [List.cons_append] at hc
      injection hc with hc0 hcr
      subst hc0
      exact h pre crest hwnd2 ps2 hl

/-- Each step of a run keeps the records tied to a logged `BeginPaint` and
every `EndPaint` of the log after a `BeginPaint` on the same window and paint
structure. -/
theorem EndPaintFollowsBeginPaint_step (env : Env) (s : State) (st : Step)
    (hR : RecordsFromBeginPaint s) (hF : EndPaintFollowsBeginPaint s.calls) :
    RecordsFromBeginPaint (step env s st) ∧
    EndPaintFollowsBeginPaint (step env s st).calls := by
  cases st with
  | enter w0 => exact ⟨hR, hF⟩
  | construct W ret =>
    refine ⟨RecordsFromBeginPaint_ctor env ret W s hR, ?_⟩
    obtain ⟨extra, hc, hx⟩ := wxPaintDCImpl_ctor_calls env ret W s
    show EndPaintFollowsBeginPaint (wxPaintDCImpl_ctor env ret W s).state.calls
    rw [hc]
    exact EndPaintFollowsBeginPaint_append _ _ hF hx
  | destroy dc =>
    show RecordsFromBeginPaint (wxPaintDCImpl_destroy env s dc) ∧
      EndPaintFollowsBeginPaint (wxPaintDCImpl_destroy env s dc).calls
    rw [wxPaintDCImpl_destroy_eq]
    obtain ⟨h1, -, -, -, extra, h5, h6⟩ := wxPaintDCImpl_dtor_effect s dc
    refine ⟨?_, ?_⟩
    · intro w info hf
      unfold FindInCache at hf
      rw [h1] at hf
      rw [h5]
      exact List.mem_append_left _ (hR w info hf)
    · rw [h5]
      exact EndPaintFollowsBeginPaint_append _ _ hF (fun x hx => (h6 x hx).2.2)
  | leave =>
    cases hs : s.paintStack with
    | nil =>
      have : step env s Step.leave = s := by simp [step, hs]
      rw [this]; exact ⟨hR, hF⟩
    | cons top rest =>
      have hst : step env s Step.leave = paintStack_pop (EndPaint top.window s) := by
        simp [step, hs]
      rw [hst]
      refine ⟨RecordsFromBeginPaint_pop _ (RecordsFromBeginPaint_EndPaint top.window s hR), ?_⟩
      show EndPaintFollowsBeginPaint (EndPaint top.window s).calls
      cases hf : FindInCache s top.window with
      | none =>
        have : EndPaint top.window s = s := by unfold EndPaint; rw [hf]
        rw [this]; exact hF
      | some info =>
        have hE : EndPaint top.window s = wxPaintDCInfo_delete info
            { s with gs_PaintDCInfos := mapErase s.gs_PaintDCInfos top.window } := by
          unfold EndPaint; rw [hf]
        rw [hE]
        exact EndPaintFollowsBeginPaint_EndPaint s.calls info.m_hwnd info.m_ps info.m_hdc hF
          (hR top.window info hf)

/-- In every run from an empty map and an empty log, whatever `BeginPaint`
returns, every `EndPaint` of the log comes after a `BeginPaint` on the same
native window and paint structure. -/
theorem run_EndPaintFollowsBeginPaint (env : Env) (steps : List Step) :
    ∀ s : State, RecordsFromBeginPaint s → EndPaintFollowsBeginPaint s.calls →
      RecordsFromBeginPaint (run env steps s) ∧
      EndPaintFollowsBeginPaint (run env steps s).calls := by
  induction steps with
  | nil => intro s hR hF; exact ⟨hR, hF⟩
  | cons st rest ih =>
    intro s hR hF
    obtain ⟨hR', hF'⟩ := EndPaintFollowsBeginPaint_step env s st hR hF
    exact ih (step env s st) hR' hF'

/-! ## A paint DC on a supplied handle -/

/-- Claim C21.  For every non-null handle `dc`, every window and every state,
the `wxPaintDCExImpl` constructor passes its check, gives the context the handle
`dc`, and leaves the whole state unchanged (so it issues no `BeginPaint` and does
not touch the map).  Destroying the context leaves every state unchanged as
well, so `dc` is not released: the body of the destructor resets `m_hDC` to
null, and the base-class destructor, which would otherwise release `dc`, then
does nothing. -/
theorem C21_supplied_handle (env : Env) (W : Window) (dc : HDC) (s : State)
    (hdc : dc ≠ 0) :
    (wxPaintDCExImpl_ctor W dc s).failed = none ∧
    (wxPaintDCExImpl_ctor W dc s).dc.m_hDC = dc ∧
    (wxPaintDCExImpl_ctor W dc s).state = s ∧
    countBeginPaint (wxPaintDCExImpl_ctor W dc s).state.calls = countBeginPaint s.calls ∧
    (wxPaintDCExImpl_ctor W dc s).state.gs_PaintDCInfos = s.gs_PaintDCInfos ∧
    (∀ s1 : State,
      wxPaintDCExImpl_destroy env s1 (wxPaintDCExImpl_ctor W dc s).dc = s1 ∧
      issued s1 (wxPaintDCExImpl_destroy env s1 (wxPaintDCExImpl_ctor W dc s).dc) = [] ∧
      (wxPaintDCExImpl_dtor s1 (wxPaintDCExImpl_ctor W dc s).dc).2.m_hDC = 0 ∧
      wxMSWDCImpl_dtor env s1 (wxPaintDCExImpl_dtor s1 (wxPaintDCExImpl_ctor W dc s).dc).2 =
        s1 ∧
      (wxMSWDCImpl_dtor env s1 (wxPaintDCExImpl_ctor W dc s).dc).calls =
        s1.calls ++ [Call.ReleaseDC (if W = 0 then 0 else env.GetHwndOf W) dc]) := by
  have hc : wxPaintDCExImpl_ctor W dc s =
      ⟨s, { InitWindow wxMSWDCImpl_ctor W with m_hDC := dc }, none⟩ := by
    simp [wxPaintDCExImpl_ctor, hdc]
  rw [hc]
  refine ⟨rfl, rfl, rfl, rfl, rfl, ?_⟩
  intro s1
  have hd : wxPaintDCExImpl_destroy env s1
      { InitWindow wxMSWDCImpl_ctor W with m_hDC := dc } = s1 := by
    simp [wxPaintDCExImpl_destroy, wxPaintDCExImpl_dtor, wxPaintDCImpl_destroy,
      wxPaintDCImpl_dtor, wxMSWDCImpl_dtor]
  refine ⟨hd, ?_, rfl, ?_, ?_⟩
  · simp only [hd]
    simp [issued]
  · simp [wxPaintDCExImpl_dtor, wxMSWDCImpl_dtor]
  · simp [wxMSWDCImpl_dtor, hdc, InitWindow, wxMSWDCImpl_ctor, State.log]

/-- A concrete instance of C21: a paint DC of window `2` on the handle `9`,
while window `1` is repainting and has a record. -/
theorem C21_supplied_handle_witness :
    (wxPaintDCExImpl_ctor 2 9
      { gs_PaintDCInfos := [(1, ⟨7, 101, 1⟩)], paintStack := [⟨1, true⟩],
        calls := [Call.BeginPaint 101 1 7], heapNext := 2 }).dc.m_hDC = 9 ∧
    (wxPaintDCExImpl_ctor 2 9
      { gs_PaintDCInfos := [(1, ⟨7, 101, 1⟩)], paintStack := [⟨1, true⟩],
        calls := [Call.BeginPaint 101 1 7], heapNext := 2 }).state =
      { gs_PaintDCInfos := [(1, ⟨7, 101, 1⟩)], paintStack := [⟨1, true⟩],
        calls := [Call.BeginPaint 101 1 7], heapNext := 2 } :=
  have h := C21_supplied_handle sampleEnv 2 9
    { gs_PaintDCInfos := [(1, ⟨7, 101, 1⟩)], paintStack := [⟨1, true⟩],
      calls := [Call.BeginPaint 101 1 7], heapNext := 2 } (by decide)
  ⟨h.2.1, h.2.2.1⟩

/-! ## Calls of the window layer, release of the owning layers -/

/-- Claim C22 at a counterexample: the `wxWindowDCImpl` constructor for window
`2`, `GetWindowDC` returning the handle `8`, issues three calls: after
`GetWindowDC` it sets the background mode of the handle and initialises its
palette. -/
theorem C22_window_ctor_sets_background_mode :
    (wxWindowDCImpl_ctor sampleEnv 8 2 emptyState).state.calls =
      [Call.GetWindowDC 102 8, Call.SetBkMode 8, Call.InitializePalette 8] := by
  decide

/-- Claim C22, amended.  For every non-null window `W`, the calls the
`wxWindowDCImpl` constructor issues are the acquire call `GetWindowDC` on the
native window of `W`, then the calls of `InitDC` on the acquired handle:
`SetBkMode` (to `TRANSPARENT`) and, with `wxUSE_PALETTE`, `InitializePalette`.
`GetWindowDC` is the only acquire call among them and none of them releases a
handle; the context has the acquired handle and the window, and its other
members (ownership, clipping flag, device origin) are as the base class left
them; the map and the paint stack are unchanged. -/
theorem C22_window_ctor_calls (env : Env) (ret : HDC) (W : Window) (s : State)
    (hW : W ≠ 0) :
    issued s (wxWindowDCImpl_ctor env ret W s).state =
      Call.GetWindowDC (env.GetHwndOf W) ret :: Call.SetBkMode ret ::
        (if env.wxUSE_PALETTE then [Call.InitializePalette ret] else []) ∧
    (issued s (wxWindowDCImpl_ctor env ret W s).state).filter Call.isAcquire =
      [Call.GetWindowDC (env.GetHwndOf W) ret] ∧
    (issued s (wxWindowDCImpl_ctor env ret W s).state).filter Call.isRelease = [] ∧
    (wxWindowDCImpl_ctor env ret W s).dc =
      { m_window := W, m_hDC := ret, m_bOwnsDC := false, m_clipping := false,
        m_deviceOrigin := (0, 0) } ∧
    (wxWindowDCImpl_ctor env ret W s).state.gs_PaintDCInfos = s.gs_PaintDCInfos ∧
    (wxWindowDCImpl_ctor env ret W s).state.paintStack = s.paintStack := by
  obtain ⟨-, w2, w3, -, w5⟩ := wxWindowDCImpl_ctor_effect env ret W s hW
  have hi := issued_of_append s _ _ w5
  refine ⟨hi, ?_, ?_, ?_, w2, w3⟩
  · rw [hi]
    split_ifs <;> simp [Call.isAcquire]
  · rw [hi]
    split_ifs <;> simp [Call.isRelease]
  · simp [wxWindowDCImpl_ctor, hW, InitWindow, wxMSWDCImpl_ctor]

/-- A concrete instance of the amended C22: a window DC for window `2`. -/
theorem C22_window_ctor_calls_witness :
    (issued emptyState (wxWindowDCImpl_ctor sampleEnv 8 2 emptyState).state).filter
      Call.isAcquire = [Call.GetWindowDC (sampleEnv.GetHwndOf 2) 8] :=
  (C22_window_ctor_calls sampleEnv 8 2 emptyState (by decide)).2.1

/-- Claim C23.  A `wxWindowDCImpl` or `wxClientDCImpl` constructed for a
non-null window `W` whose acquire call (`GetWindowDC`, respectively `GetDC`, on
the native window of `W`) returned a non-null handle issues, when it is
destroyed in any state, exactly one call: the `ReleaseDC` of that handle on the
native window of `W`. -/
theorem C23_owning_layers_release_once (env : Env) (ret : HDC) (W : Window) (s s1 : State)
    (hW : W ≠ 0) (hret : ret ≠ 0) :
    (∃ extra, (wxWindowDCImpl_ctor env ret W s).state.calls =
      s.calls ++ Call.GetWindowDC (env.GetHwndOf W) ret :: extra) ∧
    issued s1 (wxWindowDCImpl_destroy env s1 (wxWindowDCImpl_ctor env ret W s).dc) =
      [Call.ReleaseDC (env.GetHwndOf W) ret] ∧
    ((issued s1 (wxWindowDCImpl_destroy env s1
      (wxWindowDCImpl_ctor env ret W s).dc)).filter Call.isRelease).length = 1 ∧
    (∃ extra, (wxClientDCImpl_ctor env ret W s).state.calls =
      s.calls ++ Call.GetDC (env.GetHwndOf W) ret :: extra) ∧
    issued s1 (wxClientDCImpl_destroy env s1 (wxClientDCImpl_ctor env ret W s).dc) =
      [Call.ReleaseDC (env.GetHwndOf W) ret] ∧
    ((issued s1 (wxClientDCImpl_destroy env s1
      (wxClientDCImpl_ctor env ret W s).dc)).filter Call.isRelease).length = 1 := by
  have hwdc : (wxWindowDCImpl_ctor env ret W s).dc =
      { m_window := W, m_hDC := ret, m_bOwnsDC := false, m_clipping := false,
        m_deviceOrigin := (0, 0) } := by
    simp [wxWindowDCImpl_ctor, hW, InitWindow, wxMSWDCImpl_ctor]
  have hrel : ∀ d : wxDCImpl, d.m_window = W → d.m_hDC = ret → d.m_bOwnsDC = false →
      wxMSWDCImpl_dtor env s1 d = s1.log (Call.ReleaseDC (env.GetHwndOf W) ret) := by
    intro d h1 h2 h3
    simp [wxMSWDCImpl_dtor, h1, h2, h3, hW, hret]
  have hcm : (wxClientDCImpl_ctor env ret W s).dc.m_window = W ∧
      (wxClientDCImpl_ctor env ret W s).dc.m_bOwnsDC = false := by
    simp only [wxClientDCImpl_ctor, hW, if_false, InitWindow]
    rw [wxClientDCImpl_InitDC_dc]
    dsimp only
    split_ifs <;> exact ⟨rfl, rfl⟩
  obtain ⟨-, -, -, -, w5⟩ := wxWindowDCImpl_ctor_effect env ret W s hW
  obtain ⟨-, -, -, c4, -, extra, c5, -, -⟩ := wxClientDCImpl_ctor_effect env ret W s hW
  have hw : wxWindowDCImpl_destroy env s1 (wxWindowDCImpl_ctor env ret W s).dc =
      s1.log (Call.ReleaseDC (env.GetHwndOf W) ret) := by
    rw [hwdc]; exact hrel _ rfl rfl rfl
  have hcd : wxClientDCImpl_destroy env s1 (wxClientDCImpl_ctor env ret W s).dc =
      s1.log (Call.ReleaseDC (env.GetHwndOf W) ret) :=
    hrel _ hcm.1 c4 hcm.2
  have hiss : issued s1 (s1.log (Call.ReleaseDC (env.GetHwndOf W) ret)) =
      [Call.ReleaseDC (env.GetHwndOf W) ret] := issued_of_append _ _ _ rfl
  refine ⟨⟨_, w5⟩, ?_, ?_, ⟨extra, c5⟩, ?_, ?_⟩
  · rw [hw, hiss]
  · rw [hw, hiss]; rfl
  · rw [hcd, hiss]
  · rw [hcd, hiss]; rfl

/-- A concrete instance of C23: a window DC and a client DC of window `2`. -/
theorem C23_owning_layers_release_once_witness :
    issued emptyState (wxWindowDCImpl_destroy sampleEnv emptyState
      (wxWindowDCImpl_ctor sampleEnv 8 2 emptyState).dc) =
      [Call.ReleaseDC (sampleEnv.GetHwndOf 2) 8] ∧
    issued emptyState (wxClientDCImpl_destroy sampleEnv emptyState
      (wxClientDCImpl_ctor sampleEnv 8 2 emptyState).dc) =
      [Call.ReleaseDC (sampleEnv.GetHwndOf 2) 8] :=
  have h := C23_owning_layers_release_once sampleEnv 8 2 emptyState emptyState
    (by decide) (by decide)
  ⟨h.2.1, h.2.2.2.2.1⟩

/-! ## When the constructor calls `BeginPaint` -/

theorem mapCount_mapAssign_of_some (m : PaintDCInfos) (w : Window)
    (old info : wxPaintDCInfo) (h : mapFind m w = some old) :
    mapCount (mapAssign m w info) w = mapCount m w := by
  induction m with
  | nil => cases h
  | cons e rest ih =>
    obtain ⟨k, v⟩ := e
    by_cases hk : k = w
    · simp [mapAssign, mapCount, hk]
    · simp only [mapFind, hk, if_false] at h
      have := ih h
      simp only [mapCount] at this ⊢
      simp [mapAssign, hk, this]

/-- The lookup `FindDCInCache` gives the null handle exactly when there is no
record or the record holds the null handle. -/
theorem FindDCInCache_eq_zero_iff (s : State) (W : Window) :
    FindDCInCache s W = 0 ↔
      (FindInCache s W = none ∨ ∃ info, FindInCache s W = some info ∧ info.m_hdc = 0) := by
  unfold FindDCInCache
  cases hf : FindInCache s W with
  | none => simp
  | some info => simp [wxPaintDCInfo.GetHDC]

/-- Claim C24.  For every state and every non-null window `W` on top of the
paint stack, the constructor issues a `BeginPaint` (exactly one) and stores a
newly allocated record under `W` if and only if `FindDCInCache(W)` is null, that
is when `W` has no record or its record holds the null handle; otherwise it
issues none and leaves the map as it is.  It never issues an `EndPaint`: when
the record of `W` holds the null handle, that record is replaced in the map, in
place, by the new one, and no `EndPaint` is issued for it. -/
theorem C24_BeginPaint_iff_null_lookup (env : Env) (ret : HDC) (W : Window) (s : State)
    (top : PaintData) (below : List PaintData)
    (hW : W ≠ 0) (hs : s.paintStack = top :: below) (ht : top.window = W) :
    (FindDCInCache s W = 0 ↔
      (FindInCache s W = none ∨ ∃ info, FindInCache s W = some info ∧ info.m_hdc = 0)) ∧
    countBeginPaint (wxPaintDCImpl_ctor env ret W s).state.calls =
      countBeginPaint s.calls + (if FindDCInCache s W = 0 then 1 else 0) ∧
    countEndPaint (wxPaintDCImpl_ctor env ret W s).state.calls = countEndPaint s.calls ∧
    (FindDCInCache s W = 0 →
      (∃ extra, (wxPaintDCImpl_ctor env ret W s).state.calls =
        s.calls ++ Call.BeginPaint (env.GetHwndOf W) s.heapNext ret :: extra) ∧
      (wxPaintDCImpl_ctor env ret W s).state.gs_PaintDCInfos =
        mapAssign s.gs_PaintDCInfos W
          { m_hdc := ret, m_hwnd := env.GetHwndOf W, m_ps := s.heapNext } ∧
      FindInCache (wxPaintDCImpl_ctor env ret W s).state W =
        some { m_hdc := ret, m_hwnd := env.GetHwndOf W, m_ps := s.heapNext } ∧
      (wxPaintDCImpl_ctor env ret W s).state.heapNext = s.heapNext + 1) ∧
    (FindDCInCache s W ≠ 0 →
      (wxPaintDCImpl_ctor env ret W s).state.gs_PaintDCInfos = s.gs_PaintDCInfos ∧
      (wxPaintDCImpl_ctor env ret W s).state.heapNext = s.heapNext) ∧
    (∀ old, FindInCache s W = some old → old.m_hdc = 0 →
      FindInCache (wxPaintDCImpl_ctor env ret W s).state W =
        some { m_hdc := ret, m_hwnd := env.GetHwndOf W, m_ps := s.heapNext } ∧
      mapCount (wxPaintDCImpl_ctor env ret W s).state.gs_PaintDCInfos W =
        mapCount s.gs_PaintDCInfos W ∧
      (old.m_ps ≠ s.heapNext →
        FindInCache (wxPaintDCImpl_ctor env ret W s).state W ≠ some old) ∧
      ∀ x ∈ issued s (wxPaintDCImpl_ctor env ret W s).state, x.isEndPaint = false) := by
  obtain ⟨-, -, -, hcase⟩ := wxPaintDCImpl_ctor_pass_effect env ret W s top below hW hs ht
  have hiff := FindDCInCache_eq_zero_iff s W
  have hone : ∀ extra : List Call, (∀ x ∈ extra, x.isBeginPaint = false ∧ x.isEndPaint = false) →
      countBeginPaint (s.calls ++ Call.BeginPaint (env.GetHwndOf W) s.heapNext ret :: extra) =
        countBeginPaint s.calls + 1 ∧
      countEndPaint (s.calls ++ Call.BeginPaint (env.GetHwndOf W) s.heapNext ret :: extra) =
        countEndPaint s.calls := by
    intro extra hx
    rw [show Call.BeginPaint (env.GetHwndOf W) s.heapNext ret :: extra =
      [Call.BeginPaint (env.GetHwndOf W) s.heapNext ret] ++ extra from rfl,
      countBeginPaint_append, countBeginPaint_append, countEndPaint_append,
      countEndPaint_append, countBeginPaint_eq_zero extra (fun x hx' => (hx x hx').1),
      countEndPaint_eq_zero extra (fun x hx' => (hx x hx').2)]
    exact ⟨rfl, rfl⟩
  rcases hcase with ⟨h0, hm, hh, -, extra, hc, hx⟩ | ⟨h0, hm, hh, -, extra, hc, hx⟩
  · refine ⟨hiff, ?_, ?_, fun h => absurd h h0, fun _ => ⟨hm, hh⟩, ?_⟩
    · rw [hc, countBeginPaint_append, countBeginPaint_eq_zero extra (fun x hx' => (hx x hx').1)]
      simp [h0]
    · rw [hc, countEndPaint_append, countEndPaint_eq_zero extra (fun x hx' => (hx x hx').2)]
      rfl
    · intro old hold hnull
      exact absurd (hiff.2 (Or.inr ⟨old, hold, hnull⟩)) h0
  · have hfind : FindInCache (wxPaintDCImpl_ctor env ret W s).state W =
        some { m_hdc := ret, m_hwnd := env.GetHwndOf W, m_ps := s.heapNext } := by
      unfold FindInCache; rw [hm]; exact mapFind_mapAssign_self _ _ _
    refine ⟨hiff, ?_, ?_, fun _ => ⟨⟨extra, hc⟩, hm, hfind, hh⟩, fun h => absurd h0 h, ?_⟩
    · rw [hc, (hone extra hx).1]
      simp [h0]
    · rw [hc, (hone extra hx).2]
    · intro old hold _
      refine ⟨hfind, ?_, ?_, ?_⟩
      · rw [hm]; exact mapCount_mapAssign_of_some _ _ old _ hold
      · intro hps heq
        rw [hfind] at heq
        injection heq with heq
        rw [← heq] at hps
        exact hps rfl
      · rw [issued_of_append s _ _ hc]
        intro x hx'
        rcases List.mem_cons.1 hx' with rfl | hx'
        · rfl
        · exact (hx x hx').2

/-- A concrete instance of C24: window `1` is repainting and its record holds
the null handle; the constructor, `BeginPaint` returning `5`, replaces it. -/
theorem C24_BeginPaint_iff_null_lookup_witness :
    countBeginPaint (wxPaintDCImpl_ctor sampleEnv 5 1
      { gs_PaintDCInfos := [(1, ⟨0, 101, 1⟩)], paintStack := [⟨1, true⟩],
        calls := [Call.BeginPaint 101 1 0], heapNext := 2 }).state.calls =
      countBeginPaint [Call.BeginPaint 101 1 0] +
        (if FindDCInCache
          { gs_PaintDCInfos := [(1, ⟨0, 101, 1⟩)], paintStack := [⟨1, true⟩],
            calls := [Call.BeginPaint 101 1 0], heapNext := 2 } 1 = 0 then 1 else 0) :=
  (C24_BeginPaint_iff_null_lookup sampleEnv 5 1
    { gs_PaintDCInfos := [(1, ⟨0, 101, 1⟩)], paintStack := [⟨1, true⟩],
      calls := [Call.BeginPaint 101 1 0], heapNext := 2 }
    ⟨1, true⟩ [] (by decide) rfl rfl).2.1

/-- Claim C25.  When the non-null window `W` is on top of the paint stack and
has no record, and `BeginPaint` returns the null handle, then after the
constructor the map holds a record for `W` (`FindInCache(W)` is non-null) whose
handle is null (`FindDCInCache(W)` is null); the only call issued is the
`BeginPaint`, so no origin adjustment is made, and the device origin and the
clipping flag of the context are as the base class left them.  A subsequent
`EndPaint(W)` issues exactly one call, the `EndPaint` on the window and the
paint structure of that `BeginPaint`, and erases the entry. -/
theorem C25_failed_acquisition_registered (env : Env) (W : Window) (s : State)
    (top : PaintData) (below : List PaintData)
    (hW : W ≠ 0) (hs : s.paintStack = top :: below) (ht : top.window = W)
    (hrec : FindInCache s W = none) :
    FindInCache (wxPaintDCImpl_ctor env 0 W s).state W =
      some { m_hdc := 0, m_hwnd := env.GetHwndOf W, m_ps := s.heapNext } ∧
    FindDCInCache (wxPaintDCImpl_ctor env 0 W s).state W = 0 ∧
    issued s (wxPaintDCImpl_ctor env 0 W s).state =
      [Call.BeginPaint (env.GetHwndOf W) s.heapNext 0] ∧
    (issued s (wxPaintDCImpl_ctor env 0 W s).state).filter Call.isSetDeviceOrigin = [] ∧
    (wxPaintDCImpl_ctor env 0 W s).dc.m_deviceOrigin = wxMSWDCImpl_ctor.m_deviceOrigin ∧
    (wxPaintDCImpl_ctor env 0 W s).dc.m_clipping = false ∧
    issued (wxPaintDCImpl_ctor env 0 W s).state
        (EndPaint W (wxPaintDCImpl_ctor env 0 W s).state) =
      [Call.EndPaint (env.GetHwndOf W) s.heapNext] ∧
    countEndPaint (EndPaint W (wxPaintDCImpl_ctor env 0 W s).state).calls =
      countEndPaint s.calls + 1 ∧
    FindInCache (EndPaint W (wxPaintDCImpl_ctor env 0 W s).state) W = none ∧
    mapCount (EndPaint W (wxPaintDCImpl_ctor env 0 W s).state).gs_PaintDCInfos W = 0 := by
  have h0 : FindDCInCache { s with paintStack := { top with createdPaintDC := true } :: below }
      (InitWindow wxMSWDCImpl_ctor W).m_window = 0 := by
    show FindDCInCache _ W = 0
    unfold FindDCInCache
    rw [show FindInCache { s with paintStack := { top with createdPaintDC := true } :: below } W
      = FindInCache s W from rfl, hrec]
  have hacq := wxPaintDCImpl_acquire_new env 0
    { s with paintStack := { top with createdPaintDC := true } :: below }
    (InitWindow wxMSWDCImpl_ctor W) h0
  have hctor := wxPaintDCImpl_ctor_pass env 0 W s top below hW hs ht
  rw [hacq] at hctor
  simp only [InitWindow, if_true] at hctor
  have hfind : FindInCache (wxPaintDCImpl_ctor env 0 W s).state W =
      some { m_hdc := 0, m_hwnd := env.GetHwndOf W, m_ps := s.heapNext } := by
    rw [hctor]; exact mapFind_mapAssign_self _ _ _
  have hiss : issued s (wxPaintDCImpl_ctor env 0 W s).state =
      [Call.BeginPaint (env.GetHwndOf W) s.heapNext 0] := by
    rw [hctor]; exact issued_of_append _ _ _ rfl
  have hE : EndPaint W (wxPaintDCImpl_ctor env 0 W s).state =
      wxPaintDCInfo_delete { m_hdc := 0, m_hwnd := env.GetHwndOf W, m_ps := s.heapNext }
        { (wxPaintDCImpl_ctor env 0 W s).state with
          gs_PaintDCInfos :=
            mapErase (wxPaintDCImpl_ctor env 0 W s).state.gs_PaintDCInfos W } := by
    unfold EndPaint; rw [hfind]
  refine ⟨hfind, ?_, hiss, ?_, ?_, ?_, ?_, ?_, ?_, ?_⟩
  · unfold FindDCInCache; rw [hfind]; rfl
  · rw [hiss]; rfl
  · rw [hctor]
  · rw [hctor]; rfl
  · rw [hE]; exact issued_of_append _ _ _ rfl
  · rw [hE]
    show countEndPaint ((wxPaintDCImpl_ctor env 0 W s).state.calls ++ [_]) = _
    rw [countEndPaint_append, hctor]
    show countEndPaint (s.calls ++ [_]) + _ = _
    rw [countEndPaint_append]
    rfl
  · rw [hE]; exact mapFind_mapErase_self _ _
  · rw [hE]; exact mapCount_mapErase_self _ _

/-- A concrete instance of C25: the first paint DC of window `2`, whose
client-area origin is `(0, 24)`, `BeginPaint` failing. -/
theorem C25_failed_acquisition_registered_witness :
    FindInCache (wxPaintDCImpl_ctor sampleEnv 0 2 (paintStack_push 2 emptyState)).state 2 =
      some { m_hdc := 0, m_hwnd := sampleEnv.GetHwndOf 2, m_ps := 1 } ∧
    (wxPaintDCImpl_ctor sampleEnv 0 2 (paintStack_push 2 emptyState)).dc.m_clipping = false ∧
    issued (wxPaintDCImpl_ctor sampleEnv 0 2 (paintStack_push 2 emptyState)).state
        (EndPaint 2 (wxPaintDCImpl_ctor sampleEnv 0 2 (paintStack_push 2 emptyState)).state) =
      [Call.EndPaint (sampleEnv.GetHwndOf 2) 1] :=
  have h := C25_failed_acquisition_registered sampleEnv 2 (paintStack_push 2 emptyState)
    ⟨2, false⟩ [] (by decide) rfl rfl rfl
  ⟨h.1, h.2.2.2.2.2.1, h.2.2.2.2.2.2.1⟩

/-! ## The flag `createdPaintDC` and the null-argument guards -/

/-- A constructor that reports a failed check has left the state as it was. -/
theorem wxPaintDCImpl_ctor_failed_state (env : Env) (ret : HDC) (W : Window) (s : State)
    (h : (wxPaintDCImpl_ctor env ret W s).failed ≠ none) :
    (wxPaintDCImpl_ctor env ret W s).state = s := by
  by_cases hW : W = 0
  · exact (wxPaintDCImpl_ctor_fail env ret W s (Or.inl hW)).1
  cases hs : s.paintStack with
  | nil => exact (wxPaintDCImpl_ctor_fail env ret W s (Or.inr (Or.inl hs))).1
  | cons top below =>
    by_cases ht : top.window = W
    · exact absurd (wxPaintDCImpl_ctor_pass_effect env ret W s top below hW hs ht).1 h
    · exact (wxPaintDCImpl_ctor_fail env ret W s (Or.inr (Or.inr ⟨top, below, hs, ht⟩))).1

/-- Claim C26.  A constructor that passes its checks (non-null window `W` on
top of the paint stack) leaves the paint stack with its top entry flagged
`createdPaintDC = true`, the window of that entry and all entries below it
unchanged, whatever handle `BeginPaint` returns, the null one included; a
constructor that fails a check leaves the paint stack, flags included, as it
was.  In all cases the depth of the stack, the window of every entry and the
entries below the top are unchanged. -/
theorem C26_createdPaintDC_bookkeeping (env : Env) (ret : HDC) (W : Window) (s : State) :
    (∀ top below, W ≠ 0 → s.paintStack = top :: below → top.window = W →
      (wxPaintDCImpl_ctor env ret W s).failed = none ∧
      (wxPaintDCImpl_ctor env ret W s).state.paintStack =
        { window := top.window, createdPaintDC := true } :: below) ∧
    ((wxPaintDCImpl_ctor env ret W s).failed ≠ none →
      (wxPaintDCImpl_ctor env ret W s).state.paintStack = s.paintStack) ∧
    (wxPaintDCImpl_ctor env ret W s).state.paintStack.length = s.paintStack.length ∧
    (wxPaintDCImpl_ctor env ret W s).state.paintStack.map PaintData.window =
      s.paintStack.map PaintData.window ∧
    (wxPaintDCImpl_ctor env ret W s).state.paintStack.tail = s.paintStack.tail := by
  have hwin := wxPaintDCImpl_ctor_stack_windows env ret W s
  refine ⟨?_, ?_, ?_, hwin, ?_⟩
  · intro top below hW hs ht
    obtain ⟨hf, hst, -⟩ := wxPaintDCImpl_ctor_pass_effect env ret W s top below hW hs ht
    exact ⟨hf, hst⟩
  · intro h
    rw [wxPaintDCImpl_ctor_failed_state env ret W s h]
  · have := congrArg List.length hwin
    simpa using this
  · by_cases hfail : (wxPaintDCImpl_ctor env ret W s).failed = none
    · by_cases hW : W = 0
      · rw [(wxPaintDCImpl_ctor_fail env ret W s (Or.inl hW)).1]
      cases hs : s.paintStack with
      | nil => rw [(wxPaintDCImpl_ctor_fail env ret W s (Or.inr (Or.inl hs))).1, hs]
      | cons top below =>
        by_cases ht : top.window = W
        · rw [(wxPaintDCImpl_ctor_pass_effect env ret W s top below hW hs ht).2.1]
          rfl
        · rw [(wxPaintDCImpl_ctor_fail env ret W s
            (Or.inr (Or.inr ⟨top, below, hs, ht⟩))).1, hs]
    · rw [wxPaintDCImpl_ctor_failed_state env ret W s hfail]

/-- Claim C27.  The constructors of `wxWindowDCImpl`, `wxClientDCImpl` and
`wxPaintDCImpl` called with a null window, and the one of `wxPaintDCExImpl`
called with a null handle, fail their first check and return the state they
were given and the object as the base class left it: nothing is logged (no
`GetWindowDC`, `GetDC` or `BeginPaint`), the handle of the context is null, and
the map and the paint stack, flags included, are unchanged. -/
theorem C27_null_argument_guards (env : Env) (ret : HDC) (W : Window) (s : State) :
    wxWindowDCImpl_ctor env ret 0 s =
      ⟨s, wxMSWDCImpl_ctor, some CheckFailure.invalidWindow⟩ ∧
    wxClientDCImpl_ctor env ret 0 s =
      ⟨s, wxMSWDCImpl_ctor, some CheckFailure.invalidWindow⟩ ∧
    wxPaintDCImpl_ctor env ret 0 s =
      ⟨s, wxMSWDCImpl_ctor, some CheckFailure.nullCanvas⟩ ∧
    wxPaintDCExImpl_ctor W 0 s =
      ⟨s, wxMSWDCImpl_ctor, some CheckFailure.noDeviceContext⟩ ∧
    wxMSWDCImpl_ctor.m_hDC = 0 ∧
    issued s (wxWindowDCImpl_ctor env ret 0 s).state = [] ∧
    issued s (wxClientDCImpl_ctor env ret 0 s).state = [] ∧
    issued s (wxPaintDCImpl_ctor env ret 0 s).state = [] ∧
    issued s (wxPaintDCExImpl_ctor W 0 s).state = [] := by
  have h1 : wxWindowDCImpl_ctor env ret 0 s =
      ⟨s, wxMSWDCImpl_ctor, some CheckFailure.invalidWindow⟩ := by
    simp [wxWindowDCImpl_ctor]
  have h2 : wxClientDCImpl_ctor env ret 0 s =
      ⟨s, wxMSWDCImpl_ctor, some CheckFailure.invalidWindow⟩ := by
    simp [wxClientDCImpl_ctor]
  have h3 : wxPaintDCImpl_ctor env ret 0 s =
      ⟨s, wxMSWDCImpl_ctor, some CheckFailure.nullCanvas⟩ := by
    simp [wxPaintDCImpl_ctor]
  have h4 : wxPaintDCExImpl_ctor W 0 s =
      ⟨s, wxMSWDCImpl_ctor, some CheckFailure.noDeviceContext⟩ := by
    simp [wxPaintDCExImpl_ctor]
  have hi : issued s s = [] := by simp [issued]
  refine ⟨h1, h2, h3, h4, rfl, ?_, ?_, ?_, ?_⟩
  · rw [h1]; exact hi
  · rw [h2]; exact hi
  · rw [h3]; exact hi
  · rw [h4]; exact hi

/-! ## Reported size -/

/-- Claim C28.  For a context with a window, `wxWindowDCImpl::DoGetSize` gives
the size of the window and `wxClientDCImpl::DoGetSize`, which paint DCs
inherit, the size of its client area; for a context without a window both
leave the output values as they were.  In particular a context constructed for
a non-null window `W` (a paint DC with its checks passed) reports the size,
respectively the client size, of `W`. -/
theorem C28_reported_size (env : Env) (dc : wxDCImpl) (out : Int × Int) :
    (dc.m_window ≠ 0 →
      wxWindowDCImpl_DoGetSize env dc out = env.GetSize dc.m_window ∧
      wxClientDCImpl_DoGetSize env dc out = env.GetClientSize dc.m_window) ∧
    (dc.m_window = 0 →
      wxWindowDCImpl_DoGetSize env dc out = out ∧
      wxClientDCImpl_DoGetSize env dc out = out) ∧
    (∀ ret W s, W ≠ 0 →
      wxWindowDCImpl_DoGetSize env (wxWindowDCImpl_ctor env ret W s).dc out = env.GetSize W ∧
      wxClientDCImpl_DoGetSize env (wxClientDCImpl_ctor env ret W s).dc out =
        env.GetClientSize W) ∧
    (∀ ret W s top below, W ≠ 0 → s.paintStack = top :: below → top.window = W →
      wxClientDCImpl_DoGetSize env (wxPaintDCImpl_ctor env ret W s).dc out =
        env.GetClientSize W) := by
  refine ⟨?_, ?_, ?_, ?_⟩
  · intro h
    simp [wxWindowDCImpl_DoGetSize, wxClientDCImpl_DoGetSize, h]
  · intro h
    simp [wxWindowDCImpl_DoGetSize, wxClientDCImpl_DoGetSize, h]
  · intro ret W s hW
    have hw : (wxWindowDCImpl_ctor env ret W s).dc.m_window = W := by
      simp [wxWindowDCImpl_ctor, hW, InitWindow]
    have hc : (wxClientDCImpl_ctor env ret W s).dc.m_window = W := by
      simp only [wxClientDCImpl_ctor, hW, if_false, InitWindow]
      rw [wxClientDCImpl_InitDC_dc]
      dsimp only
      split_ifs <;> rfl
    simp [wxWindowDCImpl_DoGetSize, wxClientDCImpl_DoGetSize, hw, hc, hW]
  · intro ret W s top below hW hs ht
    have hw := (wxPaintDCImpl_ctor_pass_effect env ret W s top below hW hs ht).2.2.1
    simp [wxClientDCImpl_DoGetSize, hw, hW]

/-! ## The comparator of the list-control test -/

theorem MyCompareFunction_nonpos_iff (a b sortData : Int) :
    MyCompareFunction a b sortData ≤ 0 ↔ b ≤ a := by
  unfold MyCompareFunction
  split_ifs with h1 h2
  · constructor
    · intro h; omega
    · intro h; omega
  · constructor
    · intro _; omega
    · intro _; omega
  · constructor
    · intro _; omega
    · intro _; omega

/-- Claim C29.  For all integers `a`, `b` and every `sortData`,
`MyCompareFunction(a, b, sortData)` is `1` when `a < b`, `-1` when `a > b` and
`0` when `a = b`; it is the negation of the natural three-way comparison, it
satisfies `MyCompareFunction(a, b) = -MyCompareFunction(b, a)`, and it does not
depend on `sortData`.  A list is ordered by it (the callback is not positive
between an item and any later one) exactly when it is descending; so sorting by
it gives a descending rearrangement of the item data, and the data `0, 1` of the
test end up as `1, 0`. -/
theorem C29_MyCompareFunction_inverts (a b sortData : Int) :
    (a < b → MyCompareFunction a b sortData = 1) ∧
    (a > b → MyCompareFunction a b sortData = -1) ∧
    (a = b → MyCompareFunction a b sortData = 0) ∧
    MyCompareFunction a b sortData = -naturalCompare a b ∧
    MyCompareFunction a b sortData = -MyCompareFunction b a sortData ∧
    (∀ sortData2, MyCompareFunction a b sortData2 = MyCompareFunction a b sortData) ∧
    (∀ l : List Int,
      l.Pairwise (fun x y => MyCompareFunction x y sortData ≤ 0) ↔
        l.Pairwise (fun x y => x ≥ y)) ∧
    (∀ l : List Int,
      (SortItems MyCompareFunction sortData l).Pairwise (fun x y => x ≥ y) ∧
      (SortItems MyCompareFunction sortData l).Perm l) ∧
    SortItems MyCompareFunction sortData [0, 1] = [1, 0] := by
  refine ⟨?_, ?_, ?_, ?_, ?_, ?_, ?_, ?_, ?_⟩
  · intro h
    simp [MyCompareFunction, h]
  · intro h
    have h1 : ¬ a < b := by omega
    simp [MyCompareFunction, h1, h]
  · intro h
    subst h
    simp [MyCompareFunction]
  · unfold MyCompareFunction naturalCompare
    split_ifs <;> first | rfl | omega
  · unfold MyCompareFunction
    split_ifs <;> first | rfl | omega
  · intro sortData2
    rfl
  · intro l
    constructor
    · intro h
      exact h.imp (fun hxy => (MyCompareFunction_nonpos_iff _ _ sortData).1 hxy)
    · intro h
      exact h.imp (fun hxy => (MyCompareFunction_nonpos_iff _ _ sortData).2 hxy)
  · intro l
    haveI : IsTotal Int (fun x y => MyCompareFunction x y sortData ≤ 0) :=
      ⟨fun x y => by
        rcases le_total y x with h | h
        · exact Or.inl ((MyCompareFunction_nonpos_iff x y sortData).2 h)
        · exact Or.inr ((MyCompareFunction_nonpos_iff y x sortData).2 h)⟩
    haveI : IsTrans Int (fun x y => MyCompareFunction x y sortData ≤ 0) :=
      ⟨fun x y z hxy hyz =>
        (MyCompareFunction_nonpos_iff x z sortData).2
          (le_trans ((MyCompareFunction_nonpos_iff y z sortData).1 hyz)
            ((MyCompareFunction_nonpos_iff x y sortData).1 hxy))⟩
    refine ⟨?_, ?_⟩
    · have hs := List.sorted_insertionSort
        (fun x y => MyCompareFunction x y sortData ≤ 0) l
      exact List.Pairwise.imp
        (fun hxy => (MyCompareFunction_nonpos_iff _ _ sortData).1 hxy) hs
    · exact List.perm_insertionSort _ l
  · simp [SortItems, MyCompareFunction]

/-! ## A paint DC with the null handle gets no origin adjustment -/

/-- Once the checks of the constructor have passed, a context whose handle is
null has the device origin the base class gave it and no `SetDeviceOrigin` was
issued for it, whatever the client-area origin of the window. -/
theorem wxPaintDCImpl_ctor_null_handle_no_origin_adjustment (env : Env) (ret : HDC)
    (W : Window) (s : State) (top : PaintData) (below : List PaintData)
    (hW : W ≠ 0) (hs : s.paintStack = top :: below) (ht : top.window = W)
    (hnull : (wxPaintDCImpl_ctor env ret W s).dc.m_hDC = 0) :
    (wxPaintDCImpl_ctor env ret W s).dc.m_deviceOrigin = (0, 0) ∧
    (issued s (wxPaintDCImpl_ctor env ret W s).state).filter Call.isSetDeviceOrigin = [] := by
  have hdc := wxPaintDCImpl_ctor_pass_dc env ret W s top below hW hs ht
  obtain ⟨extra, hc, hfil⟩ :=
    wxPaintDCImpl_ctor_pass_origin_calls env ret W s top below hW hs ht
  refine ⟨?_, ?_⟩
  · rw [hdc]; simp only [hnull, if_true]
  · rw [issued_of_append s _ extra hc, hfil]
    simp [hnull]

end WxPaint
